import Mathlib

/-!
Verification model of the parking reservation system
(`parking_system.py`, `heap_allocator.py`, `queue_gate.py`, `stack_undo.py`,
`models.py`).

Modelling conventions (shallow embedding):
* Python objects become Lean records; in-place mutation becomes functional
  state update.  Spot objects live in the pool list `spots`; every
  mutation of a spot's `status` is an update of that list, and every other
  structure references spots by `spot_id` (the Python heap stores object
  references, but those references are always to the pool's objects, so
  looking the id up in the pool is observationally the same).
* `heapq`'s binary heap of `(spot_id, spot)` pairs is modelled as the
  multiset of its `spot_id`s kept as a sorted list; `heappop` takes the
  minimum, `heappush` inserts — this is exactly the priority-multiset
  behaviour of the Python heap.
* `uuid.uuid4` reservation-id generation is modelled by a fresh counter
  (`counter` field): ids are opaque unique tokens; the only property the
  code relies on is freshness.
* The FIFO `Queue` (linked list) is a `List Nat` of reservation ids:
  `enqueue` appends, `enqueue_front` conses, `dequeue` takes the head.
* The `CircularQueue` ring buffer is modelled field-for-field
  (buffer, head, tail, count, capacity).
* The undo `Stack` (Python list, push/pop at the end) is a `List UndoOp`
  with the top at the head.
* Return messages (Chinese strings) are modelled as result tags where the
  distinction matters (`ProcResult`), otherwise as `Bool`/`Option`.
-/

namespace Parking

/-- `models.SpotStatus`. -/
inductive SpotStatus
  | EMPTY
  | RESERVED
  | OCCUPIED
deriving DecidableEq

/-- `models.ReservationStatus`. -/
inductive ReservationStatus
  | RESERVATION
  | WAITING
  | ACTIVE
  | CANCELED
  | DONE
deriving DecidableEq

/-- `models.ParkingSpot`. -/
structure ParkingSpot where
  spot_id : String
  floor : Nat
  spot_type : String
  status : SpotStatus
deriving DecidableEq

/-- `models.Reservation` (`reservation_id` is the fresh-counter model of the
uuid-generated string id). -/
structure Reservation where
  reservation_id : Nat
  username : String
  license_plate : String
  spot_id : String
  start_time : Int
  end_time : Int
  status : ReservationStatus
  gate : Option String
deriving DecidableEq

/-- `stack_undo.UndoOp`. -/
structure UndoOp where
  op_type : String
  reservation_id : Nat
deriving DecidableEq

/-- ASCII whitespace as stripped by Python's `str.strip()`. -/
def isWs (c : Char) : Bool :=
  c.toNat = 32 ∨ c.toNat = 9 ∨ c.toNat = 10 ∨ c.toNat = 11 ∨ c.toNat = 12 ∨ c.toNat = 13

/-- Python's `str.strip()` (on the ASCII inputs this system handles). -/
def sTrim (s : String) : String :=
  ⟨((s.data.dropWhile isWs).reverse.dropWhile isWs).reverse⟩

/-- Strict lexicographic order on code-point lists: Python's `<` on strings
restricted to the id alphabet used here. -/
def strLtl : List Char → List Char → Bool
  | [], [] => false
  | [], _ :: _ => true
  | _ :: _, [] => false
  | a :: as, b :: bs =>
    if a.toNat < b.toNat then true
    else if a.toNat = b.toNat then strLtl as bs
    else false

/-- Python's `<` on strings (lexicographic by code point). -/
def strLt (a b : String) : Bool := strLtl a.data b.data

/-- Python's `<=` on strings. -/
def strLe (a b : String) : Bool := !(strLtl b.data a.data)

/-- The heap order as a relation (for sortedness statements). -/
def sLeP (a b : String) : Prop := strLe a b = true

instance (a b : String) : Decidable (sLeP a b) := by unfold sLeP; infer_instance

/-- Keyed insertion into the sorted multiset modelling the binary heap. -/
def heapInsert (sid : String) : List String → List String
  | [] => [sid]
  | x :: xs => if strLe sid x then sid :: x :: xs else x :: heapInsert sid xs

/-- `heap_allocator.ParkingSpotHeap.add_spot`: inserts only when the spot's
current status is EMPTY (the heap itself is the sorted multiset of ids). -/
def add_spot (spot : ParkingSpot) (heap : List String) : List String :=
  if spot.status = SpotStatus.EMPTY then heapInsert spot.spot_id heap else heap

/-- `heap_allocator.ParkingSpotHeap.pop_best_spot`: pop minimum entries,
discarding stale ones (whose spot is no longer EMPTY), until a valid one is
found.  The spot a heap entry references is the pool's spot with that id. -/
def pop_best_spot (spots : List ParkingSpot) : List String → Option ParkingSpot × List String
  | [] => (none, [])
  | sid :: rest =>
    match spots.find? (fun sp => sp.spot_id == sid) with
    | some sp =>
      if sp.status = SpotStatus.EMPTY then (some sp, rest) else pop_best_spot spots rest
    | none => pop_best_spot spots rest

/-- `queue_gate.CircularQueue`, field for field. -/
structure CircularQueue where
  capacity : Nat
  buf : List (Option String)
  head : Nat
  tail : Nat
  count : Nat
deriving DecidableEq

/-- `CircularQueue.enqueue`. -/
def cq_enqueue (q : CircularQueue) (item : String) : Bool × CircularQueue :=
  if q.count = q.capacity then (false, q)
  else (true, { q with buf := q.buf.set q.tail (some item),
                       tail := (q.tail + 1) % q.capacity,
                       count := q.count + 1 })

/-- `CircularQueue.dequeue`. -/
def cq_dequeue (q : CircularQueue) : Option String × CircularQueue :=
  if q.count = 0 then (none, q)
  else (q.buf.getD q.head none,
        { q with buf := q.buf.set q.head none,
                 head := (q.head + 1) % q.capacity,
                 count := q.count - 1 })

/-- One dequeue/enqueue cycle on the gate ring (as performed by the undo of a
check-in processing step). -/
def cq_cycle (q : CircularQueue) : CircularQueue :=
  match cq_dequeue q with
  | (none, q1) => q1
  | (some g, q1) => (cq_enqueue q1 g).2

/-- `n` dequeue/enqueue cycles. -/
def cq_cycles : Nat → CircularQueue → CircularQueue
  | 0, q => q
  | n + 1, q => cq_cycles n (cq_cycle q)

/-- The full system state (`ParkingSystem.__init__` fields). -/
structure SysState where
  spots : List ParkingSpot
  reservations : List Reservation
  available_normal : List String
  available_ev : List String
  entry_queue : List Nat
  queued_set : Finset Nat
  gates : CircularQueue
  undo_stack : List UndoOp
  counter : Nat
deriving DecidableEq

/-- `self.reservations.get(rid)` (the ledger dict, modelled as a list with
unique ids). -/
def getResv (s : SysState) (rid : Nat) : Option Reservation :=
  s.reservations.find? (fun r => r.reservation_id == rid)

/-- `ParkingSystem.get_spot_by_id` (linear scan, first match). -/
def get_spot_by_id (spots : List ParkingSpot) (sid : String) : Option ParkingSpot :=
  spots.find? (fun sp => sp.spot_id == sid)

/-- In-place mutation `spot.status = st` of the pool spot with id `sid`. -/
def setSpotStatus (spots : List ParkingSpot) (sid : String) (st : SpotStatus) :
    List ParkingSpot :=
  spots.map (fun sp => if sp.spot_id = sid then { sp with status := st } else sp)

/-- In-place mutation of the ledger entry with id `rid`. -/
def setResv (resv : List Reservation) (rid : Nat) (f : Reservation → Reservation) :
    List Reservation :=
  resv.map (fun r => if r.reservation_id = rid then f r else r)

/-- Python dict assignment `self.reservations[rid] = r`: replace an existing
key, or append a new one (insertion order preserved). -/
def insertResv (resv : List Reservation) (r : Reservation) : List Reservation :=
  if resv.any (fun x => x.reservation_id == r.reservation_id)
  then resv.map (fun x => if x.reservation_id = r.reservation_id then r else x)
  else resv ++ [r]

/-- Which of the two allocators `_select_heap` picks. -/
inductive HeapTag
  | normal
  | ev
deriving DecidableEq

/-- `ParkingSystem._select_heap`. -/
def select_heap (spot_type : String) : Option HeapTag :=
  if spot_type = "EV" then some HeapTag.ev
  else if spot_type = "normal" then some HeapTag.normal
  else none

/-- Read the heap an allocator tag denotes. -/
def getHeap (s : SysState) : HeapTag → List String
  | HeapTag.normal => s.available_normal
  | HeapTag.ev => s.available_ev

/-- Write the heap an allocator tag denotes. -/
def setHeap (s : SysState) (t : HeapTag) (h : List String) : SysState :=
  match t with
  | HeapTag.normal => { s with available_normal := h }
  | HeapTag.ev => { s with available_ev := h }

/-- `ParkingSystem.reserve`. -/
def reserve (s : SysState) (username license_plate : String)
    (start_time end_time : Int) (spot_type : String) : Option Reservation × SysState :=
  if sTrim username = "" then (none, s)
  else if sTrim license_plate = "" then (none, s)
  else if end_time ≤ start_time then (none, s)
  else
    match select_heap spot_type with
    | none => (none, s)
    | some t =>
      match pop_best_spot s.spots (getHeap s t) with
      | (none, h') => (none, setHeap s t h')
      | (some spot, h') =>
        let s1 := setHeap s t h'
        let s2 := { s1 with spots := setSpotStatus s1.spots spot.spot_id SpotStatus.RESERVED }
        let rid := s2.counter
        let r : Reservation :=
          { reservation_id := rid, username := sTrim username,
            license_plate := sTrim license_plate, spot_id := spot.spot_id,
            start_time := start_time, end_time := end_time,
            status := ReservationStatus.RESERVATION, gate := none }
        (some r, { s2 with reservations := insertResv s2.reservations r,
                           counter := s2.counter + 1,
                           undo_stack := ⟨"RESERVE", rid⟩ :: s2.undo_stack })

/-- `ParkingSystem.cancel_reservation`.  Note the faithful order: the
membership-set removal happens before the OCCUPIED check. -/
def cancel_reservation (s : SysState) (rid : Nat) : Bool × SysState :=
  match getResv s rid with
  | none => (false, s)
  | some r =>
    if ¬(r.status = ReservationStatus.RESERVATION ∨ r.status = ReservationStatus.WAITING)
    then (false, s)
    else
      match get_spot_by_id s.spots r.spot_id with
      | none => (false, s)
      | some spot =>
        let s1 := { s with queued_set := s.queued_set.erase rid }
        if spot.status = SpotStatus.OCCUPIED then (false, s1)
        else
          let s2 := { s1 with
            reservations := setResv s1.reservations rid
              (fun x => { x with status := ReservationStatus.CANCELED }),
            spots := setSpotStatus s1.spots spot.spot_id SpotStatus.EMPTY }
          match select_heap spot.spot_type with
          | none => (false, s2)
          | some t =>
            let s3 := setHeap s2 t
              (add_spot { spot with status := SpotStatus.EMPTY } (getHeap s2 t))
            (true, { s3 with undo_stack := ⟨"CANCEL", rid⟩ :: s3.undo_stack })

/-- `ParkingSystem.request_check_in`. -/
def request_check_in (s : SysState) (rid : Nat) : Bool × SysState :=
  match getResv s rid with
  | none => (false, s)
  | some r =>
    if r.status ≠ ReservationStatus.RESERVATION then (false, s)
    else
      match get_spot_by_id s.spots r.spot_id with
      | none => (false, s)
      | some spot =>
        if spot.status ≠ SpotStatus.RESERVED then (false, s)
        else if rid ∈ s.queued_set then (false, s)
        else
          (true, { s with
            entry_queue := s.entry_queue ++ [rid],
            queued_set := insert rid s.queued_set,
            reservations := setResv s.reservations rid
              (fun x => { x with status := ReservationStatus.WAITING }),
            undo_stack := ⟨"REQUEST_CHECKIN", rid⟩ :: s.undo_stack })

/-- Result tag of `process_next_check_in`, one per distinct return point. -/
inductive ProcResult
  | empty
  | skippedStale
  | skippedStatus
  | skippedSpot
  | noGate
  | ok (rid : Nat) (gate : String)
deriving DecidableEq

/-- `ParkingSystem.process_next_check_in`. -/
def process_next_check_in (s : SysState) : ProcResult × SysState :=
  match s.entry_queue with
  | [] => (ProcResult.empty, s)
  | rid :: rest =>
    let s0 := { s with entry_queue := rest }
    if rid ∉ s0.queued_set then (ProcResult.skippedStale, s0)
    else
      let s1 := { s0 with queued_set := s0.queued_set.erase rid }
      match getResv s1 rid with
      | none => (ProcResult.skippedStatus, s1)
      | some r =>
        if r.status ≠ ReservationStatus.WAITING then (ProcResult.skippedStatus, s1)
        else
          match get_spot_by_id s1.spots r.spot_id with
          | none => (ProcResult.skippedSpot, s1)
          | some spot =>
            if spot.status ≠ SpotStatus.RESERVED then (ProcResult.skippedSpot, s1)
            else
              match cq_dequeue s1.gates with
              | (none, gq) => (ProcResult.noGate, { s1 with gates := gq })
              | (some gate, gq) =>
                let gq2 := (cq_enqueue gq gate).2
                (ProcResult.ok rid gate,
                 { s1 with
                   gates := gq2,
                   spots := setSpotStatus s1.spots spot.spot_id SpotStatus.OCCUPIED,
                   reservations := setResv s1.reservations rid
                     (fun x => { x with gate := some gate,
                                        status := ReservationStatus.ACTIVE }),
                   undo_stack := ⟨"PROCESS_CHECKIN", rid⟩ :: s1.undo_stack })

/-- `ParkingSystem.check_out`. -/
def check_out (s : SysState) (rid : Nat) (hourly_rate : Int) : Option Int × SysState :=
  match getResv s rid with
  | none => (none, s)
  | some r =>
    if r.status ≠ ReservationStatus.ACTIVE then (none, s)
    else
      match get_spot_by_id s.spots r.spot_id with
      | none => (none, s)
      | some spot =>
        if spot.status ≠ SpotStatus.OCCUPIED then (none, s)
        else
          let fee := max 0 (r.end_time - r.start_time) * hourly_rate
          let s2 := { s with
            reservations := setResv s.reservations rid
              (fun x => { x with status := ReservationStatus.DONE }),
            spots := setSpotStatus s.spots spot.spot_id SpotStatus.EMPTY }
          match select_heap spot.spot_type with
          | none => (none, s2)
          | some t =>
            let s3 := setHeap s2 t
              (add_spot { spot with status := SpotStatus.EMPTY } (getHeap s2 t))
            (some fee, { s3 with undo_stack := ⟨"CHECKOUT", rid⟩ :: s3.undo_stack })

/-- `ParkingSystem.undo_last`.  One deviation, documented: in the RESERVE
branch the Python code calls `self._select_heap(spot.spot_type).add_spot(...)`
without a `None` check; for an invalid `spot_type` Python would raise.  The
model skips the heap insertion in that case; the reachable-state invariant
(`SpotsOK`) shows pool spot types are always valid, so the case never arises. -/
def undo_last (s : SysState) : Bool × SysState :=
  match s.undo_stack with
  | [] => (false, s)
  | op :: rest =>
    let s0 := { s with undo_stack := rest }
    let rid := op.reservation_id
    if op.op_type = "RESERVE" then
      match getResv s0 rid with
      | none => (false, s0)
      | some r =>
        match get_spot_by_id s0.spots r.spot_id with
        | none => (false, s0)
        | some spot =>
          if spot.status ≠ SpotStatus.RESERVED then (false, s0)
          else
            let s1 := { s0 with
              queued_set := s0.queued_set.erase rid,
              reservations := s0.reservations.filter (fun x => x.reservation_id != rid),
              spots := setSpotStatus s0.spots spot.spot_id SpotStatus.EMPTY }
            match select_heap spot.spot_type with
            | none => (true, s1)
            | some t =>
              (true, setHeap s1 t
                (add_spot { spot with status := SpotStatus.EMPTY } (getHeap s1 t)))
    else if op.op_type = "CANCEL" then
      match getResv s0 rid with
      | none => (false, s0)
      | some r =>
        if r.status ≠ ReservationStatus.CANCELED then (false, s0)
        else
          match get_spot_by_id s0.spots r.spot_id with
          | none => (false, s0)
          | some spot =>
            if spot.status ≠ SpotStatus.EMPTY then (false, s0)
            else
              (true, { s0 with
                reservations := setResv s0.reservations rid
                  (fun x => { x with status := ReservationStatus.RESERVATION }),
                spots := setSpotStatus s0.spots spot.spot_id SpotStatus.RESERVED })
    else if op.op_type = "REQUEST_CHECKIN" then
      if rid ∈ s0.queued_set then
        let s1 := { s0 with queued_set := s0.queued_set.erase rid }
        match getResv s1 rid with
        | some r =>
          if r.status = ReservationStatus.WAITING then
            let resv' := setResv s1.reservations rid
              (fun x => { x with status := ReservationStatus.RESERVATION })
            (true, { s1 with reservations := resv' })
          else (true, s1)
        | none => (true, s1)
      else (false, s0)
    else if op.op_type = "PROCESS_CHECKIN" then
      match getResv s0 rid with
      | none => (false, s0)
      | some r =>
        if r.status ≠ ReservationStatus.ACTIVE then (false, s0)
        else
          match get_spot_by_id s0.spots r.spot_id with
          | none => (false, s0)
          | some spot =>
            if spot.status ≠ SpotStatus.OCCUPIED then (false, s0)
            else
              let s1 := { s0 with
                spots := setSpotStatus s0.spots spot.spot_id SpotStatus.RESERVED,
                reservations := setResv s0.reservations rid
                  (fun x => { x with gate := none,
                                     status := ReservationStatus.WAITING }),
                entry_queue := rid :: s0.entry_queue,
                queued_set := insert rid s0.queued_set }
              (true, { s1 with gates := cq_cycles (s1.gates.count - 1) s1.gates })
    else if op.op_type = "CHECKOUT" then
      match getResv s0 rid with
      | none => (false, s0)
      | some r =>
        if r.status ≠ ReservationStatus.DONE then (false, s0)
        else
          match get_spot_by_id s0.spots r.spot_id with
          | none => (false, s0)
          | some spot =>
            if spot.status ≠ SpotStatus.EMPTY then (false, s0)
            else
              (true, { s0 with
                reservations := setResv s0.reservations rid
                  (fun x => { x with status := ReservationStatus.ACTIVE }),
                spots := setSpotStatus s0.spots spot.spot_id SpotStatus.OCCUPIED })
    else (false, s0)

/-- `f"{i:03d}"` for the small indices used by spot ids. -/
def pad3 (n : Nat) : String :=
  if n < 10 then "00" ++ toString n
  else if n < 100 then "0" ++ toString n
  else toString n

/-- `f"F{floor}-{i:03d}"`. -/
def mkSpotId (floor i : Nat) : String :=
  "F" ++ toString floor ++ "-" ++ pad3 i

/-- The gate ring as built by `__init__`/`initialize_spots`: capacity 3,
then `enqueue` of Gate1, Gate2, Gate3. -/
def initGates : CircularQueue :=
  let q0 : CircularQueue :=
    { capacity := 3, buf := [none, none, none], head := 0, tail := 0, count := 0 }
  (cq_enqueue ((cq_enqueue ((cq_enqueue q0 "Gate1").2) "Gate2").2) "Gate3").2

/-- The 60 spots created by `initialize_spots`: floors 1..3, indices 1..20,
EV for indices ≤ 5. -/
def initSpotsList : List ParkingSpot :=
  (List.range' 1 3).flatMap (fun floor =>
    (List.range' 1 20).map (fun i =>
      { spot_id := mkSpotId floor i, floor := floor,
        spot_type := if i ≤ 5 then "EV" else "normal",
        status := SpotStatus.EMPTY }))

/-- The state `initialize_spots` leaves behind (it resets every structure and
then creates the spots, adding each to the allocator of its class). -/
def initState : SysState :=
  let spots := initSpotsList
  { spots := spots,
    reservations := [],
    available_normal :=
      spots.foldl (fun h sp => if sp.spot_type = "EV" then h else add_spot sp h) [],
    available_ev :=
      spots.foldl (fun h sp => if sp.spot_type = "EV" then add_spot sp h else h) [],
    entry_queue := [],
    queued_set := ∅,
    gates := initGates,
    undo_stack := [],
    counter := 0 }

/-- One orchestrator call with its arguments. -/
inductive Op
  | reserveOp (username license_plate : String) (start_time end_time : Int) (spot_type : String)
  | cancelOp (rid : Nat)
  | requestOp (rid : Nat)
  | processOp
  | checkoutOp (rid : Nat) (rate : Int)
  | undoOp
deriving DecidableEq

/-- State transition of one orchestrator call (result value dropped). -/
def step (s : SysState) : Op → SysState
  | Op.reserveOp u lp st en ty => (reserve s u lp st en ty).2
  | Op.cancelOp rid => (cancel_reservation s rid).2
  | Op.requestOp rid => (request_check_in s rid).2
  | Op.processOp => (process_next_check_in s).2
  | Op.checkoutOp rid rate => (check_out s rid rate).2
  | Op.undoOp => (undo_last s).2

/-- Run a sequence of orchestrator calls from the initialized system. -/
def runOps (ops : List Op) : SysState := ops.foldl step initState

/-- Reachability: the states arising from some finite call sequence after
initialization. -/
def Reachable (s : SysState) : Prop := ∃ ops : List Op, s = runOps ops

/-! ## The global invariant

The consistency argument uses an abstraction of the state to the three
components the undo branches read and write besides the auxiliary
structures: the ledger, the spot pool, and the admission membership set.
The undo stack is constrained by a replay invariant: virtually popping the
recorded operations one after the other (with the exact branch semantics of
`undo_last`, including its failure no-ops) keeps the abstract state
consistent at every stage. -/

/-- The abstraction of the state that `undo_last`'s branch conditions and
status mutations depend on. -/
structure AbsState where
  reservations : List Reservation
  spots : List ParkingSpot
  queued_set : Finset Nat
deriving DecidableEq

/-- Project a system state to its abstraction. -/
def absSt (s : SysState) : AbsState :=
  ⟨s.reservations, s.spots, s.queued_set⟩

/-- Ledger lookup on the abstraction. -/
def vGetResv (A : AbsState) (rid : Nat) : Option Reservation :=
  A.reservations.find? (fun r => r.reservation_id == rid)

/-- The effect of one `undo_last` dispatch on the abstraction: exactly the
branch logic of `undo_last`, projected to ledger/pool/membership set
(failing branches are no-ops there, as in the code). -/
def virtualPop (op : UndoOp) (A : AbsState) : AbsState :=
  let rid := op.reservation_id
  if op.op_type = "RESERVE" then
    match vGetResv A rid with
    | none => A
    | some r =>
      match get_spot_by_id A.spots r.spot_id with
      | none => A
      | some spot =>
        if spot.status ≠ SpotStatus.RESERVED then A
        else
          { reservations := A.reservations.filter (fun x => x.reservation_id != rid),
            spots := setSpotStatus A.spots spot.spot_id SpotStatus.EMPTY,
            queued_set := A.queued_set.erase rid }
  else if op.op_type = "CANCEL" then
    match vGetResv A rid with
    | none => A
    | some r =>
      if r.status ≠ ReservationStatus.CANCELED then A
      else
        match get_spot_by_id A.spots r.spot_id with
        | none => A
        | some spot =>
          if spot.status ≠ SpotStatus.EMPTY then A
          else
            { A with
              reservations := setResv A.reservations rid
                (fun x => { x with status := ReservationStatus.RESERVATION }),
              spots := setSpotStatus A.spots spot.spot_id SpotStatus.RESERVED }
  else if op.op_type = "REQUEST_CHECKIN" then
    if rid ∈ A.queued_set then
      let A1 := { A with queued_set := A.queued_set.erase rid }
      match vGetResv A1 rid with
      | some r =>
        if r.status = ReservationStatus.WAITING then
          let resv' := setResv A1.reservations rid
            (fun x => { x with status := ReservationStatus.RESERVATION })
          { A1 with reservations := resv' }
        else A1
      | none => A1
    else A
  else if op.op_type = "PROCESS_CHECKIN" then
    match vGetResv A rid with
    | none => A
    | some r =>
      if r.status ≠ ReservationStatus.ACTIVE then A
      else
        match get_spot_by_id A.spots r.spot_id with
        | none => A
        | some spot =>
          if spot.status ≠ SpotStatus.OCCUPIED then A
          else
            { reservations := setResv A.reservations rid
                (fun x => { x with gate := none, status := ReservationStatus.WAITING }),
              spots := setSpotStatus A.spots spot.spot_id SpotStatus.RESERVED,
              queued_set := insert rid A.queued_set }
  else if op.op_type = "CHECKOUT" then
    match vGetResv A rid with
    | none => A
    | some r =>
      if r.status ≠ ReservationStatus.DONE then A
      else
        match get_spot_by_id A.spots r.spot_id with
        | none => A
        | some spot =>
          if spot.status ≠ SpotStatus.EMPTY then A
          else
            { A with
              reservations := setResv A.reservations rid
                (fun x => { x with status := ReservationStatus.ACTIVE }),
              spots := setSpotStatus A.spots spot.spot_id SpotStatus.OCCUPIED }
  else A

/-- A reservation that holds its spot as Reserved/Held. -/
def liveRW (r : Reservation) : Prop :=
  r.status = ReservationStatus.RESERVATION ∨ r.status = ReservationStatus.WAITING

instance (r : Reservation) : Decidable (liveRW r) := by unfold liveRW; infer_instance

/-- A live reservation: one that points at its spot (Reserved, Waiting or
Active). -/
def liveRes (r : Reservation) : Prop :=
  liveRW r ∨ r.status = ReservationStatus.ACTIVE

instance (r : Reservation) : Decidable (liveRes r) := by unfold liveRes; infer_instance

/-- The §3 consistency invariant for one spot. -/
def spotOK (resv : List Reservation) (p : ParkingSpot) : Prop :=
  (p.status = SpotStatus.RESERVED ↔ ∃ r ∈ resv, liveRW r ∧ r.spot_id = p.spot_id) ∧
  (p.status = SpotStatus.OCCUPIED ↔
    ∃ r ∈ resv, r.status = ReservationStatus.ACTIVE ∧ r.spot_id = p.spot_id)

instance (resv : List Reservation) (p : ParkingSpot) : Decidable (spotOK resv p) := by
  unfold spotOK; infer_instance

/-- Consistency of an abstract state: every spot satisfies the status/ledger
correspondence, and at most one live reservation points at any spot. -/
def Cons (A : AbsState) : Prop :=
  (∀ p ∈ A.spots, spotOK A.reservations p) ∧
  (∀ r ∈ A.reservations, ∀ r' ∈ A.reservations,
     liveRes r → liveRes r' → r.spot_id = r'.spot_id →
     r.reservation_id = r'.reservation_id)

instance (A : AbsState) : Decidable (Cons A) := by unfold Cons; infer_instance

/-- Replay invariant of the undo stack: virtually undoing the recorded
operations top-down keeps every intermediate abstract state consistent. -/
def StackInv : List UndoOp → AbsState → Prop
  | [], _ => True
  | op :: rest, A => Cons (virtualPop op A) ∧ StackInv rest (virtualPop op A)

instance : ∀ (st : List UndoOp) (A : AbsState), Decidable (StackInv st A)
  | [], _ => by unfold StackInv; infer_instance
  | op :: rest, A => by
      unfold StackInv
      have : Decidable (StackInv rest (virtualPop op A)) := instDecidableStackInv rest _
      infer_instance

/-- Membership set invariant: the set holds exactly the ids of WAITING
reservations. -/
def SetInv (s : SysState) : Prop :=
  (∀ rid ∈ s.queued_set,
     ∃ r ∈ s.reservations, r.reservation_id = rid ∧ r.status = ReservationStatus.WAITING) ∧
  (∀ r ∈ s.reservations, r.status = ReservationStatus.WAITING →
     r.reservation_id ∈ s.queued_set)

instance (s : SysState) : Decidable (SetInv s) := by unfold SetInv; infer_instance

/-- A gate is recorded on a reservation only while it is Active or Done. -/
def GateNone (s : SysState) : Prop :=
  ∀ r ∈ s.reservations,
    (r.status = ReservationStatus.RESERVATION ∨ r.status = ReservationStatus.WAITING ∨
     r.status = ReservationStatus.CANCELED) → r.gate = none

instance (s : SysState) : Decidable (GateNone s) := by unfold GateNone; infer_instance

/-- Ledger well-formedness: unique ids, all below the freshness counter, and
every reservation's spot exists in the pool. -/
def LedgerOK (s : SysState) : Prop :=
  s.reservations.Pairwise (fun a b => a.reservation_id ≠ b.reservation_id) ∧
  (∀ r ∈ s.reservations, r.reservation_id < s.counter ∧
     ∃ p ∈ s.spots, p.spot_id = r.spot_id)

instance (s : SysState) : Decidable (LedgerOK s) := by unfold LedgerOK; infer_instance

/-- Pool well-formedness: distinct spot ids and valid class tags. -/
def SpotsOK (s : SysState) : Prop :=
  s.spots.Pairwise (fun a b => a.spot_id ≠ b.spot_id) ∧
  (∀ p ∈ s.spots, p.spot_type = "EV" ∨ p.spot_type = "normal")

instance (s : SysState) : Decidable (SpotsOK s) := by unfold SpotsOK; infer_instance

/-- The class tag an allocator serves. -/
def tagType : HeapTag → String
  | HeapTag.normal => "normal"
  | HeapTag.ev => "EV"

/-- Allocator well-formedness for one heap: sorted, every entry references a
pool spot of the right class, and every EMPTY pool spot of that class has an
entry (lazy deletion never loses a free spot). -/
def heapOKL (spots : List ParkingSpot) (heap : List String) (ty : String) : Prop :=
  heap.Sorted sLeP ∧
  (∀ sid ∈ heap, ∃ p ∈ spots, p.spot_id = sid ∧ p.spot_type = ty) ∧
  (∀ p ∈ spots, p.status = SpotStatus.EMPTY → p.spot_type = ty → p.spot_id ∈ heap)

instance (spots : List ParkingSpot) (heap : List String) (ty : String) :
    Decidable (heapOKL spots heap ty) := by
  unfold heapOKL List.Sorted; infer_instance

/-- Both allocators are well-formed. -/
def HeapsOK (s : SysState) : Prop :=
  heapOKL s.spots s.available_normal "normal" ∧ heapOKL s.spots s.available_ev "EV"

instance (s : SysState) : Decidable (HeapsOK s) := by unfold HeapsOK; infer_instance

/-- The full three-token gate ring at rotation position `k`: round-robin
rotation leaves the buffer fixed and advances `head = tail`. -/
def ringState (k : Nat) : CircularQueue :=
  { capacity := 3, buf := [some "Gate1", some "Gate2", some "Gate3"],
    head := k, tail := k, count := 3 }

/-- The gate token at ring position `k`. -/
def gateOf : Nat → String
  | 0 => "Gate1"
  | 1 => "Gate2"
  | _ => "Gate3"

/-- The gate ring is always the full three-token ring, possibly rotated. -/
def RingOK (s : SysState) : Prop := ∃ k < 3, s.gates = ringState k

instance (s : SysState) : Decidable (RingOK s) := by unfold RingOK; infer_instance

/-- The global inductive invariant. -/
def GInv (s : SysState) : Prop :=
  Cons (absSt s) ∧ SetInv s ∧ GateNone s ∧ LedgerOK s ∧ SpotsOK s ∧ HeapsOK s ∧
  RingOK s ∧ StackInv s.undo_stack (absSt s)

instance (s : SysState) : Decidable (GInv s) := by unfold GInv; infer_instance

/-! ## Basic lookup and update lemmas -/

theorem find?_rid_eq_some {l : List Reservation} {rid : Nat} {r : Reservation}
    (h : l.find? (fun x => x.reservation_id == rid) = some r) :
    r ∈ l ∧ r.reservation_id = rid :=
  ⟨List.mem_of_find?_eq_some h, by simpa using List.find?_some h⟩

theorem getResv_eq_some {s : SysState} {rid : Nat} {r : Reservation}
    (h : getResv s rid = some r) : r ∈ s.reservations ∧ r.reservation_id = rid :=
  find?_rid_eq_some h

theorem vGetResv_eq_some {A : AbsState} {rid : Nat} {r : Reservation}
    (h : vGetResv A rid = some r) : r ∈ A.reservations ∧ r.reservation_id = rid :=
  find?_rid_eq_some h

theorem find?_rid_eq_none {l : List Reservation} {rid : Nat}
    (h : l.find? (fun x => x.reservation_id == rid) = none) :
    ∀ r ∈ l, r.reservation_id ≠ rid := by
  intro r hr
  have := List.find?_eq_none.1 h r hr
  simpa using this

theorem find?_sid_eq_some {l : List ParkingSpot} {sid : String} {p : ParkingSpot}
    (h : l.find? (fun x => x.spot_id == sid) = some p) :
    p ∈ l ∧ p.spot_id = sid :=
  ⟨List.mem_of_find?_eq_some h, by simpa using List.find?_some h⟩

theorem get_spot_by_id_eq_some {l : List ParkingSpot} {sid : String} {p : ParkingSpot}
    (h : get_spot_by_id l sid = some p) : p ∈ l ∧ p.spot_id = sid :=
  find?_sid_eq_some h

theorem get_spot_by_id_eq_none {l : List ParkingSpot} {sid : String}
    (h : get_spot_by_id l sid = none) : ∀ p ∈ l, p.spot_id ≠ sid := by
  intro p hp
  have := List.find?_eq_none.1 h p hp
  simpa using this

/-- Distinct-id lists determine elements by id. -/
theorem eq_of_mem_of_id_eq {l : List Reservation}
    (hnd : l.Pairwise (fun a b => a.reservation_id ≠ b.reservation_id))
    {r r' : Reservation} (hr : r ∈ l) (hr' : r' ∈ l)
    (hid : r.reservation_id = r'.reservation_id) : r = r' := by
  induction l with
  | nil => cases hr
  | cons a as ih =>
    have hnd' := List.pairwise_cons.1 hnd
    rcases List.mem_cons.1 hr with rfl | h1 <;> rcases List.mem_cons.1 hr' with rfl | h2
    · rfl
    · exact absurd hid (hnd'.1 r' h2)
    · exact absurd hid.symm (hnd'.1 r h1)
    · exact ih hnd'.2 h1 h2

theorem spot_eq_of_mem_of_id_eq {l : List ParkingSpot}
    (hnd : l.Pairwise (fun a b => a.spot_id ≠ b.spot_id))
    {p p' : ParkingSpot} (hp : p ∈ l) (hp' : p' ∈ l)
    (hid : p.spot_id = p'.spot_id) : p = p' := by
  induction l with
  | nil => cases hp
  | cons a as ih =>
    have hnd' := List.pairwise_cons.1 hnd
    rcases List.mem_cons.1 hp with rfl | h1 <;> rcases List.mem_cons.1 hp' with rfl | h2
    · rfl
    · exact absurd hid (hnd'.1 p' h2)
    · exact absurd hid.symm (hnd'.1 p h1)
    · exact ih hnd'.2 h1 h2

/-- Id-keyed `find?` locates any member, given distinct ids. -/
theorem find?_rid_of_mem {l : List Reservation}
    (hnd : l.Pairwise (fun a b => a.reservation_id ≠ b.reservation_id))
    {r : Reservation} (hr : r ∈ l) :
    l.find? (fun x => x.reservation_id == r.reservation_id) = some r := by
  induction l with
  | nil => cases hr
  | cons a as ih =>
    have hnd' := List.pairwise_cons.1 hnd
    rcases List.mem_cons.1 hr with rfl | h1
    · simp [List.find?_cons_of_pos]
    · rw [List.find?_cons_of_neg]
      · exact ih hnd'.2 h1
      · simpa using hnd'.1 r h1

theorem find?_sid_of_mem {l : List ParkingSpot}
    (hnd : l.Pairwise (fun a b => a.spot_id ≠ b.spot_id))
    {p : ParkingSpot} (hp : p ∈ l) :
    l.find? (fun x => x.spot_id == p.spot_id) = some p := by
  induction l with
  | nil => cases hp
  | cons a as ih =>
    have hnd' := List.pairwise_cons.1 hnd
    rcases List.mem_cons.1 hp with rfl | h1
    · simp [List.find?_cons_of_pos]
    · rw [List.find?_cons_of_neg]
      · exact ih hnd'.2 h1
      · simpa using hnd'.1 p h1

/-- `setSpotStatus` commutes with id lookup. -/
theorem get_spot_by_id_setSpotStatus (l : List ParkingSpot) (sid : String)
    (st : SpotStatus) (sid' : String) :
    get_spot_by_id (setSpotStatus l sid st) sid' =
      (get_spot_by_id l sid').map
        (fun p => if p.spot_id = sid then { p with status := st } else p) := by
  unfold get_spot_by_id setSpotStatus
  rw [List.find?_map]
  have hp : ((fun sp => sp.spot_id == sid') ∘
      (fun sp => if sp.spot_id = sid then { sp with status := st } else sp)) =
      (fun sp : ParkingSpot => sp.spot_id == sid') := by
    funext p
    by_cases h : p.spot_id = sid <;> simp [h]
  rw [hp]

/-- `setResv` commutes with id lookup when the update preserves the id. -/
theorem find?_setResv (l : List Reservation) (rid : Nat) (f : Reservation → Reservation)
    (hf : ∀ x, (f x).reservation_id = x.reservation_id) (rid' : Nat) :
    (setResv l rid f).find? (fun x => x.reservation_id == rid') =
      (l.find? (fun x => x.reservation_id == rid')).map
        (fun x => if x.reservation_id = rid then f x else x) := by
  unfold setResv
  rw [List.find?_map]
  have hp : ((fun x => x.reservation_id == rid') ∘
      (fun r => if r.reservation_id = rid then f r else r)) =
      (fun x : Reservation => x.reservation_id == rid') := by
    funext x
    by_cases h : x.reservation_id = rid <;> simp [h, hf]
  rw [hp]

/-- `setResv` at one id does not disturb filtering that id away. -/
theorem filter_setResv (l : List Reservation) (rid : Nat) (f : Reservation → Reservation)
    (hf : ∀ x, (f x).reservation_id = x.reservation_id) :
    (setResv l rid f).filter (fun x => x.reservation_id != rid) =
      l.filter (fun x => x.reservation_id != rid) := by
  unfold setResv
  induction l with
  | nil => rfl
  | cons a as ih =>
    by_cases h : a.reservation_id = rid
    · simp [List.filter_cons, h, hf, ih]
    · simp [List.filter_cons, h, ih]

/-- Pointwise-trivial `setResv` is the identity. -/
theorem setResv_eq_self {l : List Reservation} {rid : Nat} {f : Reservation → Reservation}
    (h : ∀ x ∈ l, x.reservation_id = rid → f x = x) : setResv l rid f = l := by
  unfold setResv
  induction l with
  | nil => rfl
  | cons a as ih =>
    by_cases ha : a.reservation_id = rid
    · simp [ha, h a (List.mem_cons_self a as) ha,
        ih (fun x hx hxr => h x (List.mem_cons_of_mem a hx) hxr)]
    · simp [ha, ih (fun x hx hxr => h x (List.mem_cons_of_mem a hx) hxr)]

/-- Composing two updates at the same id. -/
theorem setResv_setResv (l : List Reservation) (rid : Nat)
    (f g : Reservation → Reservation)
    (hf : ∀ x, (f x).reservation_id = x.reservation_id) :
    setResv (setResv l rid f) rid g = setResv l rid (fun x => g (f x)) := by
  unfold setResv
  rw [List.map_map]
  congr 1
  funext x
  by_cases h : x.reservation_id = rid <;> simp [h, hf]

/-- Pointwise-trivial `setSpotStatus` is the identity. -/
theorem setSpotStatus_eq_self {l : List ParkingSpot} {sid : String} {st : SpotStatus}
    (h : ∀ p ∈ l, p.spot_id = sid → p.status = st) : setSpotStatus l sid st = l := by
  unfold setSpotStatus
  induction l with
  | nil => rfl
  | cons a as ih =>
    by_cases ha : a.spot_id = sid
    · have h1 : { a with status := st } = a := by
        have := h a (List.mem_cons_self a as) ha
        cases a
        simp_all
      simp only [List.map_cons]
      rw [if_pos ha, h1, ih (fun p hp hps => h p (List.mem_cons_of_mem a hp) hps)]
    · simp only [List.map_cons]
      rw [if_neg ha, ih (fun p hp hps => h p (List.mem_cons_of_mem a hp) hps)]

/-- Composing two status writes at the same id. -/
theorem setSpotStatus_setSpotStatus (l : List ParkingSpot) (sid : String)
    (st st' : SpotStatus) :
    setSpotStatus (setSpotStatus l sid st) sid st' = setSpotStatus l sid st' := by
  unfold setSpotStatus
  rw [List.map_map]
  congr 1
  funext p
  by_cases h : p.spot_id = sid <;> simp [h]

/-- Updates at distinct ids commute. -/
theorem setResv_comm (l : List Reservation) {rid rid' : Nat} (hne : rid ≠ rid')
    (f g : Reservation → Reservation)
    (hf : ∀ x, (f x).reservation_id = x.reservation_id)
    (hg : ∀ x, (g x).reservation_id = x.reservation_id) :
    setResv (setResv l rid f) rid' g = setResv (setResv l rid' g) rid f := by
  unfold setResv
  rw [List.map_map, List.map_map]
  congr 1
  funext x
  simp only [Function.comp]
  by_cases h1 : x.reservation_id = rid
  · have h2 : x.reservation_id ≠ rid' := by rw [h1]; exact hne
    rw [if_pos h1, if_neg h2, hf x, if_neg h2, if_pos h1]
  · by_cases h2 : x.reservation_id = rid'
    · rw [if_neg h1, if_pos h2, hg x, if_neg h1]
    · rw [if_neg h1, if_neg h2, if_neg h1]

/-- Filtering an id away commutes with a (id-preserving) ledger update. -/
theorem filter_ne_setResv (l : List Reservation) (rid : Nat)
    (f : Reservation → Reservation)
    (hf : ∀ x, (f x).reservation_id = x.reservation_id) (rid' : Nat) :
    (setResv l rid f).filter (fun x => x.reservation_id != rid') =
      setResv (l.filter (fun x => x.reservation_id != rid')) rid f := by
  unfold setResv
  induction l with
  | nil => rfl
  | cons a as ih =>
    simp only [List.map_cons, List.filter_cons]
    by_cases h1 : a.reservation_id = rid
    · rw [if_pos h1]
      by_cases h2 : a.reservation_id = rid'
      · have hrr : rid = rid' := by rw [← h1, ← h2]
        subst hrr
        have hfa : ((f a).reservation_id != rid) = false := by
          simp [hf, h1]
        have hba : (a.reservation_id != rid) = false := by simp [h1]
        rw [hfa, hba]
        simpa using ih
      · have hfa : ((f a).reservation_id != rid') = true := by
          simp [hf]; exact fun hh => h2 hh
        have hba : (a.reservation_id != rid') = true := by
          simp; exact fun hh => h2 hh
        rw [hfa, hba]
        simp only [if_true, List.map_cons, if_pos h1]
        rw [ih]
    · rw [if_neg h1]
      by_cases h2 : a.reservation_id = rid'
      · have hba : (a.reservation_id != rid') = false := by simp [h2]
        rw [hba]
        simpa using ih
      · have hba : (a.reservation_id != rid') = true := by
          simp; exact fun hh => h2 hh
        rw [hba]
        simp only [if_true, List.map_cons, if_neg h1]
        rw [ih]

theorem erase_erase_comm (s : Finset Nat) (a b : Nat) :
    (s.erase a).erase b = (s.erase b).erase a := by
  ext x
  simp only [Finset.mem_erase]
  tauto

theorem insert_erase_of_ne (s : Finset Nat) {a b : Nat} (h : b ≠ a) :
    insert b (s.erase a) = (insert b s).erase a := by
  ext x
  simp only [Finset.mem_erase, Finset.mem_insert]
  constructor
  · rintro (rfl | ⟨hx, hxs⟩)
    · exact ⟨h, Or.inl rfl⟩
    · exact ⟨hx, Or.inr hxs⟩
  · rintro ⟨hx, rfl | hxs⟩
    · exact Or.inl rfl
    · exact Or.inr ⟨hx, hxs⟩

/-! ## The demotion relation

Cancelling a WAITING reservation and then virtually undoing the CANCEL
record restores the reservation to RESERVATION (not WAITING) and without
its admission ticket: the replayed abstract state is a *demotion* of the
historical one.  `StackInv` is invariant under demotion. -/

/-- `A'` equals `A` except that the (unique, WAITING) reservation `rid` is
demoted to RESERVATION and removed from the membership set. -/
def Dem (rid : Nat) (A A' : AbsState) : Prop :=
  A'.spots = A.spots ∧
  rid ∈ A.queued_set ∧
  A'.queued_set = A.queued_set.erase rid ∧
  (∀ x ∈ A.reservations, x.reservation_id = rid → x.status = ReservationStatus.WAITING) ∧
  (∃ x ∈ A.reservations, x.reservation_id = rid) ∧
  A'.reservations = setResv A.reservations rid
    (fun x => { x with status := ReservationStatus.RESERVATION })

/-- Consistency is stable under demotion (WAITING and RESERVATION are both
live-holding statuses). -/
theorem cons_dem {rid : Nat} {A A' : AbsState} (hC : Cons A) (hD : Dem rid A A') :
    Cons A' := by
  obtain ⟨hsp, _, _, hW, _, hres⟩ := hD
  have hmem : ∀ x' ∈ A'.reservations, ∃ x ∈ A.reservations,
      x' = (if x.reservation_id = rid
            then { x with status := ReservationStatus.RESERVATION } else x) := by
    intro x' hx'
    rw [hres] at hx'
    obtain ⟨x, hx, hfx⟩ := List.mem_map.1 hx'
    exact ⟨x, hx, hfx.symm⟩
  have hmem' : ∀ x ∈ A.reservations,
      (if x.reservation_id = rid
       then { x with status := ReservationStatus.RESERVATION } else x) ∈
        A'.reservations := by
    intro x hx
    rw [hres]
    exact List.mem_map.2 ⟨x, hx, rfl⟩
  constructor
  · intro p hp
    rw [hsp] at hp
    have hOK := hC.1 p hp
    constructor
    · rw [hOK.1]
      constructor
      · rintro ⟨r, hr, hlive, hsid⟩
        refine ⟨_, hmem' r hr, ?_, ?_⟩
        · by_cases h : r.reservation_id = rid
          · simp [h, liveRW]
          · simpa [h, liveRW] using hlive
        · by_cases h : r.reservation_id = rid <;> simp [h, hsid]
      · rintro ⟨r', hr', hlive, hsid⟩
        obtain ⟨x, hx, rfl⟩ := hmem r' hr'
        by_cases h : x.reservation_id = rid
        · refine ⟨x, hx, Or.inr (hW x hx h), ?_⟩
          simpa [h] using hsid
        · exact ⟨x, hx, by simpa [h] using hlive, by simpa [h] using hsid⟩
    · rw [hOK.2]
      constructor
      · rintro ⟨r, hr, hact, hsid⟩
        have h : r.reservation_id ≠ rid := by
          intro hh
          rw [hW r hr hh] at hact
          cases hact
        exact ⟨_, hmem' r hr, by simp [h, hact], by simp [h, hsid]⟩
      · rintro ⟨r', hr', hact, hsid⟩
        obtain ⟨x, hx, rfl⟩ := hmem r' hr'
        by_cases h : x.reservation_id = rid
        · simp [h] at hact
        · exact ⟨x, hx, by simpa [h] using hact, by simpa [h] using hsid⟩
  · intro r1' hr1' r2' hr2' hl1 hl2 hsid
    obtain ⟨x1, hx1, rfl⟩ := hmem _ hr1'
    obtain ⟨x2, hx2, rfl⟩ := hmem _ hr2'
    have e1 : (if x1.reservation_id = rid
        then { x1 with status := ReservationStatus.RESERVATION } else x1).reservation_id =
        x1.reservation_id := by by_cases h : x1.reservation_id = rid <;> simp [h]
    have e2 : (if x2.reservation_id = rid
        then { x2 with status := ReservationStatus.RESERVATION } else x2).reservation_id =
        x2.reservation_id := by by_cases h : x2.reservation_id = rid <;> simp [h]
    have s1 : (if x1.reservation_id = rid
        then { x1 with status := ReservationStatus.RESERVATION } else x1).spot_id =
        x1.spot_id := by by_cases h : x1.reservation_id = rid <;> simp [h]
    have s2 : (if x2.reservation_id = rid
        then { x2 with status := ReservationStatus.RESERVATION } else x2).spot_id =
        x2.spot_id := by by_cases h : x2.reservation_id = rid <;> simp [h]
    rw [e1, e2]
    have hlx1 : liveRes x1 := by
      by_cases h : x1.reservation_id = rid
      · exact Or.inl (Or.inr (hW x1 hx1 h))
      · simpa [liveRes, liveRW, h] using hl1
    have hlx2 : liveRes x2 := by
      by_cases h : x2.reservation_id = rid
      · exact Or.inl (Or.inr (hW x2 hx2 h))
      · simpa [liveRes, liveRW, h] using hl2
    exact hC.2 x1 hx1 x2 hx2 hlx1 hlx2 (by rw [← s1, ← s2, hsid])

/-! ## Branch equations for `virtualPop` -/

theorem virtualPop_RESERVE {op : UndoOp} (h : op.op_type = "RESERVE") (A : AbsState) :
    virtualPop op A =
      match vGetResv A op.reservation_id with
      | none => A
      | some r =>
        match get_spot_by_id A.spots r.spot_id with
        | none => A
        | some spot =>
          if spot.status ≠ SpotStatus.RESERVED then A
          else
            { reservations :=
                A.reservations.filter (fun x => x.reservation_id != op.reservation_id),
              spots := setSpotStatus A.spots spot.spot_id SpotStatus.EMPTY,
              queued_set := A.queued_set.erase op.reservation_id } := by
  simp [virtualPop, h]

theorem virtualPop_CANCEL {op : UndoOp} (h : op.op_type = "CANCEL") (A : AbsState) :
    virtualPop op A =
      match vGetResv A op.reservation_id with
      | none => A
      | some r =>
        if r.status ≠ ReservationStatus.CANCELED then A
        else
          match get_spot_by_id A.spots r.spot_id with
          | none => A
          | some spot =>
            if spot.status ≠ SpotStatus.EMPTY then A
            else
              { A with
                reservations := setResv A.reservations op.reservation_id
                  (fun x => { x with status := ReservationStatus.RESERVATION }),
                spots := setSpotStatus A.spots spot.spot_id SpotStatus.RESERVED } := by
  simp [virtualPop, h]

theorem virtualPop_REQUEST {op : UndoOp} (h : op.op_type = "REQUEST_CHECKIN") (A : AbsState) :
    virtualPop op A =
      (if op.reservation_id ∈ A.queued_set then
        match vGetResv A op.reservation_id with
        | some r =>
          if r.status = ReservationStatus.WAITING then
            { reservations := setResv A.reservations op.reservation_id
                (fun x => { x with status := ReservationStatus.RESERVATION }),
              spots := A.spots,
              queued_set := A.queued_set.erase op.reservation_id }
          else { A with queued_set := A.queued_set.erase op.reservation_id }
        | none => { A with queued_set := A.queued_set.erase op.reservation_id }
      else A) := by
  simp [virtualPop, h]
  rfl

theorem virtualPop_PROCESS {op : UndoOp} (h : op.op_type = "PROCESS_CHECKIN") (A : AbsState) :
    virtualPop op A =
      match vGetResv A op.reservation_id with
      | none => A
      | some r =>
        if r.status ≠ ReservationStatus.ACTIVE then A
        else
          match get_spot_by_id A.spots r.spot_id with
          | none => A
          | some spot =>
            if spot.status ≠ SpotStatus.OCCUPIED then A
            else
              { reservations := setResv A.reservations op.reservation_id
                  (fun x => { x with gate := none, status := ReservationStatus.WAITING }),
                spots := setSpotStatus A.spots spot.spot_id SpotStatus.RESERVED,
                queued_set := insert op.reservation_id A.queued_set } := by
  simp [virtualPop, h]

theorem virtualPop_CHECKOUT {op : UndoOp} (h : op.op_type = "CHECKOUT") (A : AbsState) :
    virtualPop op A =
      match vGetResv A op.reservation_id with
      | none => A
      | some r =>
        if r.status ≠ ReservationStatus.DONE then A
        else
          match get_spot_by_id A.spots r.spot_id with
          | none => A
          | some spot =>
            if spot.status ≠ SpotStatus.EMPTY then A
            else
              { A with
                reservations := setResv A.reservations op.reservation_id
                  (fun x => { x with status := ReservationStatus.ACTIVE }),
                spots := setSpotStatus A.spots spot.spot_id SpotStatus.OCCUPIED } := by
  simp [virtualPop, h]

theorem virtualPop_other {op : UndoOp}
    (h1 : op.op_type ≠ "RESERVE") (h2 : op.op_type ≠ "CANCEL")
    (h3 : op.op_type ≠ "REQUEST_CHECKIN") (h4 : op.op_type ≠ "PROCESS_CHECKIN")
    (h5 : op.op_type ≠ "CHECKOUT") (A : AbsState) :
    virtualPop op A = A := by
  simp [virtualPop, h1, h2, h3, h4, h5]

/-! ## Helpers for the monotonicity of `StackInv` under demotion -/

theorem vGetResv_dem {rid : Nat} {A A' : AbsState}
    (hres : A'.reservations = setResv A.reservations rid
      (fun x => { x with status := ReservationStatus.RESERVATION })) (n : Nat) :
    vGetResv A' n = (vGetResv A n).map
      (fun x => if x.reservation_id = rid
                then { x with status := ReservationStatus.RESERVATION } else x) := by
  unfold vGetResv
  rw [hres]
  exact find?_setResv A.reservations rid
    (fun x => { x with status := ReservationStatus.RESERVATION }) (fun x => rfl) n

theorem vGetResv_isSome_of_exists {A : AbsState} {rid : Nat}
    (h : ∃ x ∈ A.reservations, x.reservation_id = rid) :
    ∃ r, vGetResv A rid = some r := by
  obtain ⟨x, hx, hid⟩ := h
  have : (A.reservations.find? (fun r => r.reservation_id == rid)).isSome :=
    List.find?_isSome.2 ⟨x, hx, by simpa using hid⟩
  exact Option.isSome_iff_exists.1 this

theorem hW_setResv {l : List Reservation} {rid rid' : Nat} (hne : rid ≠ rid')
    {g : Reservation → Reservation} (hg : ∀ x, (g x).reservation_id = x.reservation_id)
    (hW : ∀ x ∈ l, x.reservation_id = rid → x.status = ReservationStatus.WAITING) :
    ∀ x ∈ setResv l rid' g, x.reservation_id = rid →
      x.status = ReservationStatus.WAITING := by
  intro x hx hid
  obtain ⟨y, hy, rfl⟩ := List.mem_map.1 hx
  by_cases h : y.reservation_id = rid'
  · exfalso
    apply hne
    rw [← hid]
    simp [h, hg]
  · rw [if_neg h] at hid ⊢
    exact hW y hy hid

theorem hEx_setResv {l : List Reservation} {rid rid' : Nat} (hne : rid ≠ rid')
    {g : Reservation → Reservation} (hg : ∀ x, (g x).reservation_id = x.reservation_id)
    (hEx : ∃ x ∈ l, x.reservation_id = rid) :
    ∃ x ∈ setResv l rid' g, x.reservation_id = rid := by
  obtain ⟨x, hx, hid⟩ := hEx
  refine ⟨(if x.reservation_id = rid' then g x else x), List.mem_map.2 ⟨x, hx, rfl⟩, ?_⟩
  have h : x.reservation_id ≠ rid' := by rw [hid]; exact hne
  rw [if_neg h]
  exact hid

theorem hW_filter {l : List Reservation} {rid : Nat} (p : Reservation → Bool)
    (hW : ∀ x ∈ l, x.reservation_id = rid → x.status = ReservationStatus.WAITING) :
    ∀ x ∈ l.filter p, x.reservation_id = rid → x.status = ReservationStatus.WAITING :=
  fun x hx => hW x (List.mem_filter.1 hx).1

theorem hEx_filter {l : List Reservation} {rid rid' : Nat} (hne : rid ≠ rid')
    (hEx : ∃ x ∈ l, x.reservation_id = rid) :
    ∃ x ∈ l.filter (fun x => x.reservation_id != rid'), x.reservation_id = rid := by
  obtain ⟨x, hx, hid⟩ := hEx
  refine ⟨x, List.mem_filter.2 ⟨hx, ?_⟩, hid⟩
  simp [hid]
  exact hne

/-- One virtual pop maps a demoted pair of states either to an equal pair or
to a demoted pair again: the stale REQUEST record of the demoted ticket
fails harmlessly, every other record treats the two states alike. -/
theorem virtualPop_dem {rid : Nat} {A A' : AbsState} (hD : Dem rid A A') (op : UndoOp) :
    virtualPop op A' = virtualPop op A ∨
      Dem rid (virtualPop op A) (virtualPop op A') := by
  obtain ⟨hsp, hqmem, hq, hW, hEx, hres⟩ := hD
  have hD' : Dem rid A A' := ⟨hsp, hqmem, hq, hW, hEx, hres⟩
  have hfind := vGetResv_dem hres
  by_cases hty1 : op.op_type = "RESERVE"
  · rw [virtualPop_RESERVE hty1 A, virtualPop_RESERVE hty1 A']
    rcases hr : vGetResv A op.reservation_id with _ | r
    · have hr' : vGetResv A' op.reservation_id = none := by rw [hfind, hr]; rfl
      simp only [hr, hr']
      exact Or.inr hD'
    · have hrm := vGetResv_eq_some hr
      have hr' : vGetResv A' op.reservation_id =
          some (if r.reservation_id = rid
                then { r with status := ReservationStatus.RESERVATION } else r) := by
        rw [hfind, hr]; rfl
      by_cases hrr : r.reservation_id = rid
      · have hor : op.reservation_id = rid := by rw [← hrm.2]; exact hrr
        rw [if_pos hrr] at hr'
        simp only [hr, hr', hsp]
        rcases hspot : get_spot_by_id A.spots r.spot_id with _ | spot
        · simp only [hspot]
          exact Or.inr hD'
        · simp only [hspot]
          by_cases hst : spot.status = SpotStatus.RESERVED
          · rw [if_neg (by simpa using hst), if_neg (by simpa using hst)]
            refine Or.inl ?_
            have e1 : A'.reservations.filter
                (fun x => x.reservation_id != op.reservation_id) =
                A.reservations.filter (fun x => x.reservation_id != op.reservation_id) := by
              rw [hres, hor, filter_ne_setResv A.reservations rid
                (fun x => { x with status := ReservationStatus.RESERVATION })
                (fun _ => rfl) rid]
              exact setResv_eq_self (fun x hx hxr => by
                have := (List.mem_filter.1 hx).2
                rw [hxr] at this
                simp at this)
            have e3 : A'.queued_set.erase op.reservation_id =
                A.queued_set.erase op.reservation_id := by
              rw [hq, hor, Finset.erase_idem]
            rw [e1, e3]
          · rw [if_pos (by simpa using hst), if_pos (by simpa using hst)]
            exact Or.inr hD'
      · have hne : op.reservation_id ≠ rid := by rw [← hrm.2]; exact hrr
        rw [if_neg hrr] at hr'
        simp only [hr, hr', hsp]
        rcases hspot : get_spot_by_id A.spots r.spot_id with _ | spot
        · simp only [hspot]
          exact Or.inr hD'
        · simp only [hspot]
          by_cases hst : spot.status = SpotStatus.RESERVED
          · rw [if_neg (by simpa using hst), if_neg (by simpa using hst)]
            refine Or.inr ⟨?_, ?_, ?_, ?_, ?_, ?_⟩
            · rfl
            · exact Finset.mem_erase.2 ⟨fun h => hne h.symm, hqmem⟩
            · rw [hq]; exact erase_erase_comm _ _ _
            · exact hW_filter _ hW
            · exact hEx_filter (fun h => hne h.symm) hEx
            · rw [hres, filter_ne_setResv A.reservations rid
                (fun x => { x with status := ReservationStatus.RESERVATION })
                (fun _ => rfl) op.reservation_id]
          · rw [if_pos (by simpa using hst), if_pos (by simpa using hst)]
            exact Or.inr hD'
  by_cases hty2 : op.op_type = "CANCEL"
  · rw [virtualPop_CANCEL hty2 A, virtualPop_CANCEL hty2 A']
    rcases hr : vGetResv A op.reservation_id with _ | r
    · have hr' : vGetResv A' op.reservation_id = none := by rw [hfind, hr]; rfl
      simp only [hr, hr']
      exact Or.inr hD'
    · have hrm := vGetResv_eq_some hr
      have hr' : vGetResv A' op.reservation_id =
          some (if r.reservation_id = rid
                then { r with status := ReservationStatus.RESERVATION } else r) := by
        rw [hfind, hr]; rfl
      by_cases hrr : r.reservation_id = rid
      · have hw := hW r hrm.1 hrr
        rw [if_pos hrr] at hr'
        simp only [hr, hr']
        rw [if_pos (by decide), if_pos (by rw [hw]; decide)]
        exact Or.inr hD'
      · have hne : op.reservation_id ≠ rid := by rw [← hrm.2]; exact hrr
        rw [if_neg hrr] at hr'
        simp only [hr, hr']
        by_cases hst : r.status = ReservationStatus.CANCELED
        · rw [if_neg (by simpa using hst), if_neg (by simpa using hst), hsp]
          rcases hspot : get_spot_by_id A.spots r.spot_id with _ | spot
          · simp only [hspot]
            exact Or.inr hD'
          · simp only [hspot]
            by_cases hse : spot.status = SpotStatus.EMPTY
            · rw [if_neg (by simpa using hse), if_neg (by simpa using hse)]
              refine Or.inr ⟨?_, ?_, ?_, ?_, ?_, ?_⟩
              · rfl
              · exact hqmem
              · exact hq
              · exact hW_setResv (fun h => hne h.symm) (fun _ => rfl) hW
              · exact hEx_setResv (fun h => hne h.symm) (fun _ => rfl) hEx
              · show setResv A'.reservations op.reservation_id _ =
                  setResv (setResv A.reservations op.reservation_id _) rid _
                rw [hres]
                exact setResv_comm _ (fun h => hne h.symm) _ _
                  (fun _ => rfl) (fun _ => rfl)
            · rw [if_pos (by simpa using hse), if_pos (by simpa using hse)]
              exact Or.inr hD'
        · rw [if_pos (by simpa using hst), if_pos (by simpa using hst)]
          exact Or.inr hD'
  by_cases hty3 : op.op_type = "REQUEST_CHECKIN"
  · rw [virtualPop_REQUEST hty3 A, virtualPop_REQUEST hty3 A']
    by_cases hrr : op.reservation_id = rid
    · rw [hrr, if_pos hqmem, if_neg (by rw [hq]; simp)]
      obtain ⟨r0, hr0⟩ := vGetResv_isSome_of_exists hEx
      have hrm := vGetResv_eq_some hr0
      have hw := hW r0 hrm.1 hrm.2
      refine Or.inl ?_
      simp only [hr0, if_pos hw]
      have : A' = AbsState.mk
          (setResv A.reservations rid
            (fun x => { x with status := ReservationStatus.RESERVATION }))
          A.spots (A.queued_set.erase rid) := by
        cases A' with
        | mk a b c => simp_all
      rw [this]
    · by_cases hmem0 : op.reservation_id ∈ A.queued_set
      · have hmem0' : op.reservation_id ∈ A'.queued_set := by
          rw [hq]; exact Finset.mem_erase.2 ⟨hrr, hmem0⟩
        rw [if_pos hmem0, if_pos hmem0']
        rcases hr : vGetResv A op.reservation_id with _ | r
        · have hr' : vGetResv A' op.reservation_id = none := by rw [hfind, hr]; rfl
          simp only [hr, hr']
          refine Or.inr ⟨hsp, ?_, ?_, hW, hEx, hres⟩
          · exact Finset.mem_erase.2 ⟨fun h => hrr h.symm, hqmem⟩
          · rw [hq]; exact erase_erase_comm _ _ _
        · have hrm := vGetResv_eq_some hr
          have hne : rid ≠ op.reservation_id := fun h => hrr h.symm
          have hr' : vGetResv A' op.reservation_id = some r := by
            rw [hfind, hr]
            exact congrArg some (if_neg (by rw [hrm.2]; exact hrr))
          simp only [hr, hr']
          by_cases hw : r.status = ReservationStatus.WAITING
          · rw [if_pos hw, if_pos hw]
            refine Or.inr ⟨hsp, ?_, ?_, ?_, ?_, ?_⟩
            · exact Finset.mem_erase.2 ⟨hne, hqmem⟩
            · rw [hq]; exact erase_erase_comm _ _ _
            · exact hW_setResv hne (fun _ => rfl) hW
            · exact hEx_setResv hne (fun _ => rfl) hEx
            · show setResv A'.reservations op.reservation_id _ =
                setResv (setResv A.reservations op.reservation_id _) rid _
              rw [hres]
              exact setResv_comm _ hne _ _ (fun _ => rfl) (fun _ => rfl)
          · rw [if_neg hw, if_neg hw]
            refine Or.inr ⟨hsp, ?_, ?_, hW, hEx, hres⟩
            · exact Finset.mem_erase.2 ⟨hne, hqmem⟩
            · rw [hq]; exact erase_erase_comm _ _ _
      · have hmem0' : op.reservation_id ∉ A'.queued_set := by
          rw [hq]
          intro hc
          exact hmem0 (Finset.mem_of_mem_erase hc)
        rw [if_neg hmem0, if_neg hmem0']
        exact Or.inr hD'
  by_cases hty4 : op.op_type = "PROCESS_CHECKIN"
  · rw [virtualPop_PROCESS hty4 A, virtualPop_PROCESS hty4 A']
    rcases hr : vGetResv A op.reservation_id with _ | r
    · have hr' : vGetResv A' op.reservation_id = none := by rw [hfind, hr]; rfl
      simp only [hr, hr']
      exact Or.inr hD'
    · have hrm := vGetResv_eq_some hr
      have hr' : vGetResv A' op.reservation_id =
          some (if r.reservation_id = rid
                then { r with status := ReservationStatus.RESERVATION } else r) := by
        rw [hfind, hr]; rfl
      by_cases hrr : r.reservation_id = rid
      · have hw := hW r hrm.1 hrr
        rw [if_pos hrr] at hr'
        simp only [hr, hr']
        rw [if_pos (by decide), if_pos (by rw [hw]; decide)]
        exact Or.inr hD'
      · have hne : op.reservation_id ≠ rid := by rw [← hrm.2]; exact hrr
        rw [if_neg hrr] at hr'
        simp only [hr, hr']
        by_cases hst : r.status = ReservationStatus.ACTIVE
        · rw [if_neg (by simpa using hst), if_neg (by simpa using hst), hsp]
          rcases hspot : get_spot_by_id A.spots r.spot_id with _ | spot
          · simp only [hspot]
            exact Or.inr hD'
          · simp only [hspot]
            by_cases hse : spot.status = SpotStatus.OCCUPIED
            · rw [if_neg (by simpa using hse), if_neg (by simpa using hse)]
              refine Or.inr ⟨?_, ?_, ?_, ?_, ?_, ?_⟩
              · rfl
              · exact Finset.mem_insert.2 (Or.inr hqmem)
              · rw [hq]
                exact insert_erase_of_ne _ (fun h => hne h)
              · exact hW_setResv (fun h => hne h.symm) (fun _ => rfl) hW
              · exact hEx_setResv (fun h => hne h.symm) (fun _ => rfl) hEx
              · show setResv A'.reservations op.reservation_id _ =
                  setResv (setResv A.reservations op.reservation_id _) rid _
                rw [hres]
                exact setResv_comm _ (fun h => hne h.symm) _ _
                  (fun _ => rfl) (fun _ => rfl)
            · rw [if_pos (by simpa using hse), if_pos (by simpa using hse)]
              exact Or.inr hD'
        · rw [if_pos (by simpa using hst), if_pos (by simpa using hst)]
          exact Or.inr hD'
  by_cases hty5 : op.op_type = "CHECKOUT"
  · rw [virtualPop_CHECKOUT hty5 A, virtualPop_CHECKOUT hty5 A']
    rcases hr : vGetResv A op.reservation_id with _ | r
    · have hr' : vGetResv A' op.reservation_id = none := by rw [hfind, hr]; rfl
      simp only [hr, hr']
      exact Or.inr hD'
    · have hrm := vGetResv_eq_some hr
      have hr' : vGetResv A' op.reservation_id =
          some (if r.reservation_id = rid
                then { r with status := ReservationStatus.RESERVATION } else r) := by
        rw [hfind, hr]; rfl
      by_cases hrr : r.reservation_id = rid
      · have hw := hW r hrm.1 hrr
        rw [if_pos hrr] at hr'
        simp only [hr, hr']
        rw [if_pos (by decide), if_pos (by rw [hw]; decide)]
        exact Or.inr hD'
      · have hne : op.reservation_id ≠ rid := by rw [← hrm.2]; exact hrr
        rw [if_neg hrr] at hr'
        simp only [hr, hr']
        by_cases hst : r.status = ReservationStatus.DONE
        · rw [if_neg (by simpa using hst), if_neg (by simpa using hst), hsp]
          rcases hspot : get_spot_by_id A.spots r.spot_id with _ | spot
          · simp only [hspot]
            exact Or.inr hD'
          · simp only [hspot]
            by_cases hse : spot.status = SpotStatus.EMPTY
            · rw [if_neg (by simpa using hse), if_neg (by simpa using hse)]
              refine Or.inr ⟨?_, ?_, ?_, ?_, ?_, ?_⟩
              · rfl
              · exact hqmem
              · exact hq
              · exact hW_setResv (fun h => hne h.symm) (fun _ => rfl) hW
              · exact hEx_setResv (fun h => hne h.symm) (fun _ => rfl) hEx
              · show setResv A'.reservations op.reservation_id _ =
                  setResv (setResv A.reservations op.reservation_id _) rid _
                rw [hres]
                exact setResv_comm _ (fun h => hne h.symm) _ _
                  (fun _ => rfl) (fun _ => rfl)
            · rw [if_pos (by simpa using hse), if_pos (by simpa using hse)]
              exact Or.inr hD'
        · rw [if_pos (by simpa using hst), if_pos (by simpa using hst)]
          exact Or.inr hD'
  rw [virtualPop_other hty1 hty2 hty3 hty4 hty5 A,
    virtualPop_other hty1 hty2 hty3 hty4 hty5 A']
  exact Or.inr hD'

/-- `StackInv` is invariant under demotion of one WAITING reservation. -/
theorem stackInv_mono : ∀ (st : List UndoOp) {rid : Nat} {A A' : AbsState},
    StackInv st A → Dem rid A A' → StackInv st A'
  | [], _, _, _, _, _ => trivial
  | op :: rest, rid, A, A', h, hD => by
    rcases virtualPop_dem hD op with heq | hD'
    · exact ⟨heq ▸ h.1, heq ▸ h.2⟩
    · exact ⟨cons_dem h.1 hD', stackInv_mono rest h.2 hD'⟩

/-! ## Consistency helpers -/

theorem cons_qset {resv : List Reservation} {spots : List ParkingSpot}
    {q q' : Finset Nat} (hC : Cons ⟨resv, spots, q⟩) : Cons ⟨resv, spots, q'⟩ := hC

/-- Consistency is preserved by a ledger update that keeps ids, spot ids,
and both liveness classes. -/
theorem cons_setResv {resv : List Reservation} {spots : List ParkingSpot}
    {q q' : Finset Nat} (hC : Cons ⟨resv, spots, q⟩) (rid : Nat)
    (f : Reservation → Reservation)
    (hid : ∀ x, (f x).reservation_id = x.reservation_id)
    (hsid : ∀ x, (f x).spot_id = x.spot_id)
    (hRW : ∀ x ∈ resv, x.reservation_id = rid → (liveRW (f x) ↔ liveRW x))
    (hA : ∀ x ∈ resv, x.reservation_id = rid →
      ((f x).status = ReservationStatus.ACTIVE ↔ x.status = ReservationStatus.ACTIVE)) :
    Cons ⟨setResv resv rid f, spots, q'⟩ := by
  have himg : ∀ x, (if x.reservation_id = rid then f x else x).reservation_id =
      x.reservation_id := by
    intro x; by_cases h : x.reservation_id = rid <;> simp [h, hid]
  have himgs : ∀ x, (if x.reservation_id = rid then f x else x).spot_id = x.spot_id := by
    intro x; by_cases h : x.reservation_id = rid <;> simp [h, hsid]
  have himgRW : ∀ x ∈ resv,
      (liveRW (if x.reservation_id = rid then f x else x) ↔ liveRW x) := by
    intro x hx
    by_cases h : x.reservation_id = rid
    · rw [if_pos h]; exact hRW x hx h
    · rw [if_neg h]
  have himgA : ∀ x ∈ resv,
      ((if x.reservation_id = rid then f x else x).status = ReservationStatus.ACTIVE ↔
        x.status = ReservationStatus.ACTIVE) := by
    intro x hx
    by_cases h : x.reservation_id = rid
    · rw [if_pos h]; exact hA x hx h
    · rw [if_neg h]
  constructor
  · intro p hp
    have hOK := hC.1 p hp
    constructor
    · rw [hOK.1]
      constructor
      · rintro ⟨x, hx, hl, hs⟩
        exact ⟨_, List.mem_map.2 ⟨x, hx, rfl⟩, (himgRW x hx).2 hl,
          by rw [himgs x]; exact hs⟩
      · rintro ⟨x', hx', hl, hs⟩
        obtain ⟨x, hx, rfl⟩ := List.mem_map.1 hx'
        exact ⟨x, hx, (himgRW x hx).1 hl, by rw [← himgs x]; exact hs⟩
    · rw [hOK.2]
      constructor
      · rintro ⟨x, hx, hl, hs⟩
        exact ⟨_, List.mem_map.2 ⟨x, hx, rfl⟩, (himgA x hx).2 hl,
          by rw [himgs x]; exact hs⟩
      · rintro ⟨x', hx', hl, hs⟩
        obtain ⟨x, hx, rfl⟩ := List.mem_map.1 hx'
        exact ⟨x, hx, (himgA x hx).1 hl, by rw [← himgs x]; exact hs⟩
  · intro x1' hx1' x2' hx2' hl1 hl2 hs
    obtain ⟨x1, hx1, rfl⟩ := List.mem_map.1 hx1'
    obtain ⟨x2, hx2, rfl⟩ := List.mem_map.1 hx2'
    rw [himg x1, himg x2]
    have hl1' : liveRes x1 := by
      rcases hl1 with h | h
      · exact Or.inl ((himgRW x1 hx1).1 h)
      · exact Or.inr ((himgA x1 hx1).1 h)
    have hl2' : liveRes x2 := by
      rcases hl2 with h | h
      · exact Or.inl ((himgRW x2 hx2).1 h)
      · exact Or.inr ((himgA x2 hx2).1 h)
    exact hC.2 x1 hx1 x2 hx2 hl1' hl2' (by rw [← himgs x1, ← himgs x2]; exact hs)

theorem pairwise_ids_setResv {l : List Reservation} {rid : Nat}
    {f : Reservation → Reservation}
    (hf : ∀ x, (f x).reservation_id = x.reservation_id)
    (h : l.Pairwise (fun a b => a.reservation_id ≠ b.reservation_id)) :
    (setResv l rid f).Pairwise (fun a b => a.reservation_id ≠ b.reservation_id) := by
  unfold setResv
  rw [List.pairwise_map]
  refine h.imp ?_
  intro a b hab
  have ha' : (if a.reservation_id = rid then f a else a).reservation_id =
      a.reservation_id := by
    by_cases ha : a.reservation_id = rid <;> simp [ha, hf]
  have hb' : (if b.reservation_id = rid then f b else b).reservation_id =
      b.reservation_id := by
    by_cases hb : b.reservation_id = rid <;> simp [hb, hf]
  rw [ha', hb']
  exact hab

theorem mem_setResv_elim {l : List Reservation} {rid : Nat}
    {f : Reservation → Reservation} {x : Reservation} (hx : x ∈ setResv l rid f) :
    ∃ y ∈ l, x = (if y.reservation_id = rid then f y else y) := by
  obtain ⟨y, hy, hfy⟩ := List.mem_map.1 hx
  exact ⟨y, hy, hfy.symm⟩

theorem get_spot_of_mem {l : List ParkingSpot}
    (hnd : l.Pairwise (fun a b => a.spot_id ≠ b.spot_id))
    {p : ParkingSpot} (hp : p ∈ l) : get_spot_by_id l p.spot_id = some p :=
  find?_sid_of_mem hnd hp

theorem spot_RESERVED_of_liveRW {A : AbsState} (hC : Cons A) {r : Reservation}
    (hr : r ∈ A.reservations) (hl : liveRW r) {p : ParkingSpot} (hp : p ∈ A.spots)
    (hps : p.spot_id = r.spot_id) : p.status = SpotStatus.RESERVED :=
  (hC.1 p hp).1.2 ⟨r, hr, hl, hps.symm⟩

theorem spot_OCCUPIED_of_ACTIVE {A : AbsState} (hC : Cons A) {r : Reservation}
    (hr : r ∈ A.reservations) (hl : r.status = ReservationStatus.ACTIVE)
    {p : ParkingSpot} (hp : p ∈ A.spots) (hps : p.spot_id = r.spot_id) :
    p.status = SpotStatus.OCCUPIED :=
  (hC.1 p hp).2.2 ⟨r, hr, hl, hps.symm⟩

theorem no_live_of_EMPTY {A : AbsState} (hC : Cons A) {p : ParkingSpot}
    (hp : p ∈ A.spots) (hE : p.status = SpotStatus.EMPTY) {r : Reservation}
    (hr : r ∈ A.reservations) (hsid : r.spot_id = p.spot_id) : ¬ liveRes r := by
  rintro (hRW | hA)
  · have := (hC.1 p hp).1.2 ⟨r, hr, hRW, hsid⟩
    rw [hE] at this
    cases this
  · have := (hC.1 p hp).2.2 ⟨r, hr, hA, hsid⟩
    rw [hE] at this
    cases this

/-- Membership of the ticket set forces WAITING status (on distinct-id
ledgers with `SetInv`). -/
theorem status_WAITING_of_mem_qset {s : SysState} (hS : SetInv s)
    (hnd : s.reservations.Pairwise (fun a b => a.reservation_id ≠ b.reservation_id))
    {r : Reservation} (hr : r ∈ s.reservations)
    (hq : r.reservation_id ∈ s.queued_set) : r.status = ReservationStatus.WAITING := by
  obtain ⟨r', hr', hid, hw⟩ := hS.1 _ hq
  have := eq_of_mem_of_id_eq hnd hr hr' (by rw [hid])
  rw [this]
  exact hw

theorem notin_qset_of_status {s : SysState} (hS : SetInv s)
    (hnd : s.reservations.Pairwise (fun a b => a.reservation_id ≠ b.reservation_id))
    {r : Reservation} (hr : r ∈ s.reservations)
    (h : r.status ≠ ReservationStatus.WAITING) : r.reservation_id ∉ s.queued_set :=
  fun hc => h (status_WAITING_of_mem_qset hS hnd hr hc)

/-! ## `request_check_in`: shape and invariant preservation -/

theorem request_fail_eq {s : SysState} {rid : Nat}
    (h : (request_check_in s rid).1 = false) : (request_check_in s rid).2 = s := by
  unfold request_check_in at h ⊢
  cases hr : getResv s rid with
  | none => rfl
  | some r =>
    rw [hr] at h
    dsimp only at h ⊢
    by_cases hst : r.status ≠ ReservationStatus.RESERVATION
    · rw [if_pos hst]
    · rw [if_neg hst] at h ⊢
      cases hsp : get_spot_by_id s.spots r.spot_id with
      | none => rfl
      | some spot =>
        rw [hsp] at h
        dsimp only at h ⊢
        by_cases hss : spot.status ≠ SpotStatus.RESERVED
        · rw [if_pos hss]
        · rw [if_neg hss] at h ⊢
          by_cases hq : rid ∈ s.queued_set
          · rw [if_pos hq]
          · rw [if_neg hq] at h
            cases h

theorem request_success_eq {s : SysState} {rid : Nat} {r : Reservation}
    {spot : ParkingSpot} (hr : getResv s rid = some r)
    (hst : r.status = ReservationStatus.RESERVATION)
    (hsp : get_spot_by_id s.spots r.spot_id = some spot)
    (hss : spot.status = SpotStatus.RESERVED)
    (hqn : rid ∉ s.queued_set) :
    request_check_in s rid = (true,
      { s with entry_queue := s.entry_queue ++ [rid],
               queued_set := insert rid s.queued_set,
               reservations := setResv s.reservations rid
                 (fun x => { x with status := ReservationStatus.WAITING }),
               undo_stack := ⟨"REQUEST_CHECKIN", rid⟩ :: s.undo_stack }) := by
  unfold request_check_in
  rw [hr]
  dsimp only
  rw [if_neg (show ¬(r.status ≠ ReservationStatus.RESERVATION) from fun hc => hc hst)]
  rw [hsp]
  dsimp only
  rw [if_neg (show ¬(spot.status ≠ SpotStatus.RESERVED) from fun hc => hc hss)]
  rw [if_neg hqn]

theorem ginv_request (s : SysState) (rid : Nat) (hG : GInv s) :
    GInv (request_check_in s rid).2 := by
  by_cases hfail : (request_check_in s rid).1 = false
  · rw [request_fail_eq hfail]
    exact hG
  have hG' := hG
  obtain ⟨hC, hS, hGN, hL, hSp, hH, hR, hK⟩ := hG'
  unfold request_check_in at hfail
  cases hr : getResv s rid with
  | none => rw [hr] at hfail; cases hfail rfl
  | some r =>
    rw [hr] at hfail
    dsimp only at hfail
    by_cases hst : r.status ≠ ReservationStatus.RESERVATION
    · rw [if_pos hst] at hfail; cases hfail rfl
    rw [if_neg hst] at hfail
    rw [not_not] at hst
    cases hsp : get_spot_by_id s.spots r.spot_id with
    | none => rw [hsp] at hfail; cases hfail rfl
    | some spot =>
      rw [hsp] at hfail
      dsimp only at hfail
      by_cases hss : spot.status ≠ SpotStatus.RESERVED
      · rw [if_pos hss] at hfail; cases hfail rfl
      rw [if_neg hss] at hfail
      rw [not_not] at hss
      by_cases hq : rid ∈ s.queued_set
      · rw [if_pos hq] at hfail; cases hfail rfl
      have hrm := getResv_eq_some hr
      have huniq : ∀ x ∈ s.reservations, x.reservation_id = rid → x = r :=
        fun x hx hxid => eq_of_mem_of_id_eq hL.1 hx hrm.1 (by rw [hxid, hrm.2])
      rw [request_success_eq hr hst hsp hss hq]
      have halign : virtualPop ⟨"REQUEST_CHECKIN", rid⟩
          (AbsState.mk (setResv s.reservations rid
            (fun x => { x with status := ReservationStatus.WAITING }))
            s.spots (insert rid s.queued_set)) = absSt s := by
        rw [virtualPop_REQUEST rfl]
        rw [if_pos (Finset.mem_insert_self rid s.queued_set)]
        have hl : vGetResv (AbsState.mk (setResv s.reservations rid
            (fun x => { x with status := ReservationStatus.WAITING }))
            s.spots (insert rid s.queued_set)) rid =
            some { r with status := ReservationStatus.WAITING } := by
          show (setResv s.reservations rid
            (fun x => { x with status := ReservationStatus.WAITING })).find?
              (fun x => x.reservation_id == rid) = _
          rw [find?_setResv s.reservations rid
            (fun x => { x with status := ReservationStatus.WAITING }) (fun _ => rfl) rid]
          rw [show s.reservations.find? (fun x => x.reservation_id == rid) = some r from hr]
          exact congrArg some (if_pos hrm.2)
        simp only [hl, if_pos rfl]
        show AbsState.mk _ _ _ = _
        rw [setResv_setResv s.reservations rid
          (fun x => { x with status := ReservationStatus.WAITING })
          (fun x => { x with status := ReservationStatus.RESERVATION })
          (fun _ => rfl)]
        rw [setResv_eq_self (fun x hx hxid => by
          rw [huniq x hx hxid]
          have hrr : r.status = ReservationStatus.RESERVATION := hst
          cases r
          simp_all)]
        show AbsState.mk s.reservations s.spots _ = absSt s
        rw [Finset.erase_insert hq]
        rfl
      refine ⟨?_, ?_, ?_, ?_, hSp, hH, hR, ?_⟩
      · exact cons_setResv hC rid _ (fun _ => rfl) (fun _ => rfl)
          (fun x hx hxid => by
            rw [huniq x hx hxid]
            constructor
            · intro _; exact Or.inl hst
            · intro _; exact Or.inr rfl)
          (fun x hx hxid => by
            rw [huniq x hx hxid, hst]
            constructor
            · intro h; cases h
            · intro h; cases h)
      · constructor
        · intro n hn
          rcases Finset.mem_insert.1 hn with rfl | hn2
          · exact ⟨{ r with status := ReservationStatus.WAITING },
              List.mem_map.2 ⟨r, hrm.1, by rw [if_pos hrm.2]⟩, hrm.2, rfl⟩
          · obtain ⟨r2, hr2, hid, hw⟩ := hS.1 n hn2
            refine ⟨(if r2.reservation_id = rid then
              { r2 with status := ReservationStatus.WAITING } else r2),
              List.mem_map.2 ⟨r2, hr2, rfl⟩, ?_, ?_⟩
            · by_cases h : r2.reservation_id = rid
              · rw [if_pos h]
                exact hid
              · rw [if_neg h]
                exact hid
            · have h : r2.reservation_id ≠ rid := by
                rw [hid]
                rintro rfl
                exact hq hn2
              rw [if_neg h]
              exact hw
        · intro x hx hw
          obtain ⟨y, hy, rfl⟩ := mem_setResv_elim hx
          by_cases h : y.reservation_id = rid
          · rw [if_pos h]
            show y.reservation_id ∈ _
            rw [h]
            exact Finset.mem_insert_self _ _
          · rw [if_neg h] at hw ⊢
            exact Finset.mem_insert_of_mem (hS.2 y hy hw)
      · intro x hx hcond
        obtain ⟨y, hy, rfl⟩ := mem_setResv_elim hx
        by_cases h : y.reservation_id = rid
        · rw [if_pos h]
          show y.gate = none
          exact hGN y hy (Or.inl (by rw [huniq y hy h]; exact hst))
        · rw [if_neg h] at hcond ⊢
          exact hGN y hy hcond
      · refine ⟨pairwise_ids_setResv (fun _ => rfl) hL.1, ?_⟩
        intro x hx
        obtain ⟨y, hy, rfl⟩ := mem_setResv_elim hx
        have hcy := hL.2 y hy
        by_cases h : y.reservation_id = rid
        · rw [if_pos h]
          exact hcy
        · rw [if_neg h]
          exact hcy
      · exact ⟨halign ▸ hC, halign ▸ hK⟩

/-! ## String order and heap lemmas -/

theorem ltl_trans : ∀ {a b c : List Char}, strLtl a b = true → strLtl b c = true →
    strLtl a c = true
  | [], [], c, _, h2 => h2
  | [], _ :: _, [], _, h2 => by simp [strLtl] at h2
  | [], _ :: _, _ :: _, _, _ => rfl
  | _ :: _, [], _, h1, _ => by simp [strLtl] at h1
  | _ :: _, _ :: _, [], _, h2 => by simp [strLtl] at h2
  | a :: as, b :: bs, c :: cs, h1, h2 => by
    unfold strLtl at h1 h2 ⊢
    by_cases hab : a.toNat < b.toNat
    · by_cases hbc : b.toNat < c.toNat
      · rw [if_pos (hab.trans hbc)]
      · rw [if_neg hbc] at h2
        by_cases hbc2 : b.toNat = c.toNat
        · rw [if_pos (show a.toNat < c.toNat by omega)]
        · rw [if_neg hbc2] at h2
          cases h2
    · rw [if_neg hab] at h1
      by_cases hab2 : a.toNat = b.toNat
      · rw [if_pos hab2] at h1
        by_cases hbc : b.toNat < c.toNat
        · rw [if_pos (show a.toNat < c.toNat by omega)]
        · rw [if_neg hbc] at h2
          by_cases hbc2 : b.toNat = c.toNat
          · rw [if_pos hbc2] at h2
            rw [if_neg (show ¬ a.toNat < c.toNat by omega),
              if_pos (show a.toNat = c.toNat by omega)]
            exact ltl_trans h1 h2
          · rw [if_neg hbc2] at h2
            cases h2
      · rw [if_neg hab2] at h1
        cases h1

theorem ltl_total : ∀ (a b : List Char), strLtl a b = true ∨ a = b ∨ strLtl b a = true
  | [], [] => Or.inr (Or.inl rfl)
  | [], _ :: _ => Or.inl rfl
  | _ :: _, [] => Or.inr (Or.inr rfl)
  | a :: as, b :: bs => by
    rcases Nat.lt_trichotomy a.toNat b.toNat with h | h | h
    · left
      unfold strLtl
      rw [if_pos h]
    · rcases ltl_total as bs with h1 | h1 | h1
      · left
        unfold strLtl
        rw [if_neg (by omega), if_pos h, h1]
      · right; left
        have hc : a = b := Char.ext (UInt32.ext h)
        rw [hc, h1]
      · right; right
        unfold strLtl
        rw [if_neg (by omega), if_pos h.symm, h1]
    · right; right
      unfold strLtl
      rw [if_pos h]

theorem ltl_irrefl : ∀ (a : List Char), strLtl a a = false
  | [] => rfl
  | a :: as => by
    unfold strLtl
    rw [if_neg (by omega), if_pos rfl, ltl_irrefl as]

theorem ltl_asymm {a b : List Char} (h : strLtl a b = true) : strLtl b a = false := by
  by_contra hc
  have hba : strLtl b a = true := by
    cases hh : strLtl b a
    · exact absurd hh hc
    · rfl
  have := ltl_trans h hba
  rw [ltl_irrefl] at this
  cases this

theorem sLeP_total (a b : String) : sLeP a b ∨ sLeP b a := by
  unfold sLeP strLe
  rcases ltl_total a.data b.data with h | h | h
  · left
    rw [ltl_asymm h]
    rfl
  · left
    rw [h]
    rw [ltl_irrefl]
    rfl
  · right
    rw [ltl_asymm h]
    rfl

theorem sLeP_trans {a b c : String} (h1 : sLeP a b) (h2 : sLeP b c) : sLeP a c := by
  unfold sLeP strLe at h1 h2 ⊢
  have hba : strLtl b.data a.data = false := by
    cases hh : strLtl b.data a.data
    · rfl
    · rw [hh] at h1; cases h1
  have hcb : strLtl c.data b.data = false := by
    cases hh : strLtl c.data b.data
    · rfl
    · rw [hh] at h2; cases h2
  have hca : strLtl c.data a.data = false := by
    rcases ltl_total c.data a.data with h | h | h
    · rcases ltl_total c.data b.data with hh | hh | hh
      · rw [hh] at hcb; cases hcb
      · rw [← hh] at hba
        rw [h] at hba
        cases hba
      · have := ltl_trans hh h
        rw [this] at hba
        cases hba
    · rw [h]
      exact ltl_irrefl _
    · exact ltl_asymm h
  rw [hca]
  rfl

theorem mem_heapInsert {a x : String} : ∀ {l : List String},
    x ∈ heapInsert a l ↔ x = a ∨ x ∈ l := by
  intro l
  induction l with
  | nil => simp [heapInsert]
  | cons y ys ih =>
    unfold heapInsert
    by_cases h : strLe a y = true
    · rw [if_pos h]
      simp only [List.mem_cons]
    · rw [if_neg h]
      simp only [List.mem_cons, ih]
      tauto

theorem heapInsert_sorted {l : List String} (h : l.Sorted sLeP) (a : String) :
    (heapInsert a l).Sorted sLeP := by
  induction l with
  | nil => simp [heapInsert, List.Sorted]
  | cons x xs ih =>
    unfold heapInsert
    by_cases hax : strLe a x = true
    · rw [if_pos hax]
      rw [List.sorted_cons]
      constructor
      · intro b hb
        rcases List.mem_cons.1 hb with rfl | hb'
        · exact hax
        · exact sLeP_trans hax ((List.sorted_cons.1 h).1 b hb')
      · exact h
    · rw [if_neg hax]
      rw [List.sorted_cons]
      have hxs := List.sorted_cons.1 h
      constructor
      · intro b hb
        rcases mem_heapInsert.1 hb with rfl | hb'
        · rcases sLeP_total b x with hh | hh
          · exact absurd hh hax
          · exact hh
        · exact hxs.1 b hb'
      · exact ih hxs.2

/-! ## Spot update and heap tag helpers -/

theorem mem_setSpotStatus_elim {l : List ParkingSpot} {sid : String} {st : SpotStatus}
    {p : ParkingSpot} (hp : p ∈ setSpotStatus l sid st) :
    ∃ y ∈ l, p = (if y.spot_id = sid then { y with status := st } else y) := by
  obtain ⟨y, hy, hfy⟩ := List.mem_map.1 hp
  exact ⟨y, hy, hfy.symm⟩

theorem mem_setSpotStatus_intro {l : List ParkingSpot} (sid : String) (st : SpotStatus)
    {y : ParkingSpot} (hy : y ∈ l) :
    (if y.spot_id = sid then { y with status := st } else y) ∈ setSpotStatus l sid st :=
  List.mem_map.2 ⟨y, hy, rfl⟩

theorem upd_spot_id (y : ParkingSpot) (sid : String) (st : SpotStatus) :
    (if y.spot_id = sid then { y with status := st } else y).spot_id = y.spot_id := by
  by_cases h : y.spot_id = sid <;> simp [h]

theorem upd_spot_type (y : ParkingSpot) (sid : String) (st : SpotStatus) :
    (if y.spot_id = sid then { y with status := st } else y).spot_type = y.spot_type := by
  by_cases h : y.spot_id = sid <;> simp [h]

theorem pairwise_sids_setSpotStatus {l : List ParkingSpot} {sid : String}
    {st : SpotStatus}
    (h : l.Pairwise (fun a b => a.spot_id ≠ b.spot_id)) :
    (setSpotStatus l sid st).Pairwise (fun a b => a.spot_id ≠ b.spot_id) := by
  unfold setSpotStatus
  rw [List.pairwise_map]
  refine h.imp ?_
  intro a b hab
  rw [upd_spot_id, upd_spot_id]
  exact hab

theorem exists_spot_setSpotStatus {l : List ParkingSpot} (sid : String) (st : SpotStatus)
    {z : String} (h : ∃ p ∈ l, p.spot_id = z) :
    ∃ p ∈ setSpotStatus l sid st, p.spot_id = z := by
  obtain ⟨p, hp, hpz⟩ := h
  exact ⟨_, mem_setSpotStatus_intro sid st hp, by rw [upd_spot_id]; exact hpz⟩

theorem select_heap_eq {ty : String} {t : HeapTag} (h : select_heap ty = some t) :
    ty = tagType t := by
  unfold select_heap at h
  by_cases h1 : ty = "EV"
  · rw [if_pos h1] at h
    cases h
    exact h1
  · rw [if_neg h1] at h
    by_cases h2 : ty = "normal"
    · rw [if_pos h2] at h
      cases h
      exact h2
    · rw [if_neg h2] at h
      cases h

theorem select_heap_valid {ty : String} (h : ty = "EV" ∨ ty = "normal") :
    ∃ t, select_heap ty = some t := by
  rcases h with h | h
  · exact ⟨HeapTag.ev, by rw [h]; rfl⟩
  · exact ⟨HeapTag.normal, by rw [h]; rfl⟩

theorem setHeap_spots (s : SysState) (t : HeapTag) (h : List String) :
    (setHeap s t h).spots = s.spots := by cases t <;> rfl

theorem setHeap_reservations (s : SysState) (t : HeapTag) (h : List String) :
    (setHeap s t h).reservations = s.reservations := by cases t <;> rfl

theorem setHeap_queued_set (s : SysState) (t : HeapTag) (h : List String) :
    (setHeap s t h).queued_set = s.queued_set := by cases t <;> rfl

theorem setHeap_entry_queue (s : SysState) (t : HeapTag) (h : List String) :
    (setHeap s t h).entry_queue = s.entry_queue := by cases t <;> rfl

theorem setHeap_gates (s : SysState) (t : HeapTag) (h : List String) :
    (setHeap s t h).gates = s.gates := by cases t <;> rfl

theorem setHeap_undo_stack (s : SysState) (t : HeapTag) (h : List String) :
    (setHeap s t h).undo_stack = s.undo_stack := by cases t <;> rfl

theorem setHeap_counter (s : SysState) (t : HeapTag) (h : List String) :
    (setHeap s t h).counter = s.counter := by cases t <;> rfl

theorem absSt_setHeap (s : SysState) (t : HeapTag) (h : List String) :
    absSt (setHeap s t h) = absSt s := by cases t <;> rfl

theorem getHeap_setHeap_same (s : SysState) (t : HeapTag) (h : List String) :
    getHeap (setHeap s t h) t = h := by cases t <;> rfl

theorem getHeap_setHeap_other {t t' : HeapTag} (hne : t' ≠ t) (s : SysState)
    (h : List String) : getHeap (setHeap s t h) t' = getHeap s t' := by
  cases t <;> cases t' <;> first | rfl | exact absurd rfl hne

theorem heapsOK_of {s : SysState}
    (h : ∀ t, heapOKL s.spots (getHeap s t) (tagType t)) : HeapsOK s :=
  ⟨h HeapTag.normal, h HeapTag.ev⟩

theorem heapsOK_to {s : SysState} (h : HeapsOK s) :
    ∀ t, heapOKL s.spots (getHeap s t) (tagType t)
  | HeapTag.normal => h.1
  | HeapTag.ev => h.2

theorem tagType_inj : ∀ {t t' : HeapTag}, tagType t = tagType t' → t = t'
  | HeapTag.normal, HeapTag.normal, _ => rfl
  | HeapTag.ev, HeapTag.ev, _ => rfl
  | HeapTag.normal, HeapTag.ev, h => by simp [tagType] at h
  | HeapTag.ev, HeapTag.normal, h => by simp [tagType] at h

/-- Freeing a spot of this heap's class and re-admitting it preserves
allocator well-formedness. -/
theorem heapOKL_free {spots : List ParkingSpot} {heap : List String} {ty : String}
    (h : heapOKL spots heap ty) {spot : ParkingSpot}
    (hmem : spot ∈ spots) (hty : spot.spot_type = ty) :
    heapOKL (setSpotStatus spots spot.spot_id SpotStatus.EMPTY)
      (heapInsert spot.spot_id heap) ty := by
  obtain ⟨hs, he, hE⟩ := h
  refine ⟨heapInsert_sorted hs _, ?_, ?_⟩
  · intro sid hsid
    rcases mem_heapInsert.1 hsid with rfl | hsid2
    · exact ⟨_, mem_setSpotStatus_intro _ _ hmem,
        by rw [upd_spot_id], by rw [upd_spot_type]; exact hty⟩
    · obtain ⟨p, hp, hid, hpty⟩ := he sid hsid2
      exact ⟨_, mem_setSpotStatus_intro _ _ hp,
        by rw [upd_spot_id]; exact hid, by rw [upd_spot_type]; exact hpty⟩
  · intro p' hp' hE' hty'
    obtain ⟨p, hp, rfl⟩ := mem_setSpotStatus_elim hp'
    rw [upd_spot_id]
    by_cases hid : p.spot_id = spot.spot_id
    · rw [hid]
      exact mem_heapInsert.2 (Or.inl rfl)
    · rw [if_neg hid] at hE' hty'
      exact mem_heapInsert.2 (Or.inr (hE p hp hE' hty'))

/-- Freeing a spot of the other class leaves this allocator well-formed. -/
theorem heapOKL_free_other {spots : List ParkingSpot} {heap : List String} {ty : String}
    (h : heapOKL spots heap ty)
    (hnd : spots.Pairwise (fun a b => a.spot_id ≠ b.spot_id))
    {spot : ParkingSpot} (hmem : spot ∈ spots) (hty : spot.spot_type ≠ ty) :
    heapOKL (setSpotStatus spots spot.spot_id SpotStatus.EMPTY) heap ty := by
  obtain ⟨hs, he, hE⟩ := h
  refine ⟨hs, ?_, ?_⟩
  · intro sid hsid
    obtain ⟨p, hp, hid, hpty⟩ := he sid hsid
    exact ⟨_, mem_setSpotStatus_intro _ _ hp,
      by rw [upd_spot_id]; exact hid, by rw [upd_spot_type]; exact hpty⟩
  · intro p' hp' hE' hty'
    obtain ⟨p, hp, rfl⟩ := mem_setSpotStatus_elim hp'
    by_cases hid : p.spot_id = spot.spot_id
    · exfalso
      have hps : p = spot := spot_eq_of_mem_of_id_eq hnd hp hmem hid
      rw [upd_spot_type] at hty'
      exact hty (hps ▸ hty')
    · rw [if_neg hid] at hE' hty' ⊢
      exact hE p hp hE' hty'

/-- Marking a spot non-EMPTY (Reserved or Occupied) keeps every allocator
well-formed without touching its heap. -/
theorem heapOKL_unfree {spots : List ParkingSpot} {heap : List String} {ty : String}
    (h : heapOKL spots heap ty) (sid : String) {st : SpotStatus}
    (hst : st ≠ SpotStatus.EMPTY) :
    heapOKL (setSpotStatus spots sid st) heap ty := by
  obtain ⟨hs, he, hE⟩ := h
  refine ⟨hs, ?_, ?_⟩
  · intro z hz
    obtain ⟨p, hp, hid, hpty⟩ := he z hz
    exact ⟨_, mem_setSpotStatus_intro _ _ hp,
      by rw [upd_spot_id]; exact hid, by rw [upd_spot_type]; exact hpty⟩
  · intro p' hp' hE' hty'
    obtain ⟨p, hp, rfl⟩ := mem_setSpotStatus_elim hp'
    by_cases hid : p.spot_id = sid
    · rw [if_pos hid] at hE'
      exact absurd hE' hst
    · rw [if_neg hid] at hE' hty' ⊢
      exact hE p hp hE' hty'

/-- The general consistency-preservation step: one live reservation changes
status (to `(f r).status`) while its spot's status changes accordingly. -/
theorem cons_update {resv : List Reservation} {spots : List ParkingSpot}
    {q q' : Finset Nat} (hC : Cons ⟨resv, spots, q⟩) {r : Reservation} (hr : r ∈ resv)
    (hu : ∀ x ∈ resv, x.reservation_id = r.reservation_id → x = r)
    (hlive : liveRes r)
    (f : Reservation → Reservation)
    (hfsid : (f r).spot_id = r.spot_id)
    {newsp : SpotStatus}
    (hRW : newsp = SpotStatus.RESERVED ↔ liveRW (f r))
    (hOC : newsp = SpotStatus.OCCUPIED ↔ (f r).status = ReservationStatus.ACTIVE) :
    Cons ⟨setResv resv r.reservation_id f, setSpotStatus spots r.spot_id newsp, q'⟩ := by
  have himg : ∀ x ∈ resv,
      (if x.reservation_id = r.reservation_id then f x else x) = f r ∨
      ((if x.reservation_id = r.reservation_id then f x else x) = x ∧
        x.reservation_id ≠ r.reservation_id) := by
    intro x hx
    by_cases h : x.reservation_id = r.reservation_id
    · rw [if_pos h, hu x hx h]
      exact Or.inl rfl
    · rw [if_neg h]
      exact Or.inr ⟨rfl, h⟩
  constructor
  · intro p' hp'
    obtain ⟨p, hp, rfl⟩ := mem_setSpotStatus_elim hp'
    by_cases hps : p.spot_id = r.spot_id
    · rw [if_pos hps]
      constructor
      · show newsp = SpotStatus.RESERVED ↔ _
        rw [hRW]
        constructor
        · intro hl
          exact ⟨f r, List.mem_map.2 ⟨r, hr, by rw [if_pos rfl]⟩, hl,
            by rw [hfsid, hps]⟩
        · rintro ⟨x', hx', hl, hs⟩
          obtain ⟨x, hx, rfl⟩ := mem_setResv_elim hx'
          rcases himg x hx with he | ⟨he, hne⟩
          · rw [he] at hl
            exact hl
          · rw [he] at hl hs
            exfalso
            have hxl : liveRes x := Or.inl hl
            have := hC.2 x hx r hr hxl hlive (by rw [hs, hps])
            exact hne this
      · show newsp = SpotStatus.OCCUPIED ↔ _
        rw [hOC]
        constructor
        · intro hl
          exact ⟨f r, List.mem_map.2 ⟨r, hr, by rw [if_pos rfl]⟩, hl,
            by rw [hfsid, hps]⟩
        · rintro ⟨x', hx', hl, hs⟩
          obtain ⟨x, hx, rfl⟩ := mem_setResv_elim hx'
          rcases himg x hx with he | ⟨he, hne⟩
          · rw [he] at hl
            exact hl
          · rw [he] at hl hs
            exfalso
            have hxl : liveRes x := Or.inr hl
            have := hC.2 x hx r hr hxl hlive (by rw [hs, hps])
            exact hne this
    · rw [if_neg hps]
      have hOK := hC.1 p hp
      constructor
      · rw [hOK.1]
        constructor
        · rintro ⟨x, hx, hl, hs⟩
          have hxr : x.reservation_id ≠ r.reservation_id := by
            intro hh
            rw [hu x hx hh] at hs
            exact hps hs.symm
          exact ⟨_, List.mem_map.2 ⟨x, hx, rfl⟩, by rw [if_neg hxr]; exact hl,
            by rw [if_neg hxr]; exact hs⟩
        · rintro ⟨x', hx', hl, hs⟩
          obtain ⟨x, hx, rfl⟩ := mem_setResv_elim hx'
          rcases himg x hx with he | ⟨he, _⟩
          · rw [he] at hs
            rw [hfsid] at hs
            exact absurd hs.symm hps
          · rw [he] at hl hs
            exact ⟨x, hx, hl, hs⟩
      · rw [hOK.2]
        constructor
        · rintro ⟨x, hx, hl, hs⟩
          have hxr : x.reservation_id ≠ r.reservation_id := by
            intro hh
            rw [hu x hx hh] at hs
            exact hps hs.symm
          exact ⟨_, List.mem_map.2 ⟨x, hx, rfl⟩, by rw [if_neg hxr]; exact hl,
            by rw [if_neg hxr]; exact hs⟩
        · rintro ⟨x', hx', hl, hs⟩
          obtain ⟨x, hx, rfl⟩ := mem_setResv_elim hx'
          rcases himg x hx with he | ⟨he, _⟩
          · rw [he] at hs
            rw [hfsid] at hs
            exact absurd hs.symm hps
          · rw [he] at hl hs
            exact ⟨x, hx, hl, hs⟩
  · intro x1' hx1' x2' hx2' hl1 hl2 hs
    obtain ⟨x1, hx1, rfl⟩ := mem_setResv_elim hx1'
    obtain ⟨x2, hx2, rfl⟩ := mem_setResv_elim hx2'
    rcases himg x1 hx1 with he1 | ⟨he1, hne1⟩ <;>
      rcases himg x2 hx2 with he2 | ⟨he2, hne2⟩
    · rw [he1, he2]
    · rw [he1] at hs ⊢
      rw [he2] at hl2 hs ⊢
      rw [hfsid] at hs
      exfalso
      exact hne2 (hC.2 x2 hx2 r hr hl2 hlive hs.symm)
    · rw [he2] at hs ⊢
      rw [he1] at hl1 hs ⊢
      rw [hfsid] at hs
      exfalso
      exact hne1 (hC.2 x1 hx1 r hr hl1 hlive hs)
    · rw [he1] at hl1 hs ⊢
      rw [he2] at hl2 hs ⊢
      exact hC.2 x1 hx1 x2 hx2 hl1 hl2 hs

theorem upd_resv_id (y : Reservation) (rid : Nat) (f : Reservation → Reservation)
    (hf : ∀ x, (f x).reservation_id = x.reservation_id) :
    (if y.reservation_id = rid then f y else y).reservation_id = y.reservation_id := by
  by_cases h : y.reservation_id = rid <;> simp [h, hf]

/-! ## `cancel_reservation`: shape and invariant preservation -/

theorem cancel_success_eq {s : SysState} {rid : Nat} {r : Reservation}
    {spot : ParkingSpot} {t : HeapTag} (hr : getResv s rid = some r)
    (hst : r.status = ReservationStatus.RESERVATION ∨
      r.status = ReservationStatus.WAITING)
    (hsp : get_spot_by_id s.spots r.spot_id = some spot)
    (hso : spot.status ≠ SpotStatus.OCCUPIED)
    (hsel : select_heap spot.spot_type = some t) :
    cancel_reservation s rid = (true,
      { setHeap
          { s with queued_set := s.queued_set.erase rid,
                   reservations := setResv s.reservations rid
                     (fun x => { x with status := ReservationStatus.CANCELED }),
                   spots := setSpotStatus s.spots spot.spot_id SpotStatus.EMPTY }
          t (heapInsert spot.spot_id (getHeap s t)) with
        undo_stack := ⟨"CANCEL", rid⟩ :: s.undo_stack }) := by
  unfold cancel_reservation
  rw [hr]
  dsimp only
  rw [if_neg (not_not_intro hst), hsp]
  dsimp only
  rw [if_neg hso, hsel]
  dsimp only
  cases t <;> rfl

theorem cancel_fail_eq {s : SysState} {rid : Nat} (hG : GInv s)
    (h : (cancel_reservation s rid).1 = false) : (cancel_reservation s rid).2 = s := by
  obtain ⟨hC, hS, hGN, hL, hSp, hH, hR, hK⟩ := hG
  unfold cancel_reservation at h ⊢
  cases hr : getResv s rid with
  | none => rfl
  | some r =>
    rw [hr] at h
    dsimp only at h ⊢
    by_cases hst : ¬(r.status = ReservationStatus.RESERVATION ∨
        r.status = ReservationStatus.WAITING)
    · rw [if_pos hst]
    rw [if_neg hst] at h ⊢
    rw [not_not] at hst
    have hrm := getResv_eq_some hr
    cases hsp : get_spot_by_id s.spots r.spot_id with
    | none => rfl
    | some spot =>
      rw [hsp] at h
      dsimp only at h ⊢
      have hspm := get_spot_by_id_eq_some hsp
      by_cases hso : spot.status = SpotStatus.OCCUPIED
      · rw [if_pos hso]
        have hnq : rid ∉ s.queued_set := by
          intro hq
          have hw : r.status = ReservationStatus.WAITING := by
            have := hS.1 rid hq
            obtain ⟨r2, hr2, hid, hw2⟩ := this
            rw [eq_of_mem_of_id_eq hL.1 hrm.1 hr2 (by rw [hrm.2, hid])]
            exact hw2
          have : spot.status = SpotStatus.RESERVED :=
            spot_RESERVED_of_liveRW hC hrm.1 (Or.inr hw) hspm.1 hspm.2
          rw [hso] at this
          cases this
        rw [Finset.erase_eq_of_not_mem hnq]
      · rw [if_neg hso] at h ⊢
        obtain ⟨vt, hvt⟩ := select_heap_valid (hSp.2 spot hspm.1)
        rw [hvt] at h
        cases h

theorem ginv_cancel_core {s : SysState} (hG : GInv s) {rid : Nat} {r : Reservation}
    {spot : ParkingSpot} {t : HeapTag} (hr : getResv s rid = some r)
    (hst : r.status = ReservationStatus.RESERVATION ∨
      r.status = ReservationStatus.WAITING)
    (hsp : get_spot_by_id s.spots r.spot_id = some spot)
    (hty : spot.spot_type = tagType t)
    {X : SysState}
    (hXsp : X.spots = setSpotStatus s.spots spot.spot_id SpotStatus.EMPTY)
    (hXr : X.reservations = setResv s.reservations rid
      (fun x => { x with status := ReservationStatus.CANCELED }))
    (hXq : X.queued_set = s.queued_set.erase rid)
    (hXg : X.gates = s.gates)
    (hXu : X.undo_stack = ⟨"CANCEL", rid⟩ :: s.undo_stack)
    (hXc : X.counter = s.counter)
    (hXh1 : getHeap X t = heapInsert spot.spot_id (getHeap s t))
    (hXh2 : ∀ t', t' ≠ t → getHeap X t' = getHeap s t') :
    GInv X := by
  obtain ⟨hC, hS, hGN, hL, hSp, hH, hR, hK⟩ := hG
  have hrm := getResv_eq_some hr
  have hspm := get_spot_by_id_eq_some hsp
  have huniq : ∀ x ∈ s.reservations, x.reservation_id = r.reservation_id → x = r :=
    fun x hx hxid => eq_of_mem_of_id_eq hL.1 hx hrm.1 hxid
  have hlive : liveRes r := Or.inl hst
  have hresv_allres : ∀ p ∈ s.spots, p.spot_id = spot.spot_id →
      p.status = SpotStatus.RESERVED := by
    intro p hp hpid
    exact spot_RESERVED_of_liveRW hC hrm.1 hst hp (by rw [hpid, hspm.2])
  have habs : absSt X = AbsState.mk
      (setResv s.reservations rid (fun x => { x with status := ReservationStatus.CANCELED }))
      (setSpotStatus s.spots spot.spot_id SpotStatus.EMPTY)
      (s.queued_set.erase rid) := by
    show AbsState.mk _ _ _ = _
    rw [hXr, hXsp, hXq]
  have hBres : setResv (setResv s.reservations rid
      (fun x => { x with status := ReservationStatus.CANCELED })) rid
      (fun x => { x with status := ReservationStatus.RESERVATION }) =
      setResv s.reservations rid
        (fun x => { x with status := ReservationStatus.RESERVATION }) := by
    rw [setResv_setResv s.reservations rid
      (fun x => { x with status := ReservationStatus.CANCELED })
      (fun x => { x with status := ReservationStatus.RESERVATION }) (fun _ => rfl)]
  have hBspots : setSpotStatus (setSpotStatus s.spots spot.spot_id SpotStatus.EMPTY)
      spot.spot_id SpotStatus.RESERVED = s.spots := by
    rw [setSpotStatus_setSpotStatus]
    exact setSpotStatus_eq_self hresv_allres
  refine ⟨?_, ?_, ?_, ?_, ?_, ?_, ?_, ?_⟩
  · show Cons ⟨X.reservations, X.spots, X.queued_set⟩
    rw [hXr, hXsp]
    rw [show (rid : Nat) = r.reservation_id from hrm.2.symm,
      show spot.spot_id = r.spot_id from hspm.2]
    exact cons_update hC hrm.1 huniq hlive _ rfl
      (iff_of_false (by decide) (by simp [liveRW]))
      (iff_of_false (by decide) (by simp))
  · constructor
    · intro n hn
      rw [hXq] at hn
      have hne := (Finset.mem_erase.1 hn).1
      obtain ⟨r2, hr2, hid, hw⟩ := hS.1 n (Finset.mem_erase.1 hn).2
      rw [hXr]
      refine ⟨(if r2.reservation_id = rid then
        { r2 with status := ReservationStatus.CANCELED } else r2),
        List.mem_map.2 ⟨r2, hr2, rfl⟩, ?_, ?_⟩
      · rw [upd_resv_id r2 rid
          (fun x => { x with status := ReservationStatus.CANCELED }) (fun _ => rfl)]
        exact hid
      · rw [if_neg (by rw [hid]; exact hne)]
        exact hw
    · intro x hx hw
      rw [hXr] at hx
      rw [hXq]
      obtain ⟨y, hy, rfl⟩ := mem_setResv_elim hx
      by_cases hyid : y.reservation_id = rid
      · rw [if_pos hyid] at hw
        cases hw
      · rw [if_neg hyid] at hw ⊢
        exact Finset.mem_erase.2 ⟨hyid, hS.2 y hy hw⟩
  · intro x hx hcond
    rw [hXr] at hx
    obtain ⟨y, hy, rfl⟩ := mem_setResv_elim hx
    by_cases hyid : y.reservation_id = rid
    · rw [if_pos hyid]
      show y.gate = none
      have hyr := huniq y hy (by rw [hyid, hrm.2])
      refine hGN y hy ?_
      rw [hyr]
      rcases hst with h | h
      · exact Or.inl h
      · exact Or.inr (Or.inl h)
    · rw [if_neg hyid] at hcond ⊢
      exact hGN y hy hcond
  · refine ⟨?_, ?_⟩
    · rw [hXr]
      exact pairwise_ids_setResv (fun _ => rfl) hL.1
    · intro x hx
      rw [hXr] at hx
      obtain ⟨y, hy, rfl⟩ := mem_setResv_elim hx
      have hcy := hL.2 y hy
      rw [hXc, hXsp]
      by_cases hyid : y.reservation_id = rid
      · rw [if_pos hyid]
        exact ⟨hcy.1, exists_spot_setSpotStatus _ _ hcy.2⟩
      · rw [if_neg hyid]
        exact ⟨hcy.1, exists_spot_setSpotStatus _ _ hcy.2⟩
  · refine ⟨?_, ?_⟩
    · rw [hXsp]
      exact pairwise_sids_setSpotStatus hSp.1
    · intro p hp
      rw [hXsp] at hp
      obtain ⟨y, hy, rfl⟩ := mem_setSpotStatus_elim hp
      rw [upd_spot_type]
      exact hSp.2 y hy
  · refine heapsOK_of ?_
    intro t'
    by_cases htt : t' = t
    · subst htt
      rw [hXh1, hXsp]
      exact heapOKL_free (heapsOK_to ⟨hH.1, hH.2⟩ t') hspm.1 hty
    · rw [hXh2 t' htt, hXsp]
      refine heapOKL_free_other (heapsOK_to ⟨hH.1, hH.2⟩ t') hSp.1 hspm.1 ?_
      rw [hty]
      intro hc
      exact htt (tagType_inj hc).symm
  · show RingOK X
    unfold RingOK
    rw [hXg]
    exact hR
  · rw [hXu, habs]
    have hlook : vGetResv (AbsState.mk
        (setResv s.reservations rid
          (fun x => { x with status := ReservationStatus.CANCELED }))
        (setSpotStatus s.spots spot.spot_id SpotStatus.EMPTY)
        (s.queued_set.erase rid)) rid =
        some { r with status := ReservationStatus.CANCELED } := by
      show (setResv s.reservations rid
        (fun x => { x with status := ReservationStatus.CANCELED })).find?
          (fun x => x.reservation_id == rid) = _
      rw [find?_setResv s.reservations rid
        (fun x => { x with status := ReservationStatus.CANCELED }) (fun _ => rfl) rid]
      rw [show s.reservations.find? (fun x => x.reservation_id == rid) = some r from hr]
      exact congrArg some (if_pos hrm.2)
    have hlookspot : get_spot_by_id
        (setSpotStatus s.spots spot.spot_id SpotStatus.EMPTY)
        ({ r with status := ReservationStatus.CANCELED } : Reservation).spot_id =
        some { spot with status := SpotStatus.EMPTY } := by
      show get_spot_by_id (setSpotStatus s.spots spot.spot_id SpotStatus.EMPTY)
        r.spot_id = _
      rw [get_spot_by_id_setSpotStatus, hsp]
      exact congrArg some (by dsimp only; rw [if_pos rfl])
    have hB : virtualPop ⟨"CANCEL", rid⟩ (AbsState.mk
        (setResv s.reservations rid
          (fun x => { x with status := ReservationStatus.CANCELED }))
        (setSpotStatus s.spots spot.spot_id SpotStatus.EMPTY)
        (s.queued_set.erase rid)) = AbsState.mk
        (setResv s.reservations rid
          (fun x => { x with status := ReservationStatus.RESERVATION }))
        s.spots (s.queued_set.erase rid) := by
      rw [virtualPop_CANCEL rfl]
      simp only [hlook]
      rw [if_neg (show ¬(({ r with status := ReservationStatus.CANCELED} :
        Reservation).status ≠ ReservationStatus.CANCELED) from fun hc => hc rfl)]
      simp only [hlookspot]
      rw [if_neg (show ¬(({ spot with status := SpotStatus.EMPTY} :
        ParkingSpot).status ≠ SpotStatus.EMPTY) from fun hc => hc rfl)]
      show AbsState.mk _ _ _ = _
      rw [hBres, hBspots]
    rcases hst with hres | hwait
    · have hBeq : virtualPop ⟨"CANCEL", rid⟩ (AbsState.mk
          (setResv s.reservations rid
            (fun x => { x with status := ReservationStatus.CANCELED }))
          (setSpotStatus s.spots spot.spot_id SpotStatus.EMPTY)
          (s.queued_set.erase rid)) = absSt s := by
        rw [hB]
        have h1 : setResv s.reservations rid
            (fun x => { x with status := ReservationStatus.RESERVATION }) =
            s.reservations := by
          refine setResv_eq_self ?_
          intro x hx hxid
          rw [huniq x hx (by rw [hxid, hrm.2])]
          cases r
          simp_all
        have h2 : s.queued_set.erase rid = s.queued_set := by
          refine Finset.erase_eq_of_not_mem ?_
          have := notin_qset_of_status hS hL.1 hrm.1 (by rw [hres]; intro hc; cases hc)
          rw [hrm.2] at this
          exact this
        rw [h1, h2]
        rfl
      exact ⟨hBeq ▸ hC, hBeq ▸ hK⟩
    · have hD : Dem rid (absSt s) (virtualPop ⟨"CANCEL", rid⟩ (AbsState.mk
          (setResv s.reservations rid
            (fun x => { x with status := ReservationStatus.CANCELED }))
          (setSpotStatus s.spots spot.spot_id SpotStatus.EMPTY)
          (s.queued_set.erase rid))) := by
        rw [hB]
        refine ⟨rfl, ?_, rfl, ?_, ⟨r, hrm.1, hrm.2⟩, rfl⟩
        · have := hS.2 r hrm.1 hwait
          rw [hrm.2] at this
          exact this
        · intro x hx hxid
          rw [huniq x hx (by rw [hxid, hrm.2])]
          exact hwait
      exact ⟨cons_dem hC hD, stackInv_mono _ hK hD⟩

theorem ginv_cancel (s : SysState) (rid : Nat) (hG : GInv s) :
    GInv (cancel_reservation s rid).2 := by
  by_cases hfail : (cancel_reservation s rid).1 = false
  · rw [cancel_fail_eq hG hfail]
    exact hG
  have hG' := hG
  obtain ⟨hC, hS, hGN, hL, hSp, hH, hR, hK⟩ := hG'
  unfold cancel_reservation at hfail
  cases hr : getResv s rid with
  | none => rw [hr] at hfail; cases hfail rfl
  | some r =>
    rw [hr] at hfail
    dsimp only at hfail
    by_cases hst : ¬(r.status = ReservationStatus.RESERVATION ∨
        r.status = ReservationStatus.WAITING)
    · rw [if_pos hst] at hfail; cases hfail rfl
    rw [if_neg hst] at hfail
    rw [not_not] at hst
    cases hsp : get_spot_by_id s.spots r.spot_id with
    | none => rw [hsp] at hfail; cases hfail rfl
    | some spot =>
      rw [hsp] at hfail
      dsimp only at hfail
      have hspm := get_spot_by_id_eq_some hsp
      by_cases hso : spot.status = SpotStatus.OCCUPIED
      · rw [if_pos hso] at hfail; cases hfail rfl
      rw [if_neg hso] at hfail
      cases hsel : select_heap spot.spot_type with
      | none => rw [hsel] at hfail; cases hfail rfl
      | some t =>
        rw [cancel_success_eq hr hst hsp hso hsel]
        refine ginv_cancel_core hG hr hst hsp (select_heap_eq hsel) ?_ ?_ ?_ ?_ ?_
          ?_ ?_ ?_
        · cases t <;> rfl
        · cases t <;> rfl
        · cases t <;> rfl
        · cases t <;> rfl
        · cases t <;> rfl
        · cases t <;> rfl
        · cases t <;> rfl
        · intro t' hne
          have := getHeap_setHeap_other hne
            { s with queued_set := s.queued_set.erase rid,
                     reservations := setResv s.reservations rid
                       (fun x => { x with status := ReservationStatus.CANCELED }),
                     spots := setSpotStatus s.spots spot.spot_id SpotStatus.EMPTY }
            (heapInsert spot.spot_id (getHeap s t))
          cases t' <;> cases t <;> first | exact absurd rfl hne | rfl

/-! ## `process_next_check_in`: shape and invariant preservation -/

theorem process_empty_eq {s : SysState} (hq : s.entry_queue = []) :
    process_next_check_in s = (ProcResult.empty, s) := by
  unfold process_next_check_in
  rw [hq]

theorem process_stale_eq {s : SysState} {rid : Nat} {rest : List Nat}
    (hq : s.entry_queue = rid :: rest) (hnm : rid ∉ s.queued_set) :
    process_next_check_in s =
      (ProcResult.skippedStale, { s with entry_queue := rest }) := by
  unfold process_next_check_in
  rw [hq]
  dsimp only
  rw [if_pos hnm]

theorem process_success_eq {s : SysState} {rid : Nat} {rest : List Nat}
    {r : Reservation} {spot : ParkingSpot} {k : Nat}
    (hq : s.entry_queue = rid :: rest) (hm : rid ∈ s.queued_set)
    (hr : getResv s rid = some r) (hw : r.status = ReservationStatus.WAITING)
    (hsp : get_spot_by_id s.spots r.spot_id = some spot)
    (hss : spot.status = SpotStatus.RESERVED)
    (hg : s.gates = ringState k) (hk : k < 3) :
    process_next_check_in s = (ProcResult.ok rid (gateOf k),
      { s with entry_queue := rest,
               queued_set := s.queued_set.erase rid,
               gates := ringState ((k + 1) % 3),
               spots := setSpotStatus s.spots spot.spot_id SpotStatus.OCCUPIED,
               reservations := setResv s.reservations rid
                 (fun x => { x with gate := some (gateOf k), status := ReservationStatus.ACTIVE }),
               undo_stack := ⟨"PROCESS_CHECKIN", rid⟩ :: s.undo_stack }) := by
  unfold process_next_check_in
  rw [hq]
  dsimp only
  rw [if_neg (not_not_intro hm)]
  rw [show getResv { s with entry_queue := rest, queued_set := s.queued_set.erase rid } rid = some r from hr]
  dsimp only
  rw [if_neg (not_not_intro hw)]
  rw [show get_spot_by_id s.spots r.spot_id = some spot from hsp]
  dsimp only
  rw [if_neg (not_not_intro hss)]
  rw [show ({ s with entry_queue := rest, queued_set := s.queued_set.erase rid } : SysState).gates = ringState k from hg]
  interval_cases k <;> rfl

theorem ginv_process (s : SysState) (hG : GInv s) :
    GInv (process_next_check_in s).2 := by
  have hG' := hG
  obtain ⟨hC, hS, hGN, hL, hSp, hH, hR, hK⟩ := hG'
  cases hq : s.entry_queue with
  | nil =>
    rw [process_empty_eq hq]
    exact hG
  | cons rid rest =>
    by_cases hm : rid ∈ s.queued_set
    case neg =>
      rw [process_stale_eq hq hm]
      exact hG
    obtain ⟨r0, hr0mem, hid0, hw0⟩ := hS.1 rid hm
    have hr : getResv s rid = some r0 := by
      show s.reservations.find? (fun x => x.reservation_id == rid) = some r0
      rw [← hid0]
      exact find?_rid_of_mem hL.1 hr0mem
    obtain ⟨p, hpmem, hpid⟩ := (hL.2 r0 hr0mem).2
    have hsp : get_spot_by_id s.spots r0.spot_id = some p := by
      rw [← hpid]
      exact get_spot_of_mem hSp.1 hpmem
    have hss : p.status = SpotStatus.RESERVED :=
      spot_RESERVED_of_liveRW hC hr0mem (Or.inr hw0) hpmem hpid
    obtain ⟨k, hk, hg⟩ := hR
    rw [process_success_eq hq hm hr hw0 hsp hss hg hk]
    have huniq : ∀ x ∈ s.reservations, x.reservation_id = r0.reservation_id → x = r0 :=
      fun x hx hxid => eq_of_mem_of_id_eq hL.1 hx hr0mem hxid
    have hgnone : r0.gate = none := hGN r0 hr0mem (Or.inr (Or.inl hw0))
    refine ⟨?_, ?_, ?_, ?_, ?_, ?_, ?_, ?_⟩
    · show Cons ⟨setResv s.reservations rid _, setSpotStatus s.spots p.spot_id _, _⟩
      rw [show (rid : Nat) = r0.reservation_id from hid0.symm,
        show p.spot_id = r0.spot_id from hpid]
      exact cons_update hC hr0mem huniq (Or.inl (Or.inr hw0)) _ rfl
        (iff_of_false (by decide) (by simp [liveRW]))
        (iff_of_true rfl rfl)
    · constructor
      · intro n hn
        have hne := (Finset.mem_erase.1 hn).1
        obtain ⟨r2, hr2, hid, hw⟩ := hS.1 n (Finset.mem_erase.1 hn).2
        refine ⟨(if r2.reservation_id = rid then
          { r2 with gate := some (gateOf k), status := ReservationStatus.ACTIVE } else r2),
          List.mem_map.2 ⟨r2, hr2, rfl⟩, ?_, ?_⟩
        · rw [upd_resv_id r2 rid
            (fun x => { x with gate := some (gateOf k), status := ReservationStatus.ACTIVE }) (fun _ => rfl)]
          exact hid
        · rw [if_neg (by rw [hid]; exact hne)]
          exact hw
      · intro x hx hw
        obtain ⟨y, hy, rfl⟩ := mem_setResv_elim hx
        by_cases hyid : y.reservation_id = rid
        · rw [if_pos hyid] at hw
          cases hw
        · rw [if_neg hyid] at hw ⊢
          exact Finset.mem_erase.2 ⟨hyid, hS.2 y hy hw⟩
    · intro x hx hcond
      obtain ⟨y, hy, rfl⟩ := mem_setResv_elim hx
      by_cases hyid : y.reservation_id = rid
      · rw [if_pos hyid] at hcond
        rcases hcond with h | h | h <;> simp at h
      · rw [if_neg hyid] at hcond ⊢
        exact hGN y hy hcond
    · refine ⟨?_, ?_⟩
      · exact pairwise_ids_setResv (fun _ => rfl) hL.1
      · intro x hx
        obtain ⟨y, hy, rfl⟩ := mem_setResv_elim hx
        have hcy := hL.2 y hy
        by_cases hyid : y.reservation_id = rid
        · rw [if_pos hyid]
          exact ⟨hcy.1, exists_spot_setSpotStatus _ _ hcy.2⟩
        · rw [if_neg hyid]
          exact ⟨hcy.1, exists_spot_setSpotStatus _ _ hcy.2⟩
    · refine ⟨?_, ?_⟩
      · exact pairwise_sids_setSpotStatus hSp.1
      · intro q hq2
        obtain ⟨y, hy, rfl⟩ := mem_setSpotStatus_elim hq2
        rw [upd_spot_type]
        exact hSp.2 y hy
    · exact ⟨heapOKL_unfree hH.1 _ (by decide), heapOKL_unfree hH.2 _ (by decide)⟩
    · exact ⟨(k + 1) % 3, by omega, rfl⟩
    · have hlook : vGetResv (AbsState.mk
          (setResv s.reservations rid
            (fun x => { x with gate := some (gateOf k), status := ReservationStatus.ACTIVE }))
          (setSpotStatus s.spots p.spot_id SpotStatus.OCCUPIED)
          (s.queued_set.erase rid)) rid =
          some { r0 with gate := some (gateOf k), status := ReservationStatus.ACTIVE } := by
        show (setResv s.reservations rid
          (fun x => { x with gate := some (gateOf k), status := ReservationStatus.ACTIVE })).find?
            (fun x => x.reservation_id == rid) = _
        rw [find?_setResv s.reservations rid
          (fun x => { x with gate := some (gateOf k), status := ReservationStatus.ACTIVE }) (fun _ => rfl) rid]
        rw [show s.reservations.find? (fun x => x.reservation_id == rid) =
          some r0 from hr]
        exact congrArg some (if_pos hid0)
      have hlookspot : get_spot_by_id
          (setSpotStatus s.spots p.spot_id SpotStatus.OCCUPIED)
          ({ r0 with gate := some (gateOf k), status := ReservationStatus.ACTIVE } : Reservation).spot_id =
          some { p with status := SpotStatus.OCCUPIED } := by
        show get_spot_by_id (setSpotStatus s.spots p.spot_id SpotStatus.OCCUPIED)
          r0.spot_id = _
        rw [get_spot_by_id_setSpotStatus, hsp]
        exact congrArg some (by dsimp only; rw [if_pos rfl])
      have hresv_allres : ∀ q ∈ s.spots, q.spot_id = p.spot_id →
          q.status = SpotStatus.RESERVED := by
        intro q hqmem hqid
        exact spot_RESERVED_of_liveRW hC hr0mem (Or.inr hw0) hqmem
          (by rw [hqid, hpid])
      have halign : virtualPop ⟨"PROCESS_CHECKIN", rid⟩ (AbsState.mk
          (setResv s.reservations rid
            (fun x => { x with gate := some (gateOf k), status := ReservationStatus.ACTIVE }))
          (setSpotStatus s.spots p.spot_id SpotStatus.OCCUPIED)
          (s.queued_set.erase rid)) = absSt s := by
        rw [virtualPop_PROCESS rfl]
        simp only [hlook]
        rw [if_neg (show ¬(({ r0 with gate := some (gateOf k), status := ReservationStatus.ACTIVE } : Reservation).status ≠
          ReservationStatus.ACTIVE) from fun hc => hc rfl)]
        simp only [hlookspot]
        rw [if_neg (show ¬(({ p with status := SpotStatus.OCCUPIED } :
          ParkingSpot).status ≠ SpotStatus.OCCUPIED) from fun hc => hc rfl)]
        show AbsState.mk _ _ _ = _
        rw [setResv_setResv s.reservations rid
          (fun x => { x with gate := some (gateOf k), status := ReservationStatus.ACTIVE })
          (fun x => { x with gate := none, status := ReservationStatus.WAITING }) (fun _ => rfl)]
        rw [setResv_eq_self (fun x hx hxid => by
          rw [huniq x hx (by rw [hxid, hid0])]
          cases r0
          simp_all)]
        rw [setSpotStatus_setSpotStatus]
        rw [setSpotStatus_eq_self hresv_allres]
        rw [Finset.insert_erase hm]
        rfl
      exact ⟨halign ▸ hC, halign ▸ hK⟩

/-! ## `check_out`: shape and invariant preservation -/

theorem checkout_success_eq {s : SysState} {rid : Nat} {rate : Int} {r : Reservation}
    {spot : ParkingSpot} {t : HeapTag} (hr : getResv s rid = some r)
    (hst : r.status = ReservationStatus.ACTIVE)
    (hsp : get_spot_by_id s.spots r.spot_id = some spot)
    (hso : spot.status = SpotStatus.OCCUPIED)
    (hsel : select_heap spot.spot_type = some t) :
    check_out s rid rate = (some (max 0 (r.end_time - r.start_time) * rate),
      { setHeap
          { s with reservations := setResv s.reservations rid
                     (fun x => { x with status := ReservationStatus.DONE }),
                   spots := setSpotStatus s.spots spot.spot_id SpotStatus.EMPTY }
          t (heapInsert spot.spot_id (getHeap s t)) with
        undo_stack := ⟨"CHECKOUT", rid⟩ :: s.undo_stack }) := by
  unfold check_out
  rw [hr]
  dsimp only
  rw [if_neg (not_not_intro hst), hsp]
  dsimp only
  rw [if_neg (not_not_intro hso), hsel]
  dsimp only
  cases t <;> rfl

theorem checkout_fail_eq {s : SysState} {rid : Nat} {rate : Int} (hG : GInv s)
    (h : (check_out s rid rate).1 = none) : (check_out s rid rate).2 = s := by
  obtain ⟨hC, hS, hGN, hL, hSp, hH, hR, hK⟩ := hG
  unfold check_out at h ⊢
  cases hr : getResv s rid with
  | none => rfl
  | some r =>
    rw [hr] at h
    dsimp only at h ⊢
    by_cases hst : r.status ≠ ReservationStatus.ACTIVE
    · rw [if_pos hst]
    rw [if_neg hst] at h ⊢
    cases hsp : get_spot_by_id s.spots r.spot_id with
    | none => rfl
    | some spot =>
      rw [hsp] at h
      dsimp only at h ⊢
      have hspm := get_spot_by_id_eq_some hsp
      by_cases hso : spot.status ≠ SpotStatus.OCCUPIED
      · rw [if_pos hso]
      rw [if_neg hso] at h ⊢
      obtain ⟨vt, hvt⟩ := select_heap_valid (hSp.2 spot hspm.1)
      rw [hvt] at h
      cases h

theorem ginv_checkout_core {s : SysState} (hG : GInv s) {rid : Nat} {r : Reservation}
    {spot : ParkingSpot} {t : HeapTag} (hr : getResv s rid = some r)
    (hst : r.status = ReservationStatus.ACTIVE)
    (hsp : get_spot_by_id s.spots r.spot_id = some spot)
    (hty : spot.spot_type = tagType t)
    {X : SysState}
    (hXsp : X.spots = setSpotStatus s.spots spot.spot_id SpotStatus.EMPTY)
    (hXr : X.reservations = setResv s.reservations rid
      (fun x => { x with status := ReservationStatus.DONE }))
    (hXq : X.queued_set = s.queued_set)
    (hXg : X.gates = s.gates)
    (hXu : X.undo_stack = ⟨"CHECKOUT", rid⟩ :: s.undo_stack)
    (hXc : X.counter = s.counter)
    (hXh1 : getHeap X t = heapInsert spot.spot_id (getHeap s t))
    (hXh2 : ∀ t', t' ≠ t → getHeap X t' = getHeap s t') :
    GInv X := by
  obtain ⟨hC, hS, hGN, hL, hSp, hH, hR, hK⟩ := hG
  have hrm := getResv_eq_some hr
  have hspm := get_spot_by_id_eq_some hsp
  have huniq : ∀ x ∈ s.reservations, x.reservation_id = r.reservation_id → x = r :=
    fun x hx hxid => eq_of_mem_of_id_eq hL.1 hx hrm.1 hxid
  have hlive : liveRes r := Or.inr hst
  have hall_occ : ∀ p ∈ s.spots, p.spot_id = spot.spot_id →
      p.status = SpotStatus.OCCUPIED := by
    intro p hp hpid
    exact spot_OCCUPIED_of_ACTIVE hC hrm.1 hst hp (by rw [hpid, hspm.2])
  have habs : absSt X = AbsState.mk
      (setResv s.reservations rid (fun x => { x with status := ReservationStatus.DONE }))
      (setSpotStatus s.spots spot.spot_id SpotStatus.EMPTY)
      s.queued_set := by
    show AbsState.mk _ _ _ = _
    rw [hXr, hXsp, hXq]
  refine ⟨?_, ?_, ?_, ?_, ?_, ?_, ?_, ?_⟩
  · show Cons ⟨X.reservations, X.spots, X.queued_set⟩
    rw [hXr, hXsp]
    rw [show (rid : Nat) = r.reservation_id from hrm.2.symm,
      show spot.spot_id = r.spot_id from hspm.2]
    exact cons_update hC hrm.1 huniq hlive _ rfl
      (iff_of_false (by decide) (by simp [liveRW]))
      (iff_of_false (by decide) (by simp))
  · constructor
    · intro n hn
      rw [hXq] at hn
      obtain ⟨r2, hr2, hid, hw⟩ := hS.1 n hn
      have hne : r2.reservation_id ≠ rid := by
        intro hc
        have := huniq r2 hr2 (by rw [hc, hrm.2])
        rw [this, hst] at hw
        cases hw
      rw [hXr]
      refine ⟨(if r2.reservation_id = rid then
        { r2 with status := ReservationStatus.DONE } else r2),
        List.mem_map.2 ⟨r2, hr2, rfl⟩, ?_, ?_⟩
      · rw [upd_resv_id r2 rid
          (fun x => { x with status := ReservationStatus.DONE }) (fun _ => rfl)]
        exact hid
      · rw [if_neg hne]
        exact hw
    · intro x hx hw
      rw [hXr] at hx
      rw [hXq]
      obtain ⟨y, hy, rfl⟩ := mem_setResv_elim hx
      by_cases hyid : y.reservation_id = rid
      · rw [if_pos hyid] at hw
        cases hw
      · rw [if_neg hyid] at hw ⊢
        exact hS.2 y hy hw
  · intro x hx hcond
    rw [hXr] at hx
    obtain ⟨y, hy, rfl⟩ := mem_setResv_elim hx
    by_cases hyid : y.reservation_id = rid
    · rw [if_pos hyid] at hcond
      rcases hcond with h | h | h <;> simp at h
    · rw [if_neg hyid] at hcond ⊢
      exact hGN y hy hcond
  · refine ⟨?_, ?_⟩
    · rw [hXr]
      exact pairwise_ids_setResv (fun _ => rfl) hL.1
    · intro x hx
      rw [hXr] at hx
      obtain ⟨y, hy, rfl⟩ := mem_setResv_elim hx
      have hcy := hL.2 y hy
      rw [hXc, hXsp]
      by_cases hyid : y.reservation_id = rid
      · rw [if_pos hyid]
        exact ⟨hcy.1, exists_spot_setSpotStatus _ _ hcy.2⟩
      · rw [if_neg hyid]
        exact ⟨hcy.1, exists_spot_setSpotStatus _ _ hcy.2⟩
  · refine ⟨?_, ?_⟩
    · rw [hXsp]
      exact pairwise_sids_setSpotStatus hSp.1
    · intro p hp
      rw [hXsp] at hp
      obtain ⟨y, hy, rfl⟩ := mem_setSpotStatus_elim hp
      rw [upd_spot_type]
      exact hSp.2 y hy
  · refine heapsOK_of ?_
    intro t'
    by_cases htt : t' = t
    · subst htt
      rw [hXh1, hXsp]
      exact heapOKL_free (heapsOK_to ⟨hH.1, hH.2⟩ t') hspm.1 hty
    · rw [hXh2 t' htt, hXsp]
      refine heapOKL_free_other (heapsOK_to ⟨hH.1, hH.2⟩ t') hSp.1 hspm.1 ?_
      rw [hty]
      intro hc
      exact htt (tagType_inj hc).symm
  · show RingOK X
    unfold RingOK
    rw [hXg]
    exact hR
  · rw [hXu, habs]
    have hlook : vGetResv (AbsState.mk
        (setResv s.reservations rid
          (fun x => { x with status := ReservationStatus.DONE }))
        (setSpotStatus s.spots spot.spot_id SpotStatus.EMPTY)
        s.queued_set) rid =
        some { r with status := ReservationStatus.DONE } := by
      show (setResv s.reservations rid
        (fun x => { x with status := ReservationStatus.DONE })).find?
          (fun x => x.reservation_id == rid) = _
      rw [find?_setResv s.reservations rid
        (fun x => { x with status := ReservationStatus.DONE }) (fun _ => rfl) rid]
      rw [show s.reservations.find? (fun x => x.reservation_id == rid) = some r from hr]
      exact congrArg some (if_pos hrm.2)
    have hlookspot : get_spot_by_id
        (setSpotStatus s.spots spot.spot_id SpotStatus.EMPTY)
        ({ r with status := ReservationStatus.DONE } : Reservation).spot_id =
        some { spot with status := SpotStatus.EMPTY } := by
      show get_spot_by_id (setSpotStatus s.spots spot.spot_id SpotStatus.EMPTY)
        r.spot_id = _
      rw [get_spot_by_id_setSpotStatus, hsp]
      exact congrArg some (by dsimp only; rw [if_pos rfl])
    have halign : virtualPop ⟨"CHECKOUT", rid⟩ (AbsState.mk
        (setResv s.reservations rid
          (fun x => { x with status := ReservationStatus.DONE }))
        (setSpotStatus s.spots spot.spot_id SpotStatus.EMPTY)
        s.queued_set) = absSt s := by
      rw [virtualPop_CHECKOUT rfl]
      simp only [hlook]
      rw [if_neg (show ¬(({ r with status := ReservationStatus.DONE} :
        Reservation).status ≠ ReservationStatus.DONE) from fun hc => hc rfl)]
      simp only [hlookspot]
      rw [if_neg (show ¬(({ spot with status := SpotStatus.EMPTY} :
        ParkingSpot).status ≠ SpotStatus.EMPTY) from fun hc => hc rfl)]
      show AbsState.mk _ _ _ = _
      rw [setResv_setResv s.reservations rid
        (fun x => { x with status := ReservationStatus.DONE })
        (fun x => { x with status := ReservationStatus.ACTIVE }) (fun _ => rfl)]
      rw [setResv_eq_self (fun x hx hxid => by
        rw [huniq x hx (by rw [hxid, hrm.2])]
        cases r
        simp_all)]
      rw [setSpotStatus_setSpotStatus]
      rw [setSpotStatus_eq_self hall_occ]
      rfl
    exact ⟨halign ▸ hC, halign ▸ hK⟩

theorem ginv_checkout (s : SysState) (rid : Nat) (rate : Int) (hG : GInv s) :
    GInv (check_out s rid rate).2 := by
  by_cases hfail : (check_out s rid rate).1 = none
  · rw [checkout_fail_eq hG hfail]
    exact hG
  have hG' := hG
  obtain ⟨hC, hS, hGN, hL, hSp, hH, hR, hK⟩ := hG'
  unfold check_out at hfail
  cases hr : getResv s rid with
  | none => rw [hr] at hfail; cases hfail rfl
  | some r =>
    rw [hr] at hfail
    dsimp only at hfail
    by_cases hst : r.status ≠ ReservationStatus.ACTIVE
    · rw [if_pos hst] at hfail; cases hfail rfl
    rw [if_neg hst] at hfail
    rw [not_not] at hst
    cases hsp : get_spot_by_id s.spots r.spot_id with
    | none => rw [hsp] at hfail; cases hfail rfl
    | some spot =>
      rw [hsp] at hfail
      dsimp only at hfail
      by_cases hso : spot.status ≠ SpotStatus.OCCUPIED
      · rw [if_pos hso] at hfail; cases hfail rfl
      rw [if_neg hso] at hfail
      rw [not_not] at hso
      cases hsel : select_heap spot.spot_type with
      | none => rw [hsel] at hfail; cases hfail rfl
      | some t =>
        rw [checkout_success_eq hr hst hsp hso hsel]
        refine ginv_checkout_core hG hr hst hsp (select_heap_eq hsel) ?_ ?_ ?_ ?_ ?_
          ?_ ?_ ?_
        · cases t <;> rfl
        · cases t <;> rfl
        · cases t <;> rfl
        · cases t <;> rfl
        · cases t <;> rfl
        · cases t <;> rfl
        · cases t <;> rfl
        · intro t' hne
          have := getHeap_setHeap_other hne
            { s with reservations := setResv s.reservations rid
                       (fun x => { x with status := ReservationStatus.DONE }),
                     spots := setSpotStatus s.spots spot.spot_id SpotStatus.EMPTY }
            (heapInsert spot.spot_id (getHeap s t))
          cases t' <;> cases t <;> first | exact absurd rfl hne | rfl

/-! ## `reserve`: allocator pop characterization, shape and invariant
preservation -/

theorem pop_best_spot_none {spots : List ParkingSpot} : ∀ {heap h' : List String},
    pop_best_spot spots heap = (none, h') →
    h' = [] ∧ ∀ sid ∈ heap, ∀ p, spots.find? (fun sp => sp.spot_id == sid) = some p →
      p.status ≠ SpotStatus.EMPTY
  | [], h', h => by
    unfold pop_best_spot at h
    injection h with h1 h2
    exact ⟨h2.symm, by intro sid hsid; cases hsid⟩
  | sid :: rest, h', h => by
    unfold pop_best_spot at h
    cases hf : spots.find? (fun sp => sp.spot_id == sid) with
    | none =>
      rw [hf] at h
      dsimp only at h
      obtain ⟨h1, h2⟩ := pop_best_spot_none h
      refine ⟨h1, ?_⟩
      intro z hz p hp
      rcases List.mem_cons.1 hz with rfl | hz2
      · rw [hf] at hp; cases hp
      · exact h2 z hz2 p hp
    | some sp =>
      rw [hf] at h
      dsimp only at h
      by_cases he : sp.status = SpotStatus.EMPTY
      · rw [if_pos he] at h
        simp at h
      · rw [if_neg he] at h
        obtain ⟨h1, h2⟩ := pop_best_spot_none h
        refine ⟨h1, ?_⟩
        intro z hz p hp
        rcases List.mem_cons.1 hz with rfl | hz2
        · rw [hf] at hp
          injection hp with hp1
          rw [← hp1]
          exact he
        · exact h2 z hz2 p hp

theorem pop_best_spot_some {spots : List ParkingSpot} : ∀ {heap h' : List String}
    {spot : ParkingSpot},
    pop_best_spot spots heap = (some spot, h') →
    ∃ pre, heap = pre ++ spot.spot_id :: h' ∧
      spots.find? (fun sp => sp.spot_id == spot.spot_id) = some spot ∧
      spot.status = SpotStatus.EMPTY ∧
      ∀ sid ∈ pre, ∀ p, spots.find? (fun sp => sp.spot_id == sid) = some p →
        p.status ≠ SpotStatus.EMPTY
  | [], h', spot, h => by
    unfold pop_best_spot at h
    simp at h
  | sid :: rest, h', spot, h => by
    unfold pop_best_spot at h
    cases hf : spots.find? (fun sp => sp.spot_id == sid) with
    | none =>
      rw [hf] at h
      dsimp only at h
      obtain ⟨pre, hpre, hfind, hE, hpref⟩ := pop_best_spot_some h
      refine ⟨sid :: pre, by rw [List.cons_append, hpre], hfind, hE, ?_⟩
      intro z hz p hp
      rcases List.mem_cons.1 hz with rfl | hz2
      · rw [hf] at hp; cases hp
      · exact hpref z hz2 p hp
    | some sp =>
      rw [hf] at h
      dsimp only at h
      by_cases he : sp.status = SpotStatus.EMPTY
      · rw [if_pos he] at h
        injection h with ha hb
        injection ha with ha
        have ha2 := ha.symm
        subst ha2
        subst hb
        have hsid : spot.spot_id = sid := by
          have := List.find?_some hf
          simpa using this
        refine ⟨[], ?_, ?_, he, ?_⟩
        · rw [hsid]; rfl
        · rw [hsid]; exact hf
        · intro z hz; cases hz
      · rw [if_neg he] at h
        obtain ⟨pre, hpre, hfind, hE, hpref⟩ := pop_best_spot_some h
        refine ⟨sid :: pre, by rw [List.cons_append, hpre], hfind, hE, ?_⟩
        intro z hz p hp
        rcases List.mem_cons.1 hz with rfl | hz2
        · rw [hf] at hp
          injection hp with hp1
          rw [← hp1]
          exact he
        · exact hpref z hz2 p hp

theorem insertResv_fresh {resv : List Reservation} {r : Reservation}
    (h : ∀ x ∈ resv, x.reservation_id ≠ r.reservation_id) :
    insertResv resv r = resv ++ [r] := by
  have hany : ¬ (resv.any (fun x => x.reservation_id == r.reservation_id) = true) := by
    rw [List.any_eq_true]
    rintro ⟨x, hx, hxe⟩
    exact h x hx (by simpa using hxe)
  unfold insertResv
  rw [if_neg hany]

theorem filter_fresh_append {resv : List Reservation} {r : Reservation} {rid : Nat}
    (hr : r.reservation_id = rid) (h : ∀ x ∈ resv, x.reservation_id ≠ rid) :
    (resv ++ [r]).filter (fun x => x.reservation_id != rid) = resv := by
  rw [List.filter_append]
  have h1 : resv.filter (fun x => x.reservation_id != rid) = resv :=
    List.filter_eq_self.2 (fun x hx => by simpa using h x hx)
  have h2 : ([r] : List Reservation).filter (fun x => x.reservation_id != rid) = [] := by
    simp [List.filter_cons, hr]
  rw [h1, h2, List.append_nil]

theorem find?_fresh_append {resv : List Reservation} {r : Reservation} {rid : Nat}
    (hr : r.reservation_id = rid) (h : ∀ x ∈ resv, x.reservation_id ≠ rid) :
    (resv ++ [r]).find? (fun x => x.reservation_id == rid) = some r := by
  induction resv with
  | nil =>
    rw [List.nil_append]
    exact List.find?_cons_of_pos _ (by simp [hr])
  | cons a as ih =>
    rw [List.cons_append, List.find?_cons_of_neg]
    · exact ih (fun x hx => h x (List.mem_cons_of_mem a hx))
    · simpa using h a (List.mem_cons_self a as)

/-- Consistency is preserved when a fresh reservation claims an EMPTY spot. -/
theorem cons_reserve {resv : List Reservation} {spots : List ParkingSpot}
    {q q' : Finset Nat} (hC : Cons ⟨resv, spots, q⟩)
    (hnd : spots.Pairwise (fun a b => a.spot_id ≠ b.spot_id))
    {spot : ParkingSpot} (hmem : spot ∈ spots) (hE : spot.status = SpotStatus.EMPTY)
    {r : Reservation} (hrsid : r.spot_id = spot.spot_id)
    (hrst : r.status = ReservationStatus.RESERVATION) :
    Cons ⟨resv ++ [r], setSpotStatus spots spot.spot_id SpotStatus.RESERVED, q'⟩ := by
  have hnolive : ∀ x ∈ resv, x.spot_id = spot.spot_id → ¬ liveRes x :=
    fun x hx hxs hl => no_live_of_EMPTY hC hmem hE hx hxs hl
  constructor
  · intro p' hp'
    obtain ⟨p, hp, rfl⟩ := mem_setSpotStatus_elim hp'
    by_cases hps : p.spot_id = spot.spot_id
    · rw [if_pos hps]
      constructor
      · refine iff_of_true rfl ?_
        refine ⟨r, List.mem_append_right _ (List.mem_singleton.2 rfl),
          Or.inl hrst, ?_⟩
        show r.spot_id = p.spot_id
        rw [hrsid, hps]
      · refine iff_of_false
          (show ¬(SpotStatus.RESERVED = SpotStatus.OCCUPIED) by decide) ?_
        rintro ⟨x, hx, hact, hxs⟩
        rcases List.mem_append.1 hx with hx1 | hx2
        · exact hnolive x hx1
            (by rw [show x.spot_id = p.spot_id from hxs, hps]) (Or.inr hact)
        · have hxr : x = r := List.mem_singleton.1 hx2
          rw [hxr, hrst] at hact
          cases hact
    · rw [if_neg hps]
      have hOK := hC.1 p hp
      constructor
      · rw [hOK.1]
        constructor
        · rintro ⟨x, hx, hl, hs⟩
          exact ⟨x, List.mem_append_left _ hx, hl, hs⟩
        · rintro ⟨x, hx, hl, hs⟩
          rcases List.mem_append.1 hx with hx1 | hx2
          · exact ⟨x, hx1, hl, hs⟩
          · exfalso
            have hxr : x = r := List.mem_singleton.1 hx2
            rw [hxr, hrsid] at hs
            exact hps hs.symm
      · rw [hOK.2]
        constructor
        · rintro ⟨x, hx, hl, hs⟩
          exact ⟨x, List.mem_append_left _ hx, hl, hs⟩
        · rintro ⟨x, hx, hl, hs⟩
          rcases List.mem_append.1 hx with hx1 | hx2
          · exact ⟨x, hx1, hl, hs⟩
          · exfalso
            have hxr : x = r := List.mem_singleton.1 hx2
            rw [hxr, hrsid] at hs
            exact hps hs.symm
  · intro x1 hx1 x2 hx2 hl1 hl2 hs
    rcases List.mem_append.1 hx1 with h1 | h1 <;> rcases List.mem_append.1 hx2 with h2 | h2
    · exact hC.2 x1 h1 x2 h2 hl1 hl2 hs
    · exfalso
      have hx2r : x2 = r := List.mem_singleton.1 h2
      rw [hx2r, hrsid] at hs
      exact hnolive x1 h1 hs hl1
    · exfalso
      have hx1r : x1 = r := List.mem_singleton.1 h1
      rw [hx1r, hrsid] at hs
      exact hnolive x2 h2 hs.symm hl2
    · rw [List.mem_singleton.1 h1, List.mem_singleton.1 h2]

/-- Fully draining one allocator (unsuccessful pop) leaves it well-formed:
there is no free spot of its class left. -/
theorem heapOKL_drain {spots : List ParkingSpot} {heap : List String} {ty : String}
    (h : heapOKL spots heap ty)
    (hnd : spots.Pairwise (fun a b => a.spot_id ≠ b.spot_id))
    (hne : ∀ sid ∈ heap, ∀ p, spots.find? (fun sp => sp.spot_id == sid) = some p →
      p.status ≠ SpotStatus.EMPTY) :
    heapOKL spots [] ty := by
  refine ⟨List.sorted_nil, ?_, ?_⟩
  · intro sid hsid
    cases hsid
  · intro p hp hE hty
    exact absurd hE (hne p.spot_id (h.2.2 p hp hE hty) p (find?_sid_of_mem hnd hp))

/-- Popping the best spot leaves the allocator well-formed once the spot is
marked RESERVED (discarded stale prefix entries pointed at non-EMPTY spots). -/
theorem heapOKL_pop {spots : List ParkingSpot} {pre h' : List String} {ty : String}
    {spot : ParkingSpot}
    (h : heapOKL spots (pre ++ spot.spot_id :: h') ty)
    (hnd : spots.Pairwise (fun a b => a.spot_id ≠ b.spot_id))
    (hpref : ∀ sid ∈ pre, ∀ p, spots.find? (fun sp => sp.spot_id == sid) = some p →
      p.status ≠ SpotStatus.EMPTY) :
    heapOKL (setSpotStatus spots spot.spot_id SpotStatus.RESERVED) h' ty := by
  obtain ⟨hs, he, hE⟩ := h
  refine ⟨?_, ?_, ?_⟩
  · have hsub : List.Sublist h' (pre ++ spot.spot_id :: h') :=
      (List.sublist_cons_self _ _).trans (List.sublist_append_right _ _)
    exact List.Pairwise.sublist hsub hs
  · intro sid hsid
    have hin : sid ∈ pre ++ spot.spot_id :: h' := by
      rw [List.mem_append]
      exact Or.inr (List.mem_cons_of_mem _ hsid)
    obtain ⟨p, hp, hid, hpty⟩ := he sid hin
    exact ⟨_, mem_setSpotStatus_intro _ _ hp,
      by rw [upd_spot_id]; exact hid, by rw [upd_spot_type]; exact hpty⟩
  · intro p' hp' hE' hty'
    obtain ⟨p, hp, rfl⟩ := mem_setSpotStatus_elim hp'
    by_cases hid : p.spot_id = spot.spot_id
    · rw [if_pos hid] at hE'
      exact absurd hE'
        (show ¬(SpotStatus.RESERVED = SpotStatus.EMPTY) by decide)
    · rw [if_neg hid] at hE' hty' ⊢
      have hin : p.spot_id ∈ pre ++ spot.spot_id :: h' := hE p hp hE' hty'
      rcases List.mem_append.1 hin with hpre | hrest
      · exact absurd hE' (hpref p.spot_id hpre p (find?_sid_of_mem hnd hp))
      · rcases List.mem_cons.1 hrest with heq | hh
        · exact absurd heq hid
        · exact hh

/-- A failed allocator pop (heap drained) preserves the global invariant. -/
theorem ginv_drain {s : SysState} {t : HeapTag} {h' : List String} (hG : GInv s)
    (hpop : pop_best_spot s.spots (getHeap s t) = (none, h')) :
    GInv (setHeap s t h') := by
  obtain ⟨hC, hS, hGN, hL, hSp, hH, hR, hK⟩ := hG
  obtain ⟨hnil, hne⟩ := pop_best_spot_none hpop
  subst hnil
  refine ⟨?_, ?_, ?_, ?_, ?_, ?_, ?_, ?_⟩
  · rw [absSt_setHeap]
    exact hC
  · constructor
    · intro n hn
      rw [setHeap_queued_set] at hn
      obtain ⟨r2, hr2, hid, hw⟩ := hS.1 n hn
      exact ⟨r2, by rw [setHeap_reservations]; exact hr2, hid, hw⟩
    · intro x hx hw
      rw [setHeap_reservations] at hx
      rw [setHeap_queued_set]
      exact hS.2 x hx hw
  · intro x hx hcond
    rw [setHeap_reservations] at hx
    exact hGN x hx hcond
  · refine ⟨?_, ?_⟩
    · rw [setHeap_reservations]
      exact hL.1
    · intro x hx
      rw [setHeap_reservations] at hx
      rw [setHeap_counter, setHeap_spots]
      exact hL.2 x hx
  · refine ⟨?_, ?_⟩
    · rw [setHeap_spots]
      exact hSp.1
    · intro p hp
      rw [setHeap_spots] at hp
      exact hSp.2 p hp
  · refine heapsOK_of ?_
    intro t'
    by_cases htt : t' = t
    · subst htt
      rw [getHeap_setHeap_same, setHeap_spots]
      exact heapOKL_drain (heapsOK_to ⟨hH.1, hH.2⟩ t') hSp.1 hne
    · rw [getHeap_setHeap_other htt, setHeap_spots]
      exact heapsOK_to ⟨hH.1, hH.2⟩ t'
  · unfold RingOK
    rw [setHeap_gates]
    exact hR
  · rw [setHeap_undo_stack, absSt_setHeap]
    exact hK

theorem reserve_trim1_eq {s : SysState} {u lp ty : String} {st en : Int}
    (h : sTrim u = "") : reserve s u lp st en ty = (none, s) := by
  unfold reserve
  rw [if_pos h]

theorem reserve_trim2_eq {s : SysState} {u lp ty : String} {st en : Int}
    (h1 : ¬ sTrim u = "") (h : sTrim lp = "") : reserve s u lp st en ty = (none, s) := by
  unfold reserve
  rw [if_neg h1, if_pos h]

theorem reserve_time_eq {s : SysState} {u lp ty : String} {st en : Int}
    (h1 : ¬ sTrim u = "") (h2 : ¬ sTrim lp = "") (h : en ≤ st) :
    reserve s u lp st en ty = (none, s) := by
  unfold reserve
  rw [if_neg h1, if_neg h2, if_pos h]

theorem reserve_selnone_eq {s : SysState} {u lp ty : String} {st en : Int}
    (h1 : ¬ sTrim u = "") (h2 : ¬ sTrim lp = "") (h3 : ¬ en ≤ st)
    (hsel : select_heap ty = none) : reserve s u lp st en ty = (none, s) := by
  unfold reserve
  rw [if_neg h1, if_neg h2, if_neg h3, hsel]

theorem reserve_drain_eq {s : SysState} {u lp ty : String} {st en : Int}
    {t : HeapTag} {h' : List String}
    (h1 : ¬ sTrim u = "") (h2 : ¬ sTrim lp = "") (h3 : ¬ en ≤ st)
    (hsel : select_heap ty = some t)
    (hpop : pop_best_spot s.spots (getHeap s t) = (none, h')) :
    reserve s u lp st en ty = (none, setHeap s t h') := by
  unfold reserve
  rw [if_neg h1, if_neg h2, if_neg h3, hsel]
  dsimp only
  rw [hpop]

theorem reserve_success_eq {s : SysState} {u lp ty : String} {st en : Int}
    {t : HeapTag} {spot : ParkingSpot} {h' : List String}
    (h1 : ¬ sTrim u = "") (h2 : ¬ sTrim lp = "") (h3 : ¬ en ≤ st)
    (hsel : select_heap ty = some t)
    (hpop : pop_best_spot s.spots (getHeap s t) = (some spot, h')) :
    reserve s u lp st en ty = (some
      { reservation_id := s.counter, username := sTrim u, license_plate := sTrim lp,
        spot_id := spot.spot_id, start_time := st, end_time := en,
        status := ReservationStatus.RESERVATION, gate := none },
      { setHeap s t h' with
          spots := setSpotStatus s.spots spot.spot_id SpotStatus.RESERVED,
          reservations := insertResv s.reservations
            { reservation_id := s.counter, username := sTrim u,
              license_plate := sTrim lp, spot_id := spot.spot_id, start_time := st,
              end_time := en, status := ReservationStatus.RESERVATION, gate := none },
          counter := s.counter + 1,
          undo_stack := ⟨"RESERVE", s.counter⟩ :: s.undo_stack }) := by
  unfold reserve
  rw [if_neg h1, if_neg h2, if_neg h3, hsel]
  dsimp only
  rw [hpop]
  cases t <;> rfl

theorem ginv_reserve_core {s : SysState} (hG : GInv s) {t : HeapTag}
    {spot : ParkingSpot} {h' : List String}
    (hpop : pop_best_spot s.spots (getHeap s t) = (some spot, h'))
    (r : Reservation)
    (hrid : r.reservation_id = s.counter)
    (hrsid : r.spot_id = spot.spot_id)
    (hrst : r.status = ReservationStatus.RESERVATION)
    (hrg : r.gate = none)
    {X : SysState}
    (hXsp : X.spots = setSpotStatus s.spots spot.spot_id SpotStatus.RESERVED)
    (hXr : X.reservations = s.reservations ++ [r])
    (hXq : X.queued_set = s.queued_set)
    (hXg : X.gates = s.gates)
    (hXu : X.undo_stack = ⟨"RESERVE", s.counter⟩ :: s.undo_stack)
    (hXc : X.counter = s.counter + 1)
    (hXh1 : getHeap X t = h')
    (hXh2 : ∀ t', t' ≠ t → getHeap X t' = getHeap s t') :
    GInv X := by
  obtain ⟨hC, hS, hGN, hL, hSp, hH, hR, hK⟩ := hG
  obtain ⟨pre, hheap, hfind, hE, hpref⟩ := pop_best_spot_some hpop
  have hmem : spot ∈ s.spots := List.mem_of_find?_eq_some hfind
  have hty : spot.spot_type = tagType t := by
    have hin : spot.spot_id ∈ getHeap s t := by
      rw [hheap]
      exact List.mem_append_right _ (List.mem_cons_self _ _)
    obtain ⟨p, hp, hpid, hpty⟩ := (heapsOK_to ⟨hH.1, hH.2⟩ t).2.1 spot.spot_id hin
    rw [spot_eq_of_mem_of_id_eq hSp.1 hmem hp hpid.symm]
    exact hpty
  have hfresh : ∀ x ∈ s.reservations, x.reservation_id ≠ s.counter :=
    fun x hx => Nat.ne_of_lt (hL.2 x hx).1
  have hcnotq : s.counter ∉ s.queued_set := by
    intro hc
    obtain ⟨r2, hr2, hid, _⟩ := hS.1 _ hc
    exact hfresh r2 hr2 hid
  refine ⟨?_, ?_, ?_, ?_, ?_, ?_, ?_, ?_⟩
  · show Cons ⟨X.reservations, X.spots, X.queued_set⟩
    rw [hXr, hXsp]
    exact cons_reserve hC hSp.1 hmem hE hrsid hrst
  · constructor
    · intro n hn
      rw [hXq] at hn
      obtain ⟨r2, hr2, hid, hw⟩ := hS.1 n hn
      rw [hXr]
      exact ⟨r2, List.mem_append_left _ hr2, hid, hw⟩
    · intro x hx hw
      rw [hXr] at hx
      rw [hXq]
      rcases List.mem_append.1 hx with hx1 | hx2
      · exact hS.2 x hx1 hw
      · rw [List.mem_singleton.1 hx2, hrst] at hw
        cases hw
  · intro x hx hcond
    rw [hXr] at hx
    rcases List.mem_append.1 hx with hx1 | hx2
    · exact hGN x hx1 hcond
    · rw [List.mem_singleton.1 hx2]
      exact hrg
  · refine ⟨?_, ?_⟩
    · rw [hXr]
      refine List.pairwise_append.2 ⟨hL.1, List.pairwise_singleton _ _, ?_⟩
      intro a ha b hb
      rw [List.mem_singleton.1 hb, hrid]
      exact hfresh a ha
    · intro x hx
      rw [hXr] at hx
      rw [hXc, hXsp]
      rcases List.mem_append.1 hx with hx1 | hx2
      · have hcy := hL.2 x hx1
        exact ⟨Nat.lt_succ_of_lt hcy.1, exists_spot_setSpotStatus _ _ hcy.2⟩
      · rw [List.mem_singleton.1 hx2]
        refine ⟨by rw [hrid]; exact Nat.lt_succ_self _, ?_⟩
        exact ⟨_, mem_setSpotStatus_intro _ _ hmem, by rw [upd_spot_id, hrsid]⟩
  · refine ⟨?_, ?_⟩
    · rw [hXsp]
      exact pairwise_sids_setSpotStatus hSp.1
    · intro p hp
      rw [hXsp] at hp
      obtain ⟨y, hy, rfl⟩ := mem_setSpotStatus_elim hp
      rw [upd_spot_type]
      exact hSp.2 y hy
  · refine heapsOK_of ?_
    intro t'
    by_cases htt : t' = t
    · subst htt
      rw [hXh1, hXsp]
      have hhl := heapsOK_to ⟨hH.1, hH.2⟩ t'
      rw [hheap] at hhl
      exact heapOKL_pop hhl hSp.1 hpref
    · rw [hXh2 t' htt, hXsp]
      exact heapOKL_unfree (heapsOK_to ⟨hH.1, hH.2⟩ t') _ (by decide)
  · unfold RingOK
    rw [hXg]
    exact hR
  · have habs : absSt X = AbsState.mk (s.reservations ++ [r])
        (setSpotStatus s.spots spot.spot_id SpotStatus.RESERVED) s.queued_set := by
      show AbsState.mk _ _ _ = _
      rw [hXr, hXsp, hXq]
    rw [hXu, habs]
    have hlook : vGetResv (AbsState.mk (s.reservations ++ [r])
        (setSpotStatus s.spots spot.spot_id SpotStatus.RESERVED) s.queued_set)
        s.counter = some r := by
      show (s.reservations ++ [r]).find? (fun x => x.reservation_id == s.counter) = some r
      exact find?_fresh_append hrid hfresh
    have hlookspot : get_spot_by_id
        (setSpotStatus s.spots spot.spot_id SpotStatus.RESERVED) r.spot_id =
        some { spot with status := SpotStatus.RESERVED } := by
      rw [get_spot_by_id_setSpotStatus]
      rw [show get_spot_by_id s.spots r.spot_id = some spot from by
        rw [hrsid]; exact hfind]
      exact congrArg some (by dsimp only; rw [if_pos rfl])
    have halign : virtualPop ⟨"RESERVE", s.counter⟩ (AbsState.mk (s.reservations ++ [r])
        (setSpotStatus s.spots spot.spot_id SpotStatus.RESERVED) s.queued_set) =
        absSt s := by
      rw [virtualPop_RESERVE rfl]
      simp only [hlook]
      simp only [hlookspot]
      rw [if_neg (show ¬(({ spot with status := SpotStatus.RESERVED } :
        ParkingSpot).status ≠ SpotStatus.RESERVED) from fun hc => hc rfl)]
      show AbsState.mk _ _ _ = _
      rw [filter_fresh_append hrid hfresh]
      rw [setSpotStatus_setSpotStatus]
      rw [setSpotStatus_eq_self (fun p hp hpid => by
        rw [spot_eq_of_mem_of_id_eq hSp.1 hp hmem hpid]
        exact hE)]
      rw [Finset.erase_eq_of_not_mem hcnotq]
      rfl
    exact ⟨halign ▸ hC, halign ▸ hK⟩

theorem ginv_reserve (s : SysState) (u lp : String) (st en : Int) (ty : String)
    (hG : GInv s) : GInv (reserve s u lp st en ty).2 := by
  by_cases h1 : sTrim u = ""
  · rw [reserve_trim1_eq h1]
    exact hG
  by_cases h2 : sTrim lp = ""
  · rw [reserve_trim2_eq h1 h2]
    exact hG
  by_cases h3 : en ≤ st
  · rw [reserve_time_eq h1 h2 h3]
    exact hG
  cases hsel : select_heap ty with
  | none =>
    rw [reserve_selnone_eq h1 h2 h3 hsel]
    exact hG
  | some t =>
    cases hpop : pop_best_spot s.spots (getHeap s t) with
    | mk o h' =>
      cases o with
      | none =>
        rw [reserve_drain_eq h1 h2 h3 hsel hpop]
        exact ginv_drain hG hpop
      | some spot =>
        rw [reserve_success_eq h1 h2 h3 hsel hpop]
        have hL := hG.2.2.2.1
        have hins : insertResv s.reservations
            { reservation_id := s.counter, username := sTrim u,
              license_plate := sTrim lp, spot_id := spot.spot_id, start_time := st,
              end_time := en, status := ReservationStatus.RESERVATION, gate := none } =
            s.reservations ++
              [{ reservation_id := s.counter, username := sTrim u,
                 license_plate := sTrim lp, spot_id := spot.spot_id, start_time := st,
                 end_time := en, status := ReservationStatus.RESERVATION,
                 gate := none }] :=
          insertResv_fresh (fun x hx => Nat.ne_of_lt (hL.2 x hx).1)
        refine ginv_reserve_core hG hpop
          { reservation_id := s.counter, username := sTrim u,
            license_plate := sTrim lp, spot_id := spot.spot_id, start_time := st,
            end_time := en, status := ReservationStatus.RESERVATION, gate := none }
          rfl rfl rfl rfl ?_ ?_ ?_ ?_ ?_ ?_ ?_ ?_
        · rfl
        · exact hins
        · cases t <;> rfl
        · cases t <;> rfl
        · rfl
        · rfl
        · cases t <;> rfl
        · intro t' hne
          cases t' <;> cases t <;> first | exact absurd rfl hne | rfl

/-! ## `undo_last`: shape and invariant preservation -/

/-- Popping the stack without touching the rest of the state preserves the
invariant whenever the virtual replay of the popped record is a no-op. -/
theorem ginv_pop_fail {s : SysState} {op : UndoOp} {rest : List UndoOp}
    (hG : GInv s) (hst : s.undo_stack = op :: rest)
    (halign : virtualPop op (AbsState.mk s.reservations s.spots s.queued_set) =
      AbsState.mk s.reservations s.spots s.queued_set) :
    GInv { s with undo_stack := rest } := by
  obtain ⟨hC, hS, hGN, hL, hSp, hH, hR, hK⟩ := hG
  rw [hst] at hK
  have hKr : StackInv rest
      (virtualPop op (AbsState.mk s.reservations s.spots s.queued_set)) := hK.2
  rw [halign] at hKr
  exact ⟨hC, hS, hGN, hL, hSp, hH, hR, hKr⟩

theorem undo_reserve_success_eq {s : SysState} {op : UndoOp} {rest : List UndoOp}
    {r : Reservation} {spot : ParkingSpot} {t : HeapTag}
    (hst : s.undo_stack = op :: rest) (hop : op.op_type = "RESERVE")
    (hr : getResv s op.reservation_id = some r)
    (hsp : get_spot_by_id s.spots r.spot_id = some spot)
    (hss : spot.status = SpotStatus.RESERVED)
    (hsel : select_heap spot.spot_type = some t) :
    undo_last s = (true, setHeap
      { s with undo_stack := rest,
               queued_set := s.queued_set.erase op.reservation_id,
               reservations := s.reservations.filter
                 (fun x => x.reservation_id != op.reservation_id),
               spots := setSpotStatus s.spots spot.spot_id SpotStatus.EMPTY }
      t (heapInsert spot.spot_id (getHeap s t))) := by
  unfold undo_last
  rw [hst]
  dsimp only
  rw [if_pos hop]
  rw [show getResv { s with undo_stack := rest } op.reservation_id = some r from hr]
  dsimp only
  rw [show get_spot_by_id s.spots r.spot_id = some spot from hsp]
  dsimp only
  rw [if_neg (not_not_intro hss)]
  rw [hsel]
  cases t <;> rfl

theorem ginv_undo_reserve_core {s : SysState} (hG : GInv s) {op : UndoOp}
    {rest : List UndoOp} (hst : s.undo_stack = op :: rest)
    (hop : op.op_type = "RESERVE")
    {r : Reservation} {spot : ParkingSpot} {t : HeapTag}
    (hr : getResv s op.reservation_id = some r)
    (hsp : get_spot_by_id s.spots r.spot_id = some spot)
    (hss : spot.status = SpotStatus.RESERVED)
    (hsel : select_heap spot.spot_type = some t)
    {X : SysState}
    (hXsp : X.spots = setSpotStatus s.spots spot.spot_id SpotStatus.EMPTY)
    (hXr : X.reservations = s.reservations.filter
      (fun x => x.reservation_id != op.reservation_id))
    (hXq : X.queued_set = s.queued_set.erase op.reservation_id)
    (hXg : X.gates = s.gates)
    (hXu : X.undo_stack = rest)
    (hXc : X.counter = s.counter)
    (hXh1 : getHeap X t = heapInsert spot.spot_id (getHeap s t))
    (hXh2 : ∀ t', t' ≠ t → getHeap X t' = getHeap s t') :
    GInv X := by
  obtain ⟨hC, hS, hGN, hL, hSp, hH, hR, hK⟩ := hG
  rw [hst] at hK
  have hA : Cons (virtualPop op (AbsState.mk s.reservations s.spots s.queued_set)) :=
    hK.1
  have hKr : StackInv rest
      (virtualPop op (AbsState.mk s.reservations s.spots s.queued_set)) := hK.2
  have hrm := getResv_eq_some hr
  have hspm := get_spot_by_id_eq_some hsp
  have hty : spot.spot_type = tagType t := select_heap_eq hsel
  have halign : virtualPop op (AbsState.mk s.reservations s.spots s.queued_set) =
      AbsState.mk
        (s.reservations.filter (fun x => x.reservation_id != op.reservation_id))
        (setSpotStatus s.spots spot.spot_id SpotStatus.EMPTY)
        (s.queued_set.erase op.reservation_id) := by
    rw [virtualPop_RESERVE hop]
    rw [show vGetResv (AbsState.mk s.reservations s.spots s.queued_set)
      op.reservation_id = some r from hr]
    dsimp only
    rw [show get_spot_by_id s.spots r.spot_id = some spot from hsp]
    dsimp only
    rw [if_neg (not_not_intro hss)]
  rw [halign] at hA hKr
  refine ⟨?_, ?_, ?_, ?_, ?_, ?_, ?_, ?_⟩
  · show Cons ⟨X.reservations, X.spots, X.queued_set⟩
    rw [hXr, hXsp, hXq]
    exact hA
  · constructor
    · intro n hn
      rw [hXq] at hn
      have hne := (Finset.mem_erase.1 hn).1
      obtain ⟨r2, hr2, hid, hw⟩ := hS.1 n (Finset.mem_erase.1 hn).2
      rw [hXr]
      refine ⟨r2, List.mem_filter.2 ⟨hr2, ?_⟩, hid, hw⟩
      simp only [bne_iff_ne, ne_eq]
      rw [hid]
      exact hne
    · intro x hx hw
      rw [hXr] at hx
      rw [hXq]
      have hx2 := List.mem_filter.1 hx
      refine Finset.mem_erase.2 ⟨?_, hS.2 x hx2.1 hw⟩
      simpa using hx2.2
  · intro x hx hcond
    rw [hXr] at hx
    exact hGN x (List.mem_filter.1 hx).1 hcond
  · refine ⟨?_, ?_⟩
    · rw [hXr]
      exact List.Pairwise.filter _ hL.1
    · intro x hx
      rw [hXr] at hx
      rw [hXc, hXsp]
      have hcy := hL.2 x (List.mem_filter.1 hx).1
      exact ⟨hcy.1, exists_spot_setSpotStatus _ _ hcy.2⟩
  · refine ⟨?_, ?_⟩
    · rw [hXsp]
      exact pairwise_sids_setSpotStatus hSp.1
    · intro p hp
      rw [hXsp] at hp
      obtain ⟨y, hy, rfl⟩ := mem_setSpotStatus_elim hp
      rw [upd_spot_type]
      exact hSp.2 y hy
  · refine heapsOK_of ?_
    intro t'
    by_cases htt : t' = t
    · subst htt
      rw [hXh1, hXsp]
      exact heapOKL_free (heapsOK_to ⟨hH.1, hH.2⟩ t') hspm.1 hty
    · rw [hXh2 t' htt, hXsp]
      refine heapOKL_free_other (heapsOK_to ⟨hH.1, hH.2⟩ t') hSp.1 hspm.1 ?_
      rw [hty]
      intro hc
      exact htt (tagType_inj hc).symm
  · unfold RingOK
    rw [hXg]
    exact hR
  · rw [hXu]
    have habs : absSt X = AbsState.mk
        (s.reservations.filter (fun x => x.reservation_id != op.reservation_id))
        (setSpotStatus s.spots spot.spot_id SpotStatus.EMPTY)
        (s.queued_set.erase op.reservation_id) := by
      show AbsState.mk _ _ _ = _
      rw [hXr, hXsp, hXq]
    rw [habs]
    exact hKr

theorem ginv_undo_reserve {s : SysState} (hG : GInv s) {op : UndoOp}
    {rest : List UndoOp} (hst : s.undo_stack = op :: rest)
    (hop : op.op_type = "RESERVE") : GInv (undo_last s).2 := by
  have hSp := hG.2.2.2.2.1
  unfold undo_last
  rw [hst]
  dsimp only
  rw [if_pos hop]
  cases hr : getResv s op.reservation_id with
  | none =>
    rw [show getResv { s with undo_stack := rest } op.reservation_id = none from hr]
    refine ginv_pop_fail hG hst ?_
    rw [virtualPop_RESERVE hop]
    rw [show vGetResv (AbsState.mk s.reservations s.spots s.queued_set)
      op.reservation_id = none from hr]
  | some r =>
    rw [show getResv { s with undo_stack := rest } op.reservation_id = some r from hr]
    dsimp only
    cases hsp : get_spot_by_id s.spots r.spot_id with
    | none =>
      refine ginv_pop_fail hG hst ?_
      rw [virtualPop_RESERVE hop]
      rw [show vGetResv (AbsState.mk s.reservations s.spots s.queued_set)
        op.reservation_id = some r from hr]
      dsimp only
      rw [show get_spot_by_id s.spots r.spot_id = none from hsp]
    | some spot =>
      dsimp only
      by_cases hss : spot.status ≠ SpotStatus.RESERVED
      · rw [if_pos hss]
        refine ginv_pop_fail hG hst ?_
        rw [virtualPop_RESERVE hop]
        rw [show vGetResv (AbsState.mk s.reservations s.spots s.queued_set)
          op.reservation_id = some r from hr]
        dsimp only
        rw [show get_spot_by_id s.spots r.spot_id = some spot from hsp]
        dsimp only
        rw [if_pos hss]
      · rw [if_neg hss]
        rw [not_not] at hss
        have hspm := get_spot_by_id_eq_some hsp
        obtain ⟨t, hsel⟩ := select_heap_valid (hSp.2 spot hspm.1)
        rw [hsel]
        dsimp only
        refine ginv_undo_reserve_core hG hst hop hr hsp hss hsel ?_ ?_ ?_ ?_ ?_ ?_
          ?_ ?_
        · cases t <;> rfl
        · cases t <;> rfl
        · cases t <;> rfl
        · cases t <;> rfl
        · cases t <;> rfl
        · cases t <;> rfl
        · cases t <;> rfl
        · intro t' hne
          cases t' <;> cases t <;> first | exact absurd rfl hne | rfl

theorem ginv_undo_cancel {s : SysState} (hG : GInv s) {op : UndoOp}
    {rest : List UndoOp} (hst : s.undo_stack = op :: rest)
    (h1 : ¬ op.op_type = "RESERVE") (hop : op.op_type = "CANCEL") :
    GInv (undo_last s).2 := by
  have hG' := hG
  obtain ⟨hC, hS, hGN, hL, hSp, hH, hR, hK⟩ := hG'
  rw [hst] at hK
  have hA : Cons (virtualPop op (AbsState.mk s.reservations s.spots s.queued_set)) :=
    hK.1
  have hKr : StackInv rest
      (virtualPop op (AbsState.mk s.reservations s.spots s.queued_set)) := hK.2
  unfold undo_last
  rw [hst]
  dsimp only
  rw [if_neg h1, if_pos hop]
  cases hr : getResv s op.reservation_id with
  | none =>
    rw [show getResv { s with undo_stack := rest } op.reservation_id = none from hr]
    refine ginv_pop_fail hG hst ?_
    rw [virtualPop_CANCEL hop]
    rw [show vGetResv (AbsState.mk s.reservations s.spots s.queued_set)
      op.reservation_id = none from hr]
  | some r =>
    rw [show getResv { s with undo_stack := rest } op.reservation_id = some r from hr]
    dsimp only
    by_cases hcs : r.status ≠ ReservationStatus.CANCELED
    · rw [if_pos hcs]
      refine ginv_pop_fail hG hst ?_
      rw [virtualPop_CANCEL hop]
      rw [show vGetResv (AbsState.mk s.reservations s.spots s.queued_set)
        op.reservation_id = some r from hr]
      dsimp only
      rw [if_pos hcs]
    · rw [if_neg hcs]
      rw [not_not] at hcs
      cases hsp : get_spot_by_id s.spots r.spot_id with
      | none =>
        refine ginv_pop_fail hG hst ?_
        rw [virtualPop_CANCEL hop]
        rw [show vGetResv (AbsState.mk s.reservations s.spots s.queued_set)
          op.reservation_id = some r from hr]
        dsimp only
        rw [if_neg (not_not_intro hcs)]
        rw [show get_spot_by_id s.spots r.spot_id = none from hsp]
      | some spot =>
        dsimp only
        by_cases hse : spot.status ≠ SpotStatus.EMPTY
        · rw [if_pos hse]
          refine ginv_pop_fail hG hst ?_
          rw [virtualPop_CANCEL hop]
          rw [show vGetResv (AbsState.mk s.reservations s.spots s.queued_set)
            op.reservation_id = some r from hr]
          dsimp only
          rw [if_neg (not_not_intro hcs)]
          rw [show get_spot_by_id s.spots r.spot_id = some spot from hsp]
          dsimp only
          rw [if_pos hse]
        · rw [if_neg hse]
          rw [not_not] at hse
          have hrm := getResv_eq_some hr
          have hspm := get_spot_by_id_eq_some hsp
          have halign : virtualPop op
              (AbsState.mk s.reservations s.spots s.queued_set) =
              AbsState.mk
                (setResv s.reservations op.reservation_id
                  (fun x => { x with status := ReservationStatus.RESERVATION }))
                (setSpotStatus s.spots spot.spot_id SpotStatus.RESERVED)
                s.queued_set := by
            rw [virtualPop_CANCEL hop]
            rw [show vGetResv (AbsState.mk s.reservations s.spots s.queued_set)
              op.reservation_id = some r from hr]
            dsimp only
            rw [if_neg (not_not_intro hcs)]
            rw [show get_spot_by_id s.spots r.spot_id = some spot from hsp]
            dsimp only
            rw [if_neg (not_not_intro hse)]
          rw [halign] at hA hKr
          refine ⟨hA, ⟨?_, ?_⟩, ?_, ⟨?_, ?_⟩, ⟨?_, ?_⟩, ⟨?_, ?_⟩, hR, hKr⟩
          · intro n hn
            obtain ⟨r2, hr2, hid, hw⟩ := hS.1 n hn
            have hne : r2.reservation_id ≠ op.reservation_id := by
              intro hc
              have h3 := eq_of_mem_of_id_eq hL.1 hr2 hrm.1 (by rw [hc, hrm.2])
              rw [h3, hcs] at hw
              cases hw
            exact ⟨_, List.mem_map.2 ⟨r2, hr2, rfl⟩,
              by rw [if_neg hne]; exact hid, by rw [if_neg hne]; exact hw⟩
          · intro x hx hw
            obtain ⟨y, hy, rfl⟩ := mem_setResv_elim hx
            by_cases hyid : y.reservation_id = op.reservation_id
            · rw [if_pos hyid] at hw
              simp at hw
            · rw [if_neg hyid] at hw ⊢
              exact hS.2 y hy hw
          · intro x hx hcond
            obtain ⟨y, hy, rfl⟩ := mem_setResv_elim hx
            by_cases hyid : y.reservation_id = op.reservation_id
            · rw [if_pos hyid]
              show y.gate = none
              rw [eq_of_mem_of_id_eq hL.1 hy hrm.1 (by rw [hyid, hrm.2])]
              exact hGN r hrm.1 (Or.inr (Or.inr hcs))
            · rw [if_neg hyid] at hcond ⊢
              exact hGN y hy hcond
          · exact pairwise_ids_setResv (fun _ => rfl) hL.1
          · intro x hx
            obtain ⟨y, hy, rfl⟩ := mem_setResv_elim hx
            have hcy := hL.2 y hy
            by_cases hyid : y.reservation_id = op.reservation_id
            · rw [if_pos hyid]
              exact ⟨hcy.1, exists_spot_setSpotStatus _ _ hcy.2⟩
            · rw [if_neg hyid]
              exact ⟨hcy.1, exists_spot_setSpotStatus _ _ hcy.2⟩
          · exact pairwise_sids_setSpotStatus hSp.1
          · intro p hp
            obtain ⟨y, hy, rfl⟩ := mem_setSpotStatus_elim hp
            rw [upd_spot_type]
            exact hSp.2 y hy
          · exact heapOKL_unfree hH.1 _ (by decide)
          · exact heapOKL_unfree hH.2 _ (by decide)

theorem ginv_undo_request {s : SysState} (hG : GInv s) {op : UndoOp}
    {rest : List UndoOp} (hst : s.undo_stack = op :: rest)
    (h1 : ¬ op.op_type = "RESERVE") (h2 : ¬ op.op_type = "CANCEL")
    (hop : op.op_type = "REQUEST_CHECKIN") :
    GInv (undo_last s).2 := by
  have hG' := hG
  obtain ⟨hC, hS, hGN, hL, hSp, hH, hR, hK⟩ := hG'
  rw [hst] at hK
  have hA : Cons (virtualPop op (AbsState.mk s.reservations s.spots s.queued_set)) :=
    hK.1
  have hKr : StackInv rest
      (virtualPop op (AbsState.mk s.reservations s.spots s.queued_set)) := hK.2
  unfold undo_last
  rw [hst]
  dsimp only
  rw [if_neg h1, if_neg h2, if_pos hop]
  by_cases hmem : op.reservation_id ∈ s.queued_set
  case neg =>
    rw [if_neg hmem]
    refine ginv_pop_fail hG hst ?_
    rw [virtualPop_REQUEST hop]
    rw [if_neg hmem]
  rw [if_pos hmem]
  cases hr : getResv s op.reservation_id with
  | none =>
    rw [show getResv { s with undo_stack := rest, queued_set := s.queued_set.erase op.reservation_id } op.reservation_id = none from hr]
    have halign : virtualPop op (AbsState.mk s.reservations s.spots s.queued_set) =
        AbsState.mk s.reservations s.spots
          (s.queued_set.erase op.reservation_id) := by
      rw [virtualPop_REQUEST hop]
      rw [if_pos hmem]
      rw [show vGetResv (AbsState.mk s.reservations s.spots s.queued_set)
        op.reservation_id = none from hr]
    rw [halign] at hA hKr
    have hnone := find?_rid_eq_none hr
    refine ⟨hA, ⟨?_, ?_⟩, hGN, hL, hSp, ⟨hH.1, hH.2⟩, hR, hKr⟩
    · intro n hn
      exact hS.1 n (Finset.mem_erase.1 hn).2
    · intro x hx hw
      exact Finset.mem_erase.2 ⟨hnone x hx, hS.2 x hx hw⟩
  | some r =>
    rw [show getResv { s with undo_stack := rest, queued_set := s.queued_set.erase op.reservation_id } op.reservation_id = some r from hr]
    dsimp only
    have hrm := getResv_eq_some hr
    by_cases hw : r.status = ReservationStatus.WAITING
    case neg =>
      rw [if_neg hw]
      have halign : virtualPop op (AbsState.mk s.reservations s.spots s.queued_set) =
          AbsState.mk s.reservations s.spots
            (s.queued_set.erase op.reservation_id) := by
        rw [virtualPop_REQUEST hop]
        rw [if_pos hmem]
        rw [show vGetResv (AbsState.mk s.reservations s.spots s.queued_set)
          op.reservation_id = some r from hr]
        dsimp only
        rw [if_neg hw]
      rw [halign] at hA hKr
      refine ⟨hA, ⟨?_, ?_⟩, hGN, hL, hSp, ⟨hH.1, hH.2⟩, hR, hKr⟩
      · intro n hn
        exact hS.1 n (Finset.mem_erase.1 hn).2
      · intro x hx hxw
        refine Finset.mem_erase.2 ⟨?_, hS.2 x hx hxw⟩
        intro hc
        have hxr := eq_of_mem_of_id_eq hL.1 hx hrm.1 (by rw [hc, hrm.2])
        rw [hxr] at hxw
        exact hw hxw
    rw [if_pos hw]
    have halign : virtualPop op (AbsState.mk s.reservations s.spots s.queued_set) =
        AbsState.mk
          (setResv s.reservations op.reservation_id
            (fun x => { x with status := ReservationStatus.RESERVATION }))
          s.spots (s.queued_set.erase op.reservation_id) := by
      rw [virtualPop_REQUEST hop]
      rw [if_pos hmem]
      rw [show vGetResv (AbsState.mk s.reservations s.spots s.queued_set)
        op.reservation_id = some r from hr]
      dsimp only
      rw [if_pos hw]
    rw [halign] at hA hKr
    refine ⟨hA, ⟨?_, ?_⟩, ?_, ⟨?_, ?_⟩, hSp, ⟨hH.1, hH.2⟩, hR, hKr⟩
    · intro n hn
      have hne := (Finset.mem_erase.1 hn).1
      obtain ⟨r2, hr2, hid, hw2⟩ := hS.1 n (Finset.mem_erase.1 hn).2
      have hne2 : r2.reservation_id ≠ op.reservation_id := by
        rw [hid]
        exact hne
      exact ⟨_, List.mem_map.2 ⟨r2, hr2, rfl⟩,
        by rw [if_neg hne2]; exact hid, by rw [if_neg hne2]; exact hw2⟩
    · intro x hx hxw
      obtain ⟨y, hy, rfl⟩ := mem_setResv_elim hx
      by_cases hyid : y.reservation_id = op.reservation_id
      · rw [if_pos hyid] at hxw
        simp at hxw
      · rw [if_neg hyid] at hxw ⊢
        exact Finset.mem_erase.2 ⟨hyid, hS.2 y hy hxw⟩
    · intro x hx hcond
      obtain ⟨y, hy, rfl⟩ := mem_setResv_elim hx
      by_cases hyid : y.reservation_id = op.reservation_id
      · rw [if_pos hyid]
        show y.gate = none
        rw [eq_of_mem_of_id_eq hL.1 hy hrm.1 (by rw [hyid, hrm.2])]
        exact hGN r hrm.1 (Or.inr (Or.inl hw))
      · rw [if_neg hyid] at hcond ⊢
        exact hGN y hy hcond
    · exact pairwise_ids_setResv (fun _ => rfl) hL.1
    · intro x hx
      obtain ⟨y, hy, rfl⟩ := mem_setResv_elim hx
      have hcy := hL.2 y hy
      by_cases hyid : y.reservation_id = op.reservation_id
      · rw [if_pos hyid]
        exact hcy
      · rw [if_neg hyid]
        exact hcy

theorem ginv_undo_process {s : SysState} (hG : GInv s) {op : UndoOp}
    {rest : List UndoOp} (hst : s.undo_stack = op :: rest)
    (h1 : ¬ op.op_type = "RESERVE") (h2 : ¬ op.op_type = "CANCEL")
    (h3 : ¬ op.op_type = "REQUEST_CHECKIN") (hop : op.op_type = "PROCESS_CHECKIN") :
    GInv (undo_last s).2 := by
  have hG' := hG
  obtain ⟨hC, hS, hGN, hL, hSp, hH, hR, hK⟩ := hG'
  rw [hst] at hK
  have hA : Cons (virtualPop op (AbsState.mk s.reservations s.spots s.queued_set)) :=
    hK.1
  have hKr : StackInv rest
      (virtualPop op (AbsState.mk s.reservations s.spots s.queued_set)) := hK.2
  unfold undo_last
  rw [hst]
  dsimp only
  rw [if_neg h1, if_neg h2, if_neg h3, if_pos hop]
  cases hr : getResv s op.reservation_id with
  | none =>
    rw [show getResv { s with undo_stack := rest } op.reservation_id = none from hr]
    refine ginv_pop_fail hG hst ?_
    rw [virtualPop_PROCESS hop]
    rw [show vGetResv (AbsState.mk s.reservations s.spots s.queued_set)
      op.reservation_id = none from hr]
  | some r =>
    rw [show getResv { s with undo_stack := rest } op.reservation_id = some r from hr]
    dsimp only
    by_cases hact : r.status ≠ ReservationStatus.ACTIVE
    · rw [if_pos hact]
      refine ginv_pop_fail hG hst ?_
      rw [virtualPop_PROCESS hop]
      rw [show vGetResv (AbsState.mk s.reservations s.spots s.queued_set)
        op.reservation_id = some r from hr]
      dsimp only
      rw [if_pos hact]
    · rw [if_neg hact]
      rw [not_not] at hact
      cases hsp : get_spot_by_id s.spots r.spot_id with
      | none =>
        refine ginv_pop_fail hG hst ?_
        rw [virtualPop_PROCESS hop]
        rw [show vGetResv (AbsState.mk s.reservations s.spots s.queued_set)
          op.reservation_id = some r from hr]
        dsimp only
        rw [if_neg (not_not_intro hact)]
        rw [show get_spot_by_id s.spots r.spot_id = none from hsp]
      | some spot =>
        dsimp only
        by_cases hocc : spot.status ≠ SpotStatus.OCCUPIED
        · rw [if_pos hocc]
          refine ginv_pop_fail hG hst ?_
          rw [virtualPop_PROCESS hop]
          rw [show vGetResv (AbsState.mk s.reservations s.spots s.queued_set)
            op.reservation_id = some r from hr]
          dsimp only
          rw [if_neg (not_not_intro hact)]
          rw [show get_spot_by_id s.spots r.spot_id = some spot from hsp]
          dsimp only
          rw [if_pos hocc]
        · rw [if_neg hocc]
          rw [not_not] at hocc
          dsimp only
          have hrm := getResv_eq_some hr
          have hspm := get_spot_by_id_eq_some hsp
          have halign : virtualPop op
              (AbsState.mk s.reservations s.spots s.queued_set) =
              AbsState.mk
                (setResv s.reservations op.reservation_id
                  (fun x => { x with gate := none,
                                     status := ReservationStatus.WAITING }))
                (setSpotStatus s.spots spot.spot_id SpotStatus.RESERVED)
                (insert op.reservation_id s.queued_set) := by
            rw [virtualPop_PROCESS hop]
            rw [show vGetResv (AbsState.mk s.reservations s.spots s.queued_set)
              op.reservation_id = some r from hr]
            dsimp only
            rw [if_neg (not_not_intro hact)]
            rw [show get_spot_by_id s.spots r.spot_id = some spot from hsp]
            dsimp only
            rw [if_neg (not_not_intro hocc)]
          rw [halign] at hA hKr
          refine ⟨hA, ⟨?_, ?_⟩, ?_, ⟨?_, ?_⟩, ⟨?_, ?_⟩, ⟨?_, ?_⟩, ?_, hKr⟩
          · intro n hn
            rcases Finset.mem_insert.1 hn with rfl | hn2
            · refine ⟨_, List.mem_map.2 ⟨r, hrm.1, rfl⟩, ?_, ?_⟩
              · rw [if_pos hrm.2]
                exact hrm.2
              · rw [if_pos hrm.2]
            · obtain ⟨r2, hr2, hid, hw2⟩ := hS.1 n hn2
              have hne2 : r2.reservation_id ≠ op.reservation_id := by
                intro hc
                have h5 := eq_of_mem_of_id_eq hL.1 hr2 hrm.1 (by rw [hc, hrm.2])
                rw [h5, hact] at hw2
                cases hw2
              exact ⟨_, List.mem_map.2 ⟨r2, hr2, rfl⟩,
                by rw [if_neg hne2]; exact hid, by rw [if_neg hne2]; exact hw2⟩
          · intro x hx hxw
            obtain ⟨y, hy, rfl⟩ := mem_setResv_elim hx
            by_cases hyid : y.reservation_id = op.reservation_id
            · rw [if_pos hyid]
              show y.reservation_id ∈ _
              rw [hyid]
              exact Finset.mem_insert_self _ _
            · rw [if_neg hyid] at hxw ⊢
              exact Finset.mem_insert_of_mem (hS.2 y hy hxw)
          · intro x hx hcond
            obtain ⟨y, hy, rfl⟩ := mem_setResv_elim hx
            by_cases hyid : y.reservation_id = op.reservation_id
            · rw [if_pos hyid]
            · rw [if_neg hyid] at hcond ⊢
              exact hGN y hy hcond
          · exact pairwise_ids_setResv (fun _ => rfl) hL.1
          · intro x hx
            obtain ⟨y, hy, rfl⟩ := mem_setResv_elim hx
            have hcy := hL.2 y hy
            by_cases hyid : y.reservation_id = op.reservation_id
            · rw [if_pos hyid]
              exact ⟨hcy.1, exists_spot_setSpotStatus _ _ hcy.2⟩
            · rw [if_neg hyid]
              exact ⟨hcy.1, exists_spot_setSpotStatus _ _ hcy.2⟩
          · exact pairwise_sids_setSpotStatus hSp.1
          · intro p hp
            obtain ⟨y, hy, rfl⟩ := mem_setSpotStatus_elim hp
            rw [upd_spot_type]
            exact hSp.2 y hy
          · exact heapOKL_unfree hH.1 _ (by decide)
          · exact heapOKL_unfree hH.2 _ (by decide)
          · obtain ⟨k, hk, hg⟩ := hR
            refine ⟨(k + 2) % 3, by omega, ?_⟩
            show cq_cycles (s.gates.count - 1) s.gates = ringState ((k + 2) % 3)
            rw [hg]
            interval_cases k <;> rfl

theorem ginv_undo_checkout {s : SysState} (hG : GInv s) {op : UndoOp}
    {rest : List UndoOp} (hst : s.undo_stack = op :: rest)
    (h1 : ¬ op.op_type = "RESERVE") (h2 : ¬ op.op_type = "CANCEL")
    (h3 : ¬ op.op_type = "REQUEST_CHECKIN") (h4 : ¬ op.op_type = "PROCESS_CHECKIN")
    (hop : op.op_type = "CHECKOUT") :
    GInv (undo_last s).2 := by
  have hG' := hG
  obtain ⟨hC, hS, hGN, hL, hSp, hH, hR, hK⟩ := hG'
  rw [hst] at hK
  have hA : Cons (virtualPop op (AbsState.mk s.reservations s.spots s.queued_set)) :=
    hK.1
  have hKr : StackInv rest
      (virtualPop op (AbsState.mk s.reservations s.spots s.queued_set)) := hK.2
  unfold undo_last
  rw [hst]
  dsimp only
  rw [if_neg h1, if_neg h2, if_neg h3, if_neg h4, if_pos hop]
  cases hr : getResv s op.reservation_id with
  | none =>
    rw [show getResv { s with undo_stack := rest } op.reservation_id = none from hr]
    refine ginv_pop_fail hG hst ?_
    rw [virtualPop_CHECKOUT hop]
    rw [show vGetResv (AbsState.mk s.reservations s.spots s.queued_set)
      op.reservation_id = none from hr]
  | some r =>
    rw [show getResv { s with undo_stack := rest } op.reservation_id = some r from hr]
    dsimp only
    by_cases hcs : r.status ≠ ReservationStatus.DONE
    · rw [if_pos hcs]
      refine ginv_pop_fail hG hst ?_
      rw [virtualPop_CHECKOUT hop]
      rw [show vGetResv (AbsState.mk s.reservations s.spots s.queued_set)
        op.reservation_id = some r from hr]
      dsimp only
      rw [if_pos hcs]
    · rw [if_neg hcs]
      rw [not_not] at hcs
      cases hsp : get_spot_by_id s.spots r.spot_id with
      | none =>
        refine ginv_pop_fail hG hst ?_
        rw [virtualPop_CHECKOUT hop]
        rw [show vGetResv (AbsState.mk s.reservations s.spots s.queued_set)
          op.reservation_id = some r from hr]
        dsimp only
        rw [if_neg (not_not_intro hcs)]
        rw [show get_spot_by_id s.spots r.spot_id = none from hsp]
      | some spot =>
        dsimp only
        by_cases hse : spot.status ≠ SpotStatus.EMPTY
        · rw [if_pos hse]
          refine ginv_pop_fail hG hst ?_
          rw [virtualPop_CHECKOUT hop]
          rw [show vGetResv (AbsState.mk s.reservations s.spots s.queued_set)
            op.reservation_id = some r from hr]
          dsimp only
          rw [if_neg (not_not_intro hcs)]
          rw [show get_spot_by_id s.spots r.spot_id = some spot from hsp]
          dsimp only
          rw [if_pos hse]
        · rw [if_neg hse]
          rw [not_not] at hse
          have hrm := getResv_eq_some hr
          have hspm := get_spot_by_id_eq_some hsp
          have halign : virtualPop op
              (AbsState.mk s.reservations s.spots s.queued_set) =
              AbsState.mk
                (setResv s.reservations op.reservation_id
                  (fun x => { x with status := ReservationStatus.ACTIVE }))
                (setSpotStatus s.spots spot.spot_id SpotStatus.OCCUPIED)
                s.queued_set := by
            rw [virtualPop_CHECKOUT hop]
            rw [show vGetResv (AbsState.mk s.reservations s.spots s.queued_set)
              op.reservation_id = some r from hr]
            dsimp only
            rw [if_neg (not_not_intro hcs)]
            rw [show get_spot_by_id s.spots r.spot_id = some spot from hsp]
            dsimp only
            rw [if_neg (not_not_intro hse)]
          rw [halign] at hA hKr
          refine ⟨hA, ⟨?_, ?_⟩, ?_, ⟨?_, ?_⟩, ⟨?_, ?_⟩, ⟨?_, ?_⟩, hR, hKr⟩
          · intro n hn
            obtain ⟨r2, hr2, hid, hw⟩ := hS.1 n hn
            have hne : r2.reservation_id ≠ op.reservation_id := by
              intro hc
              have h5 := eq_of_mem_of_id_eq hL.1 hr2 hrm.1 (by rw [hc, hrm.2])
              rw [h5, hcs] at hw
              cases hw
            exact ⟨_, List.mem_map.2 ⟨r2, hr2, rfl⟩,
              by rw [if_neg hne]; exact hid, by rw [if_neg hne]; exact hw⟩
          · intro x hx hw
            obtain ⟨y, hy, rfl⟩ := mem_setResv_elim hx
            by_cases hyid : y.reservation_id = op.reservation_id
            · rw [if_pos hyid] at hw
              simp at hw
            · rw [if_neg hyid] at hw ⊢
              exact hS.2 y hy hw
          · intro x hx hcond
            obtain ⟨y, hy, rfl⟩ := mem_setResv_elim hx
            by_cases hyid : y.reservation_id = op.reservation_id
            · rw [if_pos hyid] at hcond
              rcases hcond with h | h | h <;> simp at h
            · rw [if_neg hyid] at hcond ⊢
              exact hGN y hy hcond
          · exact pairwise_ids_setResv (fun _ => rfl) hL.1
          · intro x hx
            obtain ⟨y, hy, rfl⟩ := mem_setResv_elim hx
            have hcy := hL.2 y hy
            by_cases hyid : y.reservation_id = op.reservation_id
            · rw [if_pos hyid]
              exact ⟨hcy.1, exists_spot_setSpotStatus _ _ hcy.2⟩
            · rw [if_neg hyid]
              exact ⟨hcy.1, exists_spot_setSpotStatus _ _ hcy.2⟩
          · exact pairwise_sids_setSpotStatus hSp.1
          · intro p hp
            obtain ⟨y, hy, rfl⟩ := mem_setSpotStatus_elim hp
            rw [upd_spot_type]
            exact hSp.2 y hy
          · exact heapOKL_unfree hH.1 _ (by decide)
          · exact heapOKL_unfree hH.2 _ (by decide)

theorem ginv_undo (s : SysState) (hG : GInv s) : GInv (undo_last s).2 := by
  cases hst : s.undo_stack with
  | nil =>
    unfold undo_last
    rw [hst]
    exact hG
  | cons op rest =>
    by_cases h1 : op.op_type = "RESERVE"
    · exact ginv_undo_reserve hG hst h1
    by_cases h2 : op.op_type = "CANCEL"
    · exact ginv_undo_cancel hG hst h1 h2
    by_cases h3 : op.op_type = "REQUEST_CHECKIN"
    · exact ginv_undo_request hG hst h1 h2 h3
    by_cases h4 : op.op_type = "PROCESS_CHECKIN"
    · exact ginv_undo_process hG hst h1 h2 h3 h4
    by_cases h5 : op.op_type = "CHECKOUT"
    · exact ginv_undo_checkout hG hst h1 h2 h3 h4 h5
    unfold undo_last
    rw [hst]
    dsimp only
    rw [if_neg h1, if_neg h2, if_neg h3, if_neg h4, if_neg h5]
    exact ginv_pop_fail hG hst (virtualPop_other h1 h2 h3 h4 h5 _)

/-! ## The invariant holds on every reachable state -/

theorem ginv_step (s : SysState) (o : Op) (hG : GInv s) : GInv (step s o) := by
  cases o with
  | reserveOp u lp st en ty => exact ginv_reserve s u lp st en ty hG
  | cancelOp rid => exact ginv_cancel s rid hG
  | requestOp rid => exact ginv_request s rid hG
  | processOp => exact ginv_process s hG
  | checkoutOp rid rate => exact ginv_checkout s rid rate hG
  | undoOp => exact ginv_undo s hG

/-- The freshly initialized system satisfies the invariant. -/
theorem ginv_init : GInv initState := by decide

theorem ginv_foldl (ops : List Op) : ∀ (s : SysState), GInv s →
    GInv (ops.foldl step s) := by
  induction ops with
  | nil => intro s hG; exact hG
  | cons o rest ih =>
    intro s hG
    exact ih (step s o) (ginv_step s o hG)

theorem ginv_runOps (ops : List Op) : GInv (runOps ops) :=
  ginv_foldl ops initState ginv_init

theorem ginv_reachable (s : SysState) (h : Reachable s) : GInv s := by
  obtain ⟨ops, rfl⟩ := h
  exact ginv_runOps ops

/-! ## Auxiliary order and inversion lemmas for the claims -/

theorem sLeP_refl (a : String) : sLeP a a := by
  unfold sLeP strLe
  rw [ltl_irrefl]
  rfl

theorem strLt_of_sLeP_ne {a b : String} (hle : sLeP a b) (hne : a ≠ b) :
    strLt a b = true := by
  unfold sLeP strLe at hle
  unfold strLt
  rcases ltl_total a.data b.data with h | h | h
  · exact h
  · exfalso
    apply hne
    cases a
    cases b
    cases h
    rfl
  · rw [h] at hle
    cases hle

/-- `select_heap` is a section of `tagType`. -/
theorem select_heap_tagType (t : HeapTag) : select_heap (tagType t) = some t := by
  cases t <;> rfl

/-- Inversion of a successful `reserve`. -/
theorem reserve_some_inv {s : SysState} {u lp ty : String} {st en : Int}
    {r : Reservation} {s' : SysState}
    (h : reserve s u lp st en ty = (some r, s')) :
    ∃ t spot h2, ¬ sTrim u = "" ∧ ¬ sTrim lp = "" ∧ ¬ en ≤ st ∧
      select_heap ty = some t ∧
      pop_best_spot s.spots (getHeap s t) = (some spot, h2) ∧
      r = { reservation_id := s.counter, username := sTrim u,
            license_plate := sTrim lp, spot_id := spot.spot_id, start_time := st,
            end_time := en, status := ReservationStatus.RESERVATION, gate := none } ∧
      s' = { setHeap s t h2 with
          spots := setSpotStatus s.spots spot.spot_id SpotStatus.RESERVED,
          reservations := insertResv s.reservations
            { reservation_id := s.counter, username := sTrim u,
              license_plate := sTrim lp, spot_id := spot.spot_id, start_time := st,
              end_time := en, status := ReservationStatus.RESERVATION, gate := none },
          counter := s.counter + 1,
          undo_stack := ⟨"RESERVE", s.counter⟩ :: s.undo_stack } := by
  by_cases h1 : sTrim u = ""
  · rw [reserve_trim1_eq h1] at h
    cases h
  by_cases h2 : sTrim lp = ""
  · rw [reserve_trim2_eq h1 h2] at h
    cases h
  by_cases h3 : en ≤ st
  · rw [reserve_time_eq h1 h2 h3] at h
    cases h
  cases hsel : select_heap ty with
  | none =>
    rw [reserve_selnone_eq h1 h2 h3 hsel] at h
    cases h
  | some t =>
    cases hpop : pop_best_spot s.spots (getHeap s t) with
    | mk o hp2 =>
      cases o with
      | none =>
        rw [reserve_drain_eq h1 h2 h3 hsel hpop] at h
        cases h
      | some spot =>
        rw [reserve_success_eq h1 h2 h3 hsel hpop] at h
        injection h with ha hb
        injection ha with ha
        exact ⟨t, spot, hp2, h1, h2, h3, rfl, hpop, ha.symm, hb.symm⟩

/-- Under the global invariant, a successful pop returns the lowest-id EMPTY
spot of the allocator's class. -/
theorem pop_best_spot_min {s : SysState} (hG : GInv s) {t : HeapTag}
    {spot : ParkingSpot} {h2 : List String}
    (hpop : pop_best_spot s.spots (getHeap s t) = (some spot, h2)) :
    spot ∈ s.spots ∧ spot.status = SpotStatus.EMPTY ∧ spot.spot_type = tagType t ∧
    ∀ p ∈ s.spots, p.status = SpotStatus.EMPTY → p.spot_type = tagType t →
      sLeP spot.spot_id p.spot_id := by
  obtain ⟨hC, hS, hGN, hL, hSp, hH, hR, hK⟩ := hG
  obtain ⟨pre, hheap, hfind, hE, hpref⟩ := pop_best_spot_some hpop
  have hmem : spot ∈ s.spots := List.mem_of_find?_eq_some hfind
  have hty : spot.spot_type = tagType t := by
    have hin : spot.spot_id ∈ getHeap s t := by
      rw [hheap]
      exact List.mem_append_right _ (List.mem_cons_self _ _)
    obtain ⟨p, hp, hpid, hpty⟩ := (heapsOK_to ⟨hH.1, hH.2⟩ t).2.1 spot.spot_id hin
    rw [spot_eq_of_mem_of_id_eq hSp.1 hmem hp hpid.symm]
    exact hpty
  refine ⟨hmem, hE, hty, ?_⟩
  intro p hp hpE hpty
  have hhl := heapsOK_to ⟨hH.1, hH.2⟩ t
  have hin : p.spot_id ∈ getHeap s t := hhl.2.2 p hp hpE hpty
  rw [hheap] at hin
  rcases List.mem_append.1 hin with hig | hig
  · exact absurd hpE (hpref p.spot_id hig p (find?_sid_of_mem hSp.1 hp))
  · rcases List.mem_cons.1 hig with heq | hig2
    · rw [heq]
      exact sLeP_refl _
    · have hsorted : (pre ++ spot.spot_id :: h2).Sorted sLeP := by
        rw [← hheap]
        exact hhl.1
      have hsub : List.Sublist (spot.spot_id :: h2) (pre ++ spot.spot_id :: h2) :=
        List.sublist_append_right _ _
      have hcons := List.Pairwise.sublist hsub hsorted
      exact (List.pairwise_cons.1 hcons).1 p.spot_id hig2

/-! ## The claims -/

/-- C1: after every finite operation sequence from the initialized state,
every spot's status agrees with the ledger: RESERVED iff a
RESERVATION/WAITING reservation points at it, OCCUPIED iff an ACTIVE
reservation points at it, and EMPTY iff no live reservation points at it. -/
theorem C1_spot_consistency (ops : List Op) :
    ∀ p ∈ (runOps ops).spots,
      (p.status = SpotStatus.RESERVED ↔ ∃ r ∈ (runOps ops).reservations,
        (r.status = ReservationStatus.RESERVATION ∨
         r.status = ReservationStatus.WAITING) ∧ r.spot_id = p.spot_id) ∧
      (p.status = SpotStatus.OCCUPIED ↔ ∃ r ∈ (runOps ops).reservations,
        r.status = ReservationStatus.ACTIVE ∧ r.spot_id = p.spot_id) ∧
      (p.status = SpotStatus.EMPTY ↔ ¬ ∃ r ∈ (runOps ops).reservations,
        (r.status = ReservationStatus.RESERVATION ∨
         r.status = ReservationStatus.WAITING ∨
         r.status = ReservationStatus.ACTIVE) ∧ r.spot_id = p.spot_id) := by
  intro p hp
  have hC := (ginv_runOps ops).1
  have hOK := hC.1 p hp
  refine ⟨hOK.1, hOK.2, ?_, ?_⟩
  · intro hEm
    rintro ⟨r, hr, hl, hs⟩
    refine no_live_of_EMPTY hC hp hEm hr hs ?_
    rcases hl with h | h | h
    · exact Or.inl (Or.inl h)
    · exact Or.inl (Or.inr h)
    · exact Or.inr h
  · intro hn
    cases hcase : p.status with
    | EMPTY => rfl
    | RESERVED =>
      exfalso
      obtain ⟨r, hr, hl, hs⟩ := hOK.1.1 hcase
      exact hn ⟨r, hr, by rcases hl with h | h; exact Or.inl h; exact Or.inr (Or.inl h),
        hs⟩
    | OCCUPIED =>
      exfalso
      obtain ⟨r, hr, hl, hs⟩ := hOK.2.1 hcase
      exact hn ⟨r, hr, Or.inr (Or.inr hl), hs⟩

/-- C1 witness: a concrete consistent spot in the initialized system. -/
theorem C1_spot_consistency_witness :
    ({ spot_id := "F1-001", floor := 1, spot_type := "EV", status := SpotStatus.EMPTY } : ParkingSpot) ∈ (runOps []).spots ∧
    (({ spot_id := "F1-001", floor := 1, spot_type := "EV", status := SpotStatus.EMPTY } : ParkingSpot).status = SpotStatus.EMPTY ↔
      ¬ ∃ r ∈ (runOps []).reservations,
        (r.status = ReservationStatus.RESERVATION ∨
         r.status = ReservationStatus.WAITING ∨
         r.status = ReservationStatus.ACTIVE) ∧
        r.spot_id = ({ spot_id := "F1-001", floor := 1, spot_type := "EV", status := SpotStatus.EMPTY } : ParkingSpot).spot_id) :=
  ⟨by decide, (C1_spot_consistency [] _ (by decide)).2.2⟩

/-- C2: on every reachable state, a failing `cancel_reservation` mutates
nothing: the returned state is the input state, component for component. -/
theorem C2_cancel_atomic (s : SysState) (h : Reachable s) (rid : Nat)
    (hfail : (cancel_reservation s rid).1 = false) :
    (cancel_reservation s rid).2 = s :=
  cancel_fail_eq (ginv_reachable s h) hfail

/-- C2 witness: cancelling a nonexistent reservation right after
initialization fails and changes nothing. -/
theorem C2_cancel_atomic_witness :
    (cancel_reservation (runOps []) 0).1 = false ∧
    (cancel_reservation (runOps []) 0).2 = runOps [] :=
  ⟨by decide, C2_cancel_atomic (runOps []) ⟨[], rfl⟩ 0 (by decide)⟩

/-- C9: after initialization and after every operation sequence, the gate
ring still holds exactly its capacity 3 of tokens, and the buffer holds
Gate1, Gate2, Gate3 each exactly once (none duplicated, none lost). -/
theorem C9_gate_ring (ops : List Op) :
    (runOps ops).gates.capacity = 3 ∧ (runOps ops).gates.count = 3 ∧
    (runOps ops).gates.buf = [some "Gate1", some "Gate2", some "Gate3"] := by
  obtain ⟨k, hk, hg⟩ := (ginv_runOps ops).2.2.2.2.2.2.1
  rw [hg]
  exact ⟨rfl, rfl, rfl⟩

/-- C10: `initialize_spots` creates exactly the 60 documented spots (floors
1–3, indices 1–20, EV for indices ≤ 5), all EMPTY, with 45 normal and 15 EV
allocator entries, empty admission queue and undo stack, and the gate ring
holding Gate1, Gate2, Gate3. -/
theorem C10_initialization :
    initState.spots.length = 60 ∧
    initState.spots.all (fun p => p.status == SpotStatus.EMPTY) = true ∧
    ((List.range' 1 3).all (fun fl => (List.range' 1 20).all (fun i =>
      initState.spots.contains
        { spot_id := mkSpotId fl i, floor := fl,
          spot_type := if i ≤ 5 then "EV" else "normal",
          status := SpotStatus.EMPTY }))) = true ∧
    initState.available_normal.length = 45 ∧
    initState.available_ev.length = 15 ∧
    initState.entry_queue = [] ∧
    initState.undo_stack = [] ∧
    initState.gates = ringState 0 := by
  decide

/-- C4 counterexample: a ticket whose reservation was removed by a
successful `cancel_reservation` can still be processed successfully later:
after cancel, undo, and a second `request_check_in`, the stale first queue
entry for the same id reaches the head while the id is back in the
membership set, and `process_next_check_in` assigns it a gate. -/
theorem C4_counterexample :
    (cancel_reservation
      (runOps [Op.reserveOp "u" "lp" 0 1 "normal", Op.requestOp 0]) 0).1 = true ∧
    (runOps [Op.reserveOp "u" "lp" 0 1 "normal", Op.requestOp 0, Op.cancelOp 0,
      Op.undoOp, Op.requestOp 0]).entry_queue = 0 :: 0 :: [] ∧
    (process_next_check_in (runOps [Op.reserveOp "u" "lp" 0 1 "normal",
      Op.requestOp 0, Op.cancelOp 0, Op.undoOp, Op.requestOp 0])).1 =
      ProcResult.ok 0 "Gate1" := by
  decide

/-- C4 (amended): while a cancelled ticket's id stays out of the admission
membership set, the ticket is skipped when it reaches the queue head:
`process_next_check_in` reports the stale-skip outcome and the only state
change is removing the head queue node — no gate is consumed, no
reservation or spot is touched, and no undo record is pushed. -/
theorem C4_stale_ticket_skipped (s : SysState) (rid : Nat) (rest : List Nat)
    (hq : s.entry_queue = rid :: rest) (hnm : rid ∉ s.queued_set) :
    process_next_check_in s =
      (ProcResult.skippedStale, { s with entry_queue := rest }) :=
  process_stale_eq hq hnm

/-- C4 witness: right after reserve, request and cancel, the cancelled
ticket sits at the queue head outside the membership set and is skipped. -/
theorem C4_stale_ticket_skipped_witness :
    (runOps [Op.reserveOp "u" "lp" 0 1 "normal", Op.requestOp 0,
      Op.cancelOp 0]).entry_queue = 0 :: [] ∧
    0 ∉ (runOps [Op.reserveOp "u" "lp" 0 1 "normal", Op.requestOp 0,
      Op.cancelOp 0]).queued_set ∧
    process_next_check_in (runOps [Op.reserveOp "u" "lp" 0 1 "normal",
      Op.requestOp 0, Op.cancelOp 0]) =
      (ProcResult.skippedStale,
       { runOps [Op.reserveOp "u" "lp" 0 1 "normal", Op.requestOp 0,
           Op.cancelOp 0] with entry_queue := [] }) :=
  ⟨by decide, by decide,
    C4_stale_ticket_skipped
      (runOps [Op.reserveOp "u" "lp" 0 1 "normal", Op.requestOp 0, Op.cancelOp 0])
      0 [] (by decide) (by decide)⟩

/-- C7: undoing a PROCESS_CHECKIN record whose reservation is still ACTIVE
on an OCCUPIED spot restores the reservation to WAITING with the gate
cleared, restores the spot to RESERVED, re-inserts the ticket at the front
of the admission queue and into the membership set, and rotates the gate
ring by capacity−1 dequeue/enqueue cycles — which on the full three-token
ring exactly undoes the forward rotation of the original assignment. -/
theorem C7_undo_process_checkin (s : SysState) (op : UndoOp) (rest : List UndoOp)
    (r : Reservation) (spot : ParkingSpot)
    (hst : s.undo_stack = op :: rest) (hop : op.op_type = "PROCESS_CHECKIN")
    (hr : getResv s op.reservation_id = some r)
    (hact : r.status = ReservationStatus.ACTIVE)
    (hsp : get_spot_by_id s.spots r.spot_id = some spot)
    (hocc : spot.status = SpotStatus.OCCUPIED) :
    undo_last s = (true,
      { s with undo_stack := rest,
               spots := setSpotStatus s.spots spot.spot_id SpotStatus.RESERVED,
               reservations := setResv s.reservations op.reservation_id
                 (fun x => { x with gate := none,
                                    status := ReservationStatus.WAITING }),
               entry_queue := op.reservation_id :: s.entry_queue,
               queued_set := insert op.reservation_id s.queued_set,
               gates := cq_cycles (s.gates.count - 1) s.gates }) ∧
    (∀ k, k < 3 →
      cq_cycles ((cq_cycle (ringState k)).count - 1) (cq_cycle (ringState k)) =
        ringState k) := by
  constructor
  · have h1 : ¬ op.op_type = "RESERVE" := by rw [hop]; decide
    have h2 : ¬ op.op_type = "CANCEL" := by rw [hop]; decide
    have h3 : ¬ op.op_type = "REQUEST_CHECKIN" := by rw [hop]; decide
    unfold undo_last
    rw [hst]
    dsimp only
    rw [if_neg h1, if_neg h2, if_neg h3, if_pos hop]
    rw [show getResv { s with undo_stack := rest } op.reservation_id = some r from hr]
    dsimp only
    rw [if_neg (not_not_intro hact)]
    rw [show get_spot_by_id s.spots r.spot_id = some spot from hsp]
    dsimp only
    rw [if_neg (not_not_intro hocc)]
  · intro k hk
    interval_cases k <;> rfl

/-- C7 witness: after reserve, request and process, undoing the processing
succeeds on the recorded PROCESS_CHECKIN entry. -/
theorem C7_undo_process_checkin_witness :
    (runOps [Op.reserveOp "u" "lp" 0 1 "normal", Op.requestOp 0,
      Op.processOp]).undo_stack =
      ⟨"PROCESS_CHECKIN", 0⟩ :: ⟨"REQUEST_CHECKIN", 0⟩ :: ⟨"RESERVE", 0⟩ :: [] ∧
    (undo_last (runOps [Op.reserveOp "u" "lp" 0 1 "normal", Op.requestOp 0,
      Op.processOp])).1 = true := by
  refine ⟨by decide, ?_⟩
  rw [(C7_undo_process_checkin
    (runOps [Op.reserveOp "u" "lp" 0 1 "normal", Op.requestOp 0, Op.processOp])
    ⟨"PROCESS_CHECKIN", 0⟩ (⟨"REQUEST_CHECKIN", 0⟩ :: ⟨"RESERVE", 0⟩ :: [])
    { reservation_id := 0, username := "u", license_plate := "lp", spot_id := "F1-006", start_time := 0, end_time := 1, status := ReservationStatus.ACTIVE, gate := some "Gate1" }
    { spot_id := "F1-006", floor := 1, spot_type := "normal", status := SpotStatus.OCCUPIED }
    (by decide) rfl (by decide) rfl (by decide) rfl).1]

/-- C8 counterexample: undoing a REQUEST_CHECKIN record returns success and
clears the membership set, but the reservation id is still present in the
admission queue afterwards — the queue node is not removed. -/
theorem C8_counterexample :
    (undo_last (runOps [Op.reserveOp "u" "lp" 0 1 "normal",
      Op.requestOp 0])).1 = true ∧
    0 ∈ (undo_last (runOps [Op.reserveOp "u" "lp" 0 1 "normal",
      Op.requestOp 0])).2.entry_queue ∧
    0 ∉ (undo_last (runOps [Op.reserveOp "u" "lp" 0 1 "normal",
      Op.requestOp 0])).2.queued_set := by
  decide

/-- C8 (amended): undoing a REQUEST_CHECKIN record whose ticket is still in
the admission membership set returns success, removes the id from the
membership set (marking the remaining queue node stale rather than removing
it), and restores the WAITING reservation to RESERVATION; the linked queue
itself is unchanged. -/
theorem C8_undo_request_checkin (s : SysState) (op : UndoOp) (rest : List UndoOp)
    (r : Reservation)
    (hst : s.undo_stack = op :: rest) (hop : op.op_type = "REQUEST_CHECKIN")
    (hmem : op.reservation_id ∈ s.queued_set)
    (hr : getResv s op.reservation_id = some r)
    (hw : r.status = ReservationStatus.WAITING) :
    undo_last s = (true,
      { s with undo_stack := rest,
               queued_set := s.queued_set.erase op.reservation_id,
               reservations := setResv s.reservations op.reservation_id
                 (fun x => { x with status := ReservationStatus.RESERVATION }) }) := by
  have h1 : ¬ op.op_type = "RESERVE" := by rw [hop]; decide
  have h2 : ¬ op.op_type = "CANCEL" := by rw [hop]; decide
  unfold undo_last
  rw [hst]
  dsimp only
  rw [if_neg h1, if_neg h2, if_pos hop]
  rw [if_pos hmem]
  rw [show getResv { s with undo_stack := rest, queued_set := s.queued_set.erase op.reservation_id } op.reservation_id = some r from hr]
  dsimp only
  rw [if_pos hw]

/-- C8 witness: after reserve and request, undoing the check-in request
succeeds on the recorded REQUEST_CHECKIN entry. -/
theorem C8_undo_request_checkin_witness :
    (runOps [Op.reserveOp "u" "lp" 0 1 "normal", Op.requestOp 0]).undo_stack =
      ⟨"REQUEST_CHECKIN", 0⟩ :: ⟨"RESERVE", 0⟩ :: [] ∧
    0 ∈ (runOps [Op.reserveOp "u" "lp" 0 1 "normal", Op.requestOp 0]).queued_set ∧
    (undo_last (runOps [Op.reserveOp "u" "lp" 0 1 "normal",
      Op.requestOp 0])).1 = true := by
  refine ⟨by decide, by decide, ?_⟩
  rw [C8_undo_request_checkin
    (runOps [Op.reserveOp "u" "lp" 0 1 "normal", Op.requestOp 0])
    ⟨"REQUEST_CHECKIN", 0⟩ (⟨"RESERVE", 0⟩ :: [])
    { reservation_id := 0, username := "u", license_plate := "lp", spot_id := "F1-006", start_time := 0, end_time := 1, status := ReservationStatus.WAITING, gate := none }
    (by decide) rfl (by decide) (by decide) rfl]

/-- C3 counterexample: reserve-then-undo does not restore the allocator
contents.  On a reachable state holding a stale allocator entry (left by
cancel and its undo), the reserve discards the stale entry on pop and the
undo re-inserts only the allocated spot, so the allocator differs from its
pre-reserve contents. -/
theorem C3_counterexample :
    (reserve (runOps [Op.reserveOp "u" "lp" 0 1 "normal", Op.cancelOp 0,
      Op.undoOp]) "u" "lp" 0 1 "normal").1 ≠ none ∧
    (undo_last (reserve (runOps [Op.reserveOp "u" "lp" 0 1 "normal",
      Op.cancelOp 0, Op.undoOp]) "u" "lp" 0 1 "normal").2).1 = true ∧
    (undo_last (reserve (runOps [Op.reserveOp "u" "lp" 0 1 "normal",
      Op.cancelOp 0, Op.undoOp]) "u" "lp" 0 1 "normal").2).2.available_normal ≠
      (runOps [Op.reserveOp "u" "lp" 0 1 "normal", Op.cancelOp 0,
        Op.undoOp]).available_normal := by
  decide

/-- C3 (amended): on every reachable state, a successful `reserve` followed
immediately by `undo_last` succeeds and restores the exact pre-reserve spot
pool and reservation ledger (and queue, membership set, gate ring and undo
stack); the allocator contents and the id counter are not restored in
general, because pop discards stale lazy-deletion entries that are never
re-inserted. -/
theorem C3_reserve_undo (s : SysState) (h : Reachable s) (u lp : String)
    (st en : Int) (ty : String)
    (hsucc : (reserve s u lp st en ty).1 ≠ none) :
    (undo_last (reserve s u lp st en ty).2).1 = true ∧
    (undo_last (reserve s u lp st en ty).2).2.spots = s.spots ∧
    (undo_last (reserve s u lp st en ty).2).2.reservations = s.reservations ∧
    (undo_last (reserve s u lp st en ty).2).2.queued_set = s.queued_set ∧
    (undo_last (reserve s u lp st en ty).2).2.entry_queue = s.entry_queue ∧
    (undo_last (reserve s u lp st en ty).2).2.gates = s.gates ∧
    (undo_last (reserve s u lp st en ty).2).2.undo_stack = s.undo_stack := by
  have hG := ginv_reachable s h
  obtain ⟨hC, hS, hGN, hL, hSp, hH, hR, hK⟩ := hG
  cases ho : reserve s u lp st en ty with
  | mk o s' =>
    cases o with
    | none =>
      rw [ho] at hsucc
      exact absurd rfl hsucc
    | some r =>
      obtain ⟨t, spot, h2, hg1, hg2, hg3, hsel, hpop, hreq, hseq⟩ :=
        reserve_some_inv ho
      subst hreq
      subst hseq
      dsimp only
      obtain ⟨pre, hheap, hfind, hEsp, hpref⟩ := pop_best_spot_some hpop
      have hmem : spot ∈ s.spots := List.mem_of_find?_eq_some hfind
      have hty : spot.spot_type = tagType t := by
        have hin : spot.spot_id ∈ getHeap s t := by
          rw [hheap]
          exact List.mem_append_right _ (List.mem_cons_self _ _)
        obtain ⟨p, hp, hpid, hpty⟩ := (heapsOK_to ⟨hH.1, hH.2⟩ t).2.1 spot.spot_id hin
        rw [spot_eq_of_mem_of_id_eq hSp.1 hmem hp hpid.symm]
        exact hpty
      have hfresh : ∀ x ∈ s.reservations, x.reservation_id ≠ s.counter :=
        fun x hx => Nat.ne_of_lt (hL.2 x hx).1
      have hcnotq : s.counter ∉ s.queued_set := by
        intro hc
        obtain ⟨r2, hr2, hid, _⟩ := hS.1 _ hc
        exact hfresh r2 hr2 hid
      have hins : insertResv s.reservations
          { reservation_id := s.counter, username := sTrim u,
            license_plate := sTrim lp, spot_id := spot.spot_id, start_time := st,
            end_time := en, status := ReservationStatus.RESERVATION,
            gate := none } =
          s.reservations ++
            [{ reservation_id := s.counter, username := sTrim u,
               license_plate := sTrim lp, spot_id := spot.spot_id,
               start_time := st, end_time := en,
               status := ReservationStatus.RESERVATION, gate := none }] :=
        insertResv_fresh (fun x hx => hfresh x hx)
      have hrX : getResv
          { setHeap s t h2 with
              spots := setSpotStatus s.spots spot.spot_id SpotStatus.RESERVED,
              reservations := insertResv s.reservations
                { reservation_id := s.counter, username := sTrim u,
                  license_plate := sTrim lp, spot_id := spot.spot_id,
                  start_time := st, end_time := en,
                  status := ReservationStatus.RESERVATION, gate := none },
              counter := s.counter + 1,
              undo_stack := ⟨"RESERVE", s.counter⟩ :: s.undo_stack }
          (⟨"RESERVE", s.counter⟩ : UndoOp).reservation_id =
          some { reservation_id := s.counter, username := sTrim u,
                 license_plate := sTrim lp, spot_id := spot.spot_id,
                 start_time := st, end_time := en,
                 status := ReservationStatus.RESERVATION, gate := none } := by
        show (insertResv s.reservations _).find? (fun x => x.reservation_id == s.counter) = _
        rw [hins]
        exact find?_fresh_append rfl hfresh
      have hspX : get_spot_by_id
          (setSpotStatus s.spots spot.spot_id SpotStatus.RESERVED) spot.spot_id =
          some { spot with status := SpotStatus.RESERVED } := by
        rw [get_spot_by_id_setSpotStatus]
        rw [show get_spot_by_id s.spots spot.spot_id = some spot from hfind]
        exact congrArg some (by dsimp only; rw [if_pos rfl])
      have hselX : select_heap
          ({ spot with status := SpotStatus.RESERVED } : ParkingSpot).spot_type =
          some t := by
        show select_heap spot.spot_type = some t
        rw [hty]
        exact select_heap_tagType t
      rw [undo_reserve_success_eq rfl rfl hrX hspX rfl hselX]
      refine ⟨rfl, ?_, ?_, ?_, ?_, ?_, ?_⟩
      · rw [setHeap_spots]
        show setSpotStatus (setSpotStatus s.spots spot.spot_id SpotStatus.RESERVED)
          spot.spot_id SpotStatus.EMPTY = s.spots
        rw [setSpotStatus_setSpotStatus]
        exact setSpotStatus_eq_self (fun p hp hpid => by
          rw [spot_eq_of_mem_of_id_eq hSp.1 hp hmem hpid]
          exact hEsp)
      · rw [setHeap_reservations]
        show (insertResv s.reservations _).filter
          (fun x => x.reservation_id != s.counter) = s.reservations
        rw [hins]
        exact filter_fresh_append rfl hfresh
      · rw [setHeap_queued_set]
        show (setHeap s t h2).queued_set.erase s.counter = s.queued_set
        rw [setHeap_queued_set]
        exact Finset.erase_eq_of_not_mem hcnotq
      · rw [setHeap_entry_queue]
        show (setHeap s t h2).entry_queue = s.entry_queue
        rw [setHeap_entry_queue]
      · rw [setHeap_gates]
        show (setHeap s t h2).gates = s.gates
        rw [setHeap_gates]
      · rw [setHeap_undo_stack]

/-- C3 witness: a fresh reserve right after initialization, undone. -/
theorem C3_reserve_undo_witness :
    (reserve (runOps []) "u" "lp" 0 1 "normal").1 ≠ none ∧
    (undo_last (reserve (runOps []) "u" "lp" 0 1 "normal").2).1 = true ∧
    (undo_last (reserve (runOps []) "u" "lp" 0 1 "normal").2).2.spots =
      (runOps []).spots ∧
    (undo_last (reserve (runOps []) "u" "lp" 0 1 "normal").2).2.reservations =
      (runOps []).reservations := by
  have h := C3_reserve_undo (runOps []) ⟨[], rfl⟩ "u" "lp" 0 1 "normal" (by decide)
  exact ⟨by decide, h.1, h.2.1, h.2.2.1⟩

/-- C5: on any reachable state, `check_out` of an ACTIVE reservation whose
spot is OCCUPIED returns fee = max(0, end−start) × hourly_rate, marks the
reservation DONE and the spot EMPTY, re-admits the spot to its class
allocator, and pushes one CHECKOUT undo record; when it returns None the
state is unchanged. -/
theorem C5_checkout_fee (s : SysState) (h : Reachable s) (rid : Nat) (rate : Int) :
    (∀ r spot, getResv s rid = some r → r.status = ReservationStatus.ACTIVE →
      get_spot_by_id s.spots r.spot_id = some spot →
      spot.status = SpotStatus.OCCUPIED →
      ∃ t, select_heap spot.spot_type = some t ∧
        check_out s rid rate = (some (max 0 (r.end_time - r.start_time) * rate),
          { setHeap
              { s with reservations := setResv s.reservations rid
                         (fun x => { x with status := ReservationStatus.DONE }),
                       spots := setSpotStatus s.spots spot.spot_id SpotStatus.EMPTY }
              t (heapInsert spot.spot_id (getHeap s t)) with
            undo_stack := ⟨"CHECKOUT", rid⟩ :: s.undo_stack })) ∧
    ((check_out s rid rate).1 = none → (check_out s rid rate).2 = s) := by
  have hG := ginv_reachable s h
  constructor
  · intro r spot hr hst hsp hso
    obtain ⟨t, hsel⟩ :=
      select_heap_valid (hG.2.2.2.2.1.2 spot (get_spot_by_id_eq_some hsp).1)
    exact ⟨t, hsel, checkout_success_eq hr hst hsp hso hsel⟩
  · exact checkout_fail_eq hG

/-- C5 witness: the documented example — interval [0,3) at rate 100 yields
fee 300. -/
theorem C5_checkout_fee_witness :
    (check_out (runOps [Op.reserveOp "u" "lp" 0 3 "normal", Op.requestOp 0,
      Op.processOp]) 0 100).1 = some 300 := by
  obtain ⟨t, hsel, heq⟩ :=
    (C5_checkout_fee
      (runOps [Op.reserveOp "u" "lp" 0 3 "normal", Op.requestOp 0, Op.processOp])
      ⟨[Op.reserveOp "u" "lp" 0 3 "normal", Op.requestOp 0, Op.processOp], rfl⟩
      0 100).1
      { reservation_id := 0, username := "u", license_plate := "lp", spot_id := "F1-006", start_time := 0, end_time := 3, status := ReservationStatus.ACTIVE, gate := some "Gate1" }
      { spot_id := "F1-006", floor := 1, spot_type := "normal", status := SpotStatus.OCCUPIED }
      (by decide) rfl (by decide) rfl
  rw [heq]
  show (some (max 0 ((3 : Int) - 0) * 100) : Option Int) = some 300
  decide

/-- C6: on any reachable state, two consecutive successful `reserve` calls
of one class allocate spots with strictly increasing identifiers, and the
first call takes the lowest-identifier spot that is EMPTY in that class —
so any run of N consecutive successful reservations yields a strictly
increasing identifier sequence, each element minimal among the free spots
of the class at its step. -/
theorem C6_allocation_order (s : SysState) (h : Reachable s)
    (u1 lp1 u2 lp2 : String) (st1 en1 st2 en2 : Int) (ty : String)
    (h1 : (reserve s u1 lp1 st1 en1 ty).1 ≠ none)
    (h2 : (reserve (reserve s u1 lp1 st1 en1 ty).2 u2 lp2 st2 en2 ty).1 ≠ none) :
    ∃ r1 r2, (reserve s u1 lp1 st1 en1 ty).1 = some r1 ∧
      (reserve (reserve s u1 lp1 st1 en1 ty).2 u2 lp2 st2 en2 ty).1 = some r2 ∧
      strLt r1.spot_id r2.spot_id = true ∧
      ∃ t, select_heap ty = some t ∧
        ∀ p ∈ s.spots, p.status = SpotStatus.EMPTY → p.spot_type = tagType t →
          sLeP r1.spot_id p.spot_id := by
  have hG := ginv_reachable s h
  cases ho1 : reserve s u1 lp1 st1 en1 ty with
  | mk o1 s1 =>
    cases o1 with
    | none =>
      rw [ho1] at h1
      exact absurd rfl h1
    | some r1 =>
      have hG1 : GInv s1 := by
        have hg := ginv_reserve s u1 lp1 st1 en1 ty hG
        rw [ho1] at hg
        exact hg
      obtain ⟨t, spot1, hp1, _, _, _, hsel1, hpop1, hr1eq, hs1eq⟩ :=
        reserve_some_inv ho1
      rw [ho1] at h2
      dsimp only at h2 ⊢
      cases ho2 : reserve s1 u2 lp2 st2 en2 ty with
      | mk o2 s2 =>
        cases o2 with
        | none =>
          rw [ho2] at h2
          exact absurd rfl h2
        | some r2 =>
          obtain ⟨t2, spot2, hp2, _, _, _, hsel2, hpop2, hr2eq, hs2eq⟩ :=
            reserve_some_inv ho2
          rw [hsel1] at hsel2
          injection hsel2 with ht
          subst ht
          have hmin1 := pop_best_spot_min hG hpop1
          have hmin2 := pop_best_spot_min hG1 hpop2
          have hsp2mem : spot2 ∈
              setSpotStatus s.spots spot1.spot_id SpotStatus.RESERVED := by
            have hm := hmin2.1
            rw [hs1eq] at hm
            exact hm
          obtain ⟨p, hp, hpeq⟩ := mem_setSpotStatus_elim hsp2mem
          by_cases hpid : p.spot_id = spot1.spot_id
          · exfalso
            have hst2 : spot2.status = SpotStatus.EMPTY := hmin2.2.1
            rw [hpeq, if_pos hpid] at hst2
            simp at hst2
          · have hspot2p : spot2 = p := by
              rw [hpeq, if_neg hpid]
            have hpE : p.status = SpotStatus.EMPTY := by
              rw [← hspot2p]
              exact hmin2.2.1
            have hpty : p.spot_type = tagType t := by
              rw [← hspot2p]
              exact hmin2.2.2.1
            have hle : sLeP spot1.spot_id p.spot_id :=
              hmin1.2.2.2 p hp hpE hpty
            have hlt : strLt spot1.spot_id p.spot_id = true :=
              strLt_of_sLeP_ne hle (Ne.symm hpid)
            refine ⟨r1, r2, rfl, rfl, ?_, t, hsel1, ?_⟩
            · rw [hr1eq, hr2eq]
              show strLt spot1.spot_id spot2.spot_id = true
              rw [hspot2p]
              exact hlt
            · intro q hq hqE hqty
              rw [hr1eq]
              exact hmin1.2.2.2 q hq hqE hqty

/-- C6 witness: the first two reservations after initialization take
F1-006 then F1-007. -/
theorem C6_allocation_order_witness :
    (reserve (runOps []) "u" "lp" 0 1 "normal").1 ≠ none ∧
    (reserve (reserve (runOps []) "u" "lp" 0 1 "normal").2 "u" "lp" 0 1
      "normal").1 ≠ none ∧
    (∃ r1 r2, (reserve (runOps []) "u" "lp" 0 1 "normal").1 = some r1 ∧
      (reserve (reserve (runOps []) "u" "lp" 0 1 "normal").2 "u" "lp" 0 1
        "normal").1 = some r2 ∧
      strLt r1.spot_id r2.spot_id = true ∧
      ∃ t, select_heap "normal" = some t ∧
        ∀ p ∈ (runOps []).spots, p.status = SpotStatus.EMPTY →
          p.spot_type = tagType t → sLeP r1.spot_id p.spot_id) :=
  ⟨by decide, by decide,
    C6_allocation_order (runOps []) ⟨[], rfl⟩ "u" "lp" "u" "lp" 0 1 0 1 "normal"
      (by decide) (by decide)⟩

end Parking
